import Mathlib

/-!
Door locker security system: Control ECU (src/Control/ECU2.c)

A shallow embedding of the Control-side application: the link handshake,
the password lifecycle (createPass, getPass, wrongPass), the two timer
call-backs and one iteration of the main loop.

Bytes are natural numbers; the two uint8 counters that are incremented
(`wrongPassCounter`, the static `tick`s) wrap modulo 256.  The serial
channel is the list `rx` of bytes still to be received; a blocking receive
on an exhausted list never returns, which is `none`.  Everything the ECU
does to the outside world is appended to `trace` in program order.

The busy wait `while(freezeFlag == 1);` ends only if `main` sees the timer
call-back clear the flag.  `freezeFlag` is not declared `volatile` in either
ECU, so the source does not settle that; the field `rereadsFlag` of the state
records which way the build goes, and a wait that never ends is `none`.
-/

namespace Control

/-! ## Definitions of ECU2.c -/

def MC2_ASK : Nat := 0x01
def MC1_READY : Nat := 0x02
def MC1_ASK : Nat := 0x03
def MC2_READY : Nat := 0x04

/-- Memory address of the password inside the external EEPROM. -/
def MEMORY_ADDRESS : Nat := 0x0001

/-- Modelled from the spec: the logical true of std_types.h, a header that is
not among the sources ("overall result is true only if all 5 positions match"). -/
def TRUE : Nat := 1

/-- Modelled from the spec: the logical false of std_types.h, a header that is
not among the sources. -/
def FALSE : Nat := 0

inductive APPLICATION_STATE where
  | CREATE_PASS
  | MAIN_SCREEN
  | OPEN_DOOR
  | CHANGE_PASS
  | DOOR_UNLOCKING
  | ALARM
  deriving DecidableEq, Repr

open APPLICATION_STATE

/-- The integer value of an enumerator, as `UART_sendByte(state)` transmits it. -/
def APPLICATION_STATE.code : APPLICATION_STATE → Nat
  | CREATE_PASS => 0
  | MAIN_SCREEN => 1
  | OPEN_DOOR => 2
  | CHANGE_PASS => 3
  | DOOR_UNLOCKING => 4
  | ALARM => 5

/-! ## Peripheral drivers (headers only; their sources are external) -/

inductive DcMotor_State where
  | DC_MOTOR_STOP
  | DC_MOTOR_CW
  | DC_MOTOR_CCW
  deriving DecidableEq, Repr

open DcMotor_State

inductive Timer1_Mode where
  | TIMER1_COMPARE
  | TIMER1_OVERFLOW
  deriving DecidableEq, Repr

open Timer1_Mode

inductive Timer1_Prescaler where
  | F_CPU_1024
  deriving DecidableEq, Repr

open Timer1_Prescaler

/-- Modelled from the spec: the configuration record of the timer peripheral
abstraction (timer1.h is not among the sources); the four fields are the four
positional initialisers the application writes. -/
structure Timer1_ConfigType where
  initial_value : Nat
  compare_value : Nat
  prescaler : Timer1_Prescaler
  mode : Timer1_Mode
  deriving DecidableEq, Repr

/-- The two functions the application registers with `TIMER1_setCallBack`. -/
inductive CallBack where
  | openDoor
  | alarm
  deriving DecidableEq, Repr

/-- One externally visible action of the Control ECU. -/
inductive Event where
  | UART_sendByte (data : Nat)
  | EEPROM_readByte (addr : Nat)
  | EEPROM_writeByte (addr : Nat) (data : Nat)
  | delay_ms (ms : Nat)
  | DcMotor_Rotate (st : DcMotor_State) (speed : Nat)
  | BUZZER_on
  | BUZZER_off
  | TIMER1_setCallBack (cb : CallBack)
  | TIMER1_init (cfg : Timer1_ConfigType)
  | TIMER1_deInit
  deriving DecidableEq, Repr

/-- The globals of ECU2.c, the two function-static tick counters, and the
devices the application talks to. -/
structure ECU2 where
  /-- `APPLICATION_STATE state` -/
  state : APPLICATION_STATE
  /-- `uint8 wrongPassCounter` -/
  wrongPassCounter : Nat
  /-- `uint8 freezeFlag` -/
  freezeFlag : Nat
  /-- `static uint8 tick` of `openDoorCallBackFunction` -/
  openDoorTick : Nat
  /-- `static uint8 tick` of `alarmCallBackFunction` -/
  alarmTick : Nat
  /-- content of the external EEPROM, by address -/
  eeprom : Nat → Nat
  /-- current programming of timer 1; `none` when de-initialised -/
  timer1 : Option Timer1_ConfigType
  /-- function registered with the timer driver -/
  callBack : Option CallBack
  /-- bytes that will arrive on the UART, oldest first -/
  rx : List Nat
  /-- everything done so far, oldest first -/
  trace : List Event
  /-- not a variable of ECU2.c but a property of the build: whether `main`
  loads `freezeFlag` from memory at every test of `while(freezeFlag == 1);`.
  ECU2.c declares `uint8 freezeFlag` without `volatile` and the loop body is
  empty, so the source leaves this open: a compiler may test the value it
  already holds and never load the flag again. -/
  rereadsFlag : Bool

/-- Append one action to the trace. -/
def emit (e : Event) (s : ECU2) : ECU2 :=
  { s with trace := s.trace ++ [e] }

/-- Modelled from the spec: `UART_sendByte` of the serial transport (uart.c is
not among the sources): send one byte. -/
def UART_sendByte (data : Nat) (s : ECU2) : ECU2 :=
  emit (Event.UART_sendByte data) s

/-- Modelled from the spec: `UART_recieveByte` of the serial transport (uart.c
is not among the sources): a blocking receive of one byte with no timeout. -/
def UART_recieveByte (s : ECU2) : Option (Nat × ECU2) :=
  match s.rx with
  | [] => none
  | b :: rest => some (b, { s with rx := rest })

/-- The idiom `while(UART_recieveByte() != tok);` on the pending bytes: drop
bytes up to and including the first `tok`. -/
def awaitToken (tok : Nat) : List Nat → Option (List Nat)
  | [] => none
  | b :: rest => if b ≠ tok then awaitToken tok rest else some rest

/-- The idiom `while(UART_recieveByte() != tok);`. -/
def waitFor (tok : Nat) (s : ECU2) : Option ECU2 :=
  (awaitToken tok s.rx).map (fun rest => { s with rx := rest })

/-- Modelled from the spec: `EEPROM_readByte` of the storage device
(external_eeprom.c is not among the sources): read one byte at an address. -/
def EEPROM_readByte (addr : Nat) (s : ECU2) : Nat × ECU2 :=
  (s.eeprom addr, emit (Event.EEPROM_readByte addr) s)

/-- Modelled from the spec: `EEPROM_writeByte` of the storage device
(external_eeprom.c is not among the sources): write one byte at an address. -/
def EEPROM_writeByte (addr : Nat) (data : Nat) (s : ECU2) : ECU2 :=
  emit (Event.EEPROM_writeByte addr data)
    { s with eeprom := fun a => if a = addr then data else s.eeprom a }

def delay_ms (ms : Nat) (s : ECU2) : ECU2 :=
  emit (Event.delay_ms ms) s

/-- Modelled from the spec: `DcMotor_Rotate` of the motor drive abstraction
(dc_motor.c is not among the sources). -/
def DcMotor_Rotate (st : DcMotor_State) (speed : Nat) (s : ECU2) : ECU2 :=
  emit (Event.DcMotor_Rotate st speed) s

/-- Modelled from the spec: `BUZZER_on` of the buzzer drive abstraction
(buzzer.c is not among the sources). -/
def BUZZER_on (s : ECU2) : ECU2 :=
  emit Event.BUZZER_on s

/-- Modelled from the spec: `BUZZER_off` of the buzzer drive abstraction
(buzzer.c is not among the sources). -/
def BUZZER_off (s : ECU2) : ECU2 :=
  emit Event.BUZZER_off s

/-- Modelled from the spec: `TIMER1_setCallBack` of the timer peripheral
abstraction (timer1.c is not among the sources): register the call-back. -/
def TIMER1_setCallBack (cb : CallBack) (s : ECU2) : ECU2 :=
  emit (Event.TIMER1_setCallBack cb) { s with callBack := some cb }

/-- Modelled from the spec: `TIMER1_init` of the timer peripheral abstraction
(timer1.c is not among the sources): program a tick period. -/
def TIMER1_init (cfg : Timer1_ConfigType) (s : ECU2) : ECU2 :=
  emit (Event.TIMER1_init cfg) { s with timer1 := some cfg }

/-- Modelled from the spec: `TIMER1_deInit` of the timer peripheral abstraction
(timer1.c is not among the sources): deactivate the timer. -/
def TIMER1_deInit (s : ECU2) : ECU2 :=
  emit Event.TIMER1_deInit { s with timer1 := none }

/-! ## Functions of ECU2.c -/

/-- One data-exchange round as the Control side runs it:
`while(UART_recieveByte() != MC1_ASK); UART_sendByte(MC2_READY); x = UART_recieveByte();` -/
def recvPayload (s : ECU2) : Option (Nat × ECU2) := do
  let s1 ← waitFor MC1_ASK s
  UART_recieveByte (UART_sendByte MC2_READY s1)

/-- `wrongPass`: count one more failure; the third one raises the alarm. -/
def wrongPass (s : ECU2) : ECU2 :=
  let s1 := { s with wrongPassCounter := (s.wrongPassCounter + 1) % 256 }
  if s1.wrongPassCounter = 3 then
    { s1 with state := ALARM, wrongPassCounter := 0 }
  else
    s1

/-- The `for` loop of `getPass`, with `n` iterations left at index `i`.
The locals `pass[i]` and `real[i]` are written and read only inside the
iteration that owns index `i`, so they are the bound names `p` and `r`. -/
def getPassLoop : Nat → Nat → Nat → ECU2 → Option (Nat × ECU2)
  | 0, _, passwordMatch, s => some (passwordMatch, s)
  | n + 1, i, passwordMatch, s => do
    let (p, s1) ← recvPayload s
    let (r, s2) := EEPROM_readByte (MEMORY_ADDRESS + i) s1
    let s3 := delay_ms 15 s2
    let passwordMatch := if r ≠ p then FALSE else passwordMatch
    getPassLoop n (i + 1) passwordMatch s3

/-- `getPass`: receive five bytes and compare each with the stored one. -/
def getPass (s : ECU2) : Option (Nat × ECU2) :=
  getPassLoop 5 0 TRUE s

/-- The receiving `for` loop of `createPass`, with `n` iterations left at
index `i`; `pass` and `repass` are the two local arrays. -/
def createPassRecvLoop :
    Nat → Nat → List Nat → List Nat → Nat → ECU2 → Option (List Nat × List Nat × Nat × ECU2)
  | 0, _, pass, repass, unMatch, s => some (pass, repass, unMatch, s)
  | n + 1, i, pass, repass, unMatch, s => do
    let (p, s1) ← recvPayload s
    let pass := pass.set i p
    let (r, s2) ← recvPayload s1
    let repass := repass.set i r
    let unMatch := if repass.getD i 0 ≠ pass.getD i 0 then TRUE else unMatch
    createPassRecvLoop n (i + 1) pass repass unMatch s2

/-- The saving `for` loop of `createPass`, with `n` iterations left at index `i`. -/
def createPassSaveLoop : Nat → Nat → List Nat → ECU2 → ECU2
  | 0, _, _, s => s
  | n + 1, i, pass, s =>
    createPassSaveLoop n (i + 1) pass
      (delay_ms 15 (EEPROM_writeByte (MEMORY_ADDRESS + i) (pass.getD i 0) s))

/-- `createPass`: receive the password and its confirmation, interleaved; save
the password and go to the main screen when they agree, else start over.
The two local arrays start as five zero bytes (they are written before read). -/
def createPass (s : ECU2) : Option ECU2 := do
  let (pass, _, unMatch, s1) ←
    createPassRecvLoop 5 0 (List.replicate 5 0) (List.replicate 5 0) FALSE s
  if unMatch = FALSE then
    some { createPassSaveLoop 5 0 pass s1 with state := MAIN_SCREEN }
  else
    some { s1 with state := CREATE_PASS }

/-- `openDoorCallBackFunction`: one timer tick of the door-unlock sequence. -/
def openDoorCallBackFunction (s : ECU2) : ECU2 :=
  let s := { s with openDoorTick := (s.openDoorTick + 1) % 256 }
  if s.openDoorTick = 1 then
    DcMotor_Rotate DC_MOTOR_CW 100
      (TIMER1_init { initial_value := 0, compare_value := 23438,
                     prescaler := F_CPU_1024, mode := TIMER1_COMPARE } s)
  else if s.openDoorTick = 6 then
    DcMotor_Rotate DC_MOTOR_STOP 0 s
  else if s.openDoorTick = 7 then
    DcMotor_Rotate DC_MOTOR_CCW 100 s
  else if s.openDoorTick = 12 then
    TIMER1_deInit
      { DcMotor_Rotate DC_MOTOR_STOP 0 s with openDoorTick := 0, freezeFlag := 0 }
  else
    s

/-- `alarmCallBackFunction`: one timer tick of the alarm sequence. -/
def alarmCallBackFunction (s : ECU2) : ECU2 :=
  let s := { s with alarmTick := (s.alarmTick + 1) % 256 }
  let s :=
    if s.alarmTick = 1 then
      BUZZER_on
        (TIMER1_init { initial_value := 0, compare_value := 0,
                       prescaler := F_CPU_1024, mode := TIMER1_OVERFLOW } s)
    else
      s
  if s.alarmTick = 7 then
    TIMER1_deInit { BUZZER_off s with alarmTick := 0, freezeFlag := 0 }
  else
    s

/-- The function a timer interrupt runs. -/
def CallBack.run : CallBack → ECU2 → ECU2
  | CallBack.openDoor => openDoorCallBackFunction
  | CallBack.alarm => alarmCallBackFunction

/-- The busy wait `while(freezeFlag == 1);` of the main loop.  The loop body
is empty, so the only thing that happens while it spins is the timer
interrupt, which runs the registered call-back; `ticks` bounds how many
interrupts are waited for.  With the timer de-initialised, or no call-back
registered, no interrupt changes the flag and the wait never ends.

`freezeFlag` is not `volatile`, and only the call-back, run from the
interrupt, clears it.  Where the build loads the flag at every test
(`rereadsFlag`), the wait ends at the first test after the call-back has
cleared it.  Where it does not, the loop goes on testing the 1 it loaded on
entry: the call-back still runs and clears the flag in memory, but `main`
never sees it and the wait never ends, whatever `ticks` is. -/
def busyWait : Nat → ECU2 → Option ECU2
  | 0, s => if s.freezeFlag = 1 then none else some s
  | ticks + 1, s =>
    if s.freezeFlag = 1 then
      if s.rereadsFlag then
        match s.timer1, s.callBack with
        | some _, some cb => busyWait ticks (cb.run s)
        | _, _ => none
      else
        none
    else
      some s

/-- The announce round that opens every iteration of `while(1)` in `main`. -/
def announce (s : ECU2) : Option ECU2 := do
  let s1 ← waitFor MC1_READY (UART_sendByte MC2_ASK s)
  some (UART_sendByte s1.state.code s1)

/-- The `switch(state)` of `main`. -/
def dispatch (ticks : Nat) (s : ECU2) : Option ECU2 :=
  match s.state with
  | CREATE_PASS => createPass s
  | MAIN_SCREEN => do
    let s1 ← waitFor MC1_ASK s
    let (option, s2) ← UART_recieveByte (UART_sendByte MC2_READY s1)
    -- 43 is '+', 45 is '-'
    if option = 43 then
      some { s2 with state := OPEN_DOOR }
    else if option = 45 then
      some { s2 with state := CHANGE_PASS }
    else
      some s2
  | OPEN_DOOR => do
    let (r, s1) ← getPass s
    if r = TRUE then
      some { s1 with state := DOOR_UNLOCKING, wrongPassCounter := 0 }
    else
      some (wrongPass s1)
  | CHANGE_PASS => do
    let (r, s1) ← getPass s
    if r = TRUE then
      some { s1 with state := CREATE_PASS, wrongPassCounter := 0 }
    else
      some (wrongPass s1)
  | DOOR_UNLOCKING => do
    let s1 := { s with freezeFlag := 1 }
    let s2 := TIMER1_setCallBack CallBack.openDoor s1
    let s3 := TIMER1_init { initial_value := 0, compare_value := 10,
                            prescaler := F_CPU_1024, mode := TIMER1_COMPARE } s2
    let s4 ← busyWait ticks s3
    some { s4 with state := MAIN_SCREEN }
  | ALARM => do
    let s1 := { s with freezeFlag := 1 }
    let s2 := TIMER1_setCallBack CallBack.alarm s1
    let s3 := TIMER1_init { initial_value := 65525, compare_value := 0,
                            prescaler := F_CPU_1024, mode := TIMER1_OVERFLOW } s2
    let s4 ← busyWait ticks s3
    some { s4 with state := MAIN_SCREEN }

/-- One iteration of `while(1)` in `main`. -/
def mainIteration (ticks : Nat) (s : ECU2) : Option ECU2 := do
  let s1 ← announce s
  dispatch ticks s1

/-- The globals as `main` finds them when it enters `while(1)`: the
initialisers of ECU2.c, with the store content and the incoming bytes given.
The build is taken as one that does not load `freezeFlag` again in the busy
wait, which is all the source promises; a build that does is
`{ boot eeprom rx with rereadsFlag := true }`. -/
def boot (eeprom : Nat → Nat) (rx : List Nat) : ECU2 :=
  { state := CREATE_PASS, wrongPassCounter := 0, freezeFlag := 0,
    openDoorTick := 0, alarmTick := 0, eeprom := eeprom,
    timer1 := none, callBack := none, rx := rx, trace := [],
    rereadsFlag := false }

/-! ## Incoming byte streams -/

/-- The bytes of `n` data-exchange rounds carrying `P[i]`, `P[i+1]`, ...: each
round is some line noise (`noise k` for round `k`), the token `MC1_ASK`, then
the payload byte. -/
def passStream : Nat → Nat → (Nat → List Nat) → List Nat → List Nat
  | 0, _, _, _ => []
  | n + 1, i, noise, P =>
    noise i ++ MC1_ASK :: P.getD i 0 :: passStream n (i + 1) noise P

/-- The bytes of `n` interleaved pairs of data-exchange rounds carrying
`pass[i]`, `repass[i]`, `pass[i+1]`, ...; `noise (2 * k)` precedes the round
of `pass[k]` and `noise (2 * k + 1)` the round of `repass[k]`. -/
def pairStream : Nat → Nat → (Nat → List Nat) → List Nat → List Nat → List Nat
  | 0, _, _, _, _ => []
  | n + 1, i, noise, pass, repass =>
    noise (2 * i) ++ MC1_ASK :: pass.getD i 0 ::
      (noise (2 * i + 1) ++ MC1_ASK :: repass.getD i 0 ::
        pairStream n (i + 1) noise pass repass)

/-- The bytes the Control side consumes in one iteration of the main loop in
`OPEN_DOOR` or `CHANGE_PASS`: line noise `j` and the announce reply
`MC1_READY`, then five data-exchange rounds carrying `Q`. -/
def verifyStream (j : List Nat) (noise : Nat → List Nat) (Q : List Nat) : List Nat :=
  j ++ MC1_READY :: passStream 5 0 noise Q

/-- The bytes the Control side consumes in one iteration of the main loop in
`DOOR_UNLOCKING` or `ALARM`: line noise `j` and the announce reply. -/
def announceStream (j : List Nat) : List Nat :=
  j ++ [MC1_READY]

/-- The bytes the Control side consumes in one iteration of the main loop in
`MAIN_SCREEN`: line noise `j` and the announce reply, then one data-exchange
round carrying the menu key. -/
def menuStream (j j' : List Nat) (key : Nat) : List Nat :=
  j ++ MC1_READY :: (j' ++ [MC1_ASK, key])

/-- The actions of `n` iterations of the loop of `getPass` from index `i`. -/
def getPassTrace : Nat → Nat → List Event
  | 0, _ => []
  | n + 1, i =>
    Event.UART_sendByte MC2_READY :: Event.EEPROM_readByte (MEMORY_ADDRESS + i) ::
      Event.delay_ms 15 :: getPassTrace n (i + 1)

/-- The actions of `n` iterations of the saving loop of `createPass` from index `i`. -/
def saveTrace : Nat → Nat → List Nat → List Event
  | 0, _, _ => []
  | n + 1, i, pass =>
    Event.EEPROM_writeByte (MEMORY_ADDRESS + i) (pass.getD i 0) :: Event.delay_ms 15 ::
      saveTrace n (i + 1) pass

/-- An array after `n` iterations of a loop that stores `A[i]`, `A[i+1]`, ...
at the indices `i`, `i+1`, ... of `arr`. -/
def overwrite : Nat → Nat → List Nat → List Nat → List Nat
  | 0, _, _, arr => arr
  | n + 1, i, A, arr => overwrite n (i + 1) A (arr.set i (A.getD i 0))

/-- The store holds the secret `P`: byte `k` of `P` is at `MEMORY_ADDRESS + k`. -/
def secretIs (eeprom : Nat → Nat) (P : List Nat) : Prop :=
  ∀ k, k < 5 → eeprom (MEMORY_ADDRESS + k) = P.getD k 0

instance (eeprom : Nat → Nat) (P : List Nat) : Decidable (secretIs eeprom P) :=
  inferInstanceAs (Decidable (∀ k, k < 5 → eeprom (MEMORY_ADDRESS + k) = P.getD k 0))

/-- The motor commands in a trace, oldest first. -/
def motorCommands : List Event → List (DcMotor_State × Nat)
  | [] => []
  | Event.DcMotor_Rotate st speed :: es => (st, speed) :: motorCommands es
  | _ :: es => motorCommands es

/-- The buzzer commands in a trace, oldest first: `true` is `BUZZER_on`,
`false` is `BUZZER_off`. -/
def buzzerCommands : List Event → List Bool
  | [] => []
  | Event.BUZZER_on :: es => true :: buzzerCommands es
  | Event.BUZZER_off :: es => false :: buzzerCommands es
  | _ :: es => buzzerCommands es

/-- Run `n` iterations of `while(1)` in `main`. -/
def mainLoop : Nat → Nat → ECU2 → Option ECU2
  | 0, _, s => some s
  | n + 1, ticks, s => do
    let s1 ← mainIteration ticks s
    mainLoop n ticks s1

/-- The states the Control side can be in at the top of `while(1)`: the
initial globals with any store content and any bytes to come, in either build
(the busy wait loading `freezeFlag` again or not), then any number of
iterations, each with any number of timer interrupts. -/
inductive Reachable : ECU2 → Prop
  | init (eeprom : Nat → Nat) (rx : List Nat) (rereads : Bool) :
      Reachable { boot eeprom rx with rereadsFlag := rereads }
  | step (ticks : Nat) (s s' : ECU2) :
      Reachable s → mainIteration ticks s = some s' → Reachable s'

/-- The invariant of the retry counter. -/
def retryInvariant (s : ECU2) : Prop :=
  s.wrongPassCounter ≤ 2 ∧
    (s.wrongPassCounter ≠ 0 → s.state = OPEN_DOOR ∨ s.state = CHANGE_PASS)

instance (s : ECU2) : Decidable (retryInvariant s) :=
  inferInstanceAs (Decidable (s.wrongPassCounter ≤ 2 ∧
    (s.wrongPassCounter ≠ 0 → s.state = OPEN_DOOR ∨ s.state = CHANGE_PASS)))

/-- What the application does to timer 1: program it or deactivate it. -/
inductive TimerAction where
  | init (cfg : Timer1_ConfigType)
  | deInit
  deriving DecidableEq, Repr

/-- The timer actions in a trace of the Control ECU, oldest first. -/
def timerActions : List Event → List TimerAction
  | [] => []
  | Event.TIMER1_init cfg :: es => TimerAction.init cfg :: timerActions es
  | Event.TIMER1_deInit :: es => TimerAction.deInit :: timerActions es
  | _ :: es => timerActions es

/-- The bytes sent over the UART in a trace of the Control ECU, oldest first. -/
def uartSent : List Event → List Nat
  | [] => []
  | Event.UART_sendByte b :: es => b :: uartSent es
  | _ :: es => uartSent es

end Control

/-! ## Human-Interface ECU (src/Human_Interface/ECU1.c) -/

namespace Human_Interface

open Control (Timer1_ConfigType CallBack awaitToken TimerAction)
open Control.Timer1_Mode Control.Timer1_Prescaler

def MC2_ASK : Nat := 0x01
def MC1_READY : Nat := 0x02
def MC1_ASK : Nat := 0x03
def MC2_READY : Nat := 0x04

inductive APPLICATION_STATE where
  | CREATE_PASS
  | MAIN_SCREEN
  | OPEN_DOOR
  | CHANGE_PASS
  | DOOR_UNLOCKING
  | ALARM
  | WAITING
  deriving DecidableEq, Repr

open APPLICATION_STATE

/-- The integer value of an enumerator. -/
def APPLICATION_STATE.code : APPLICATION_STATE → Nat
  | CREATE_PASS => 0
  | MAIN_SCREEN => 1
  | OPEN_DOOR => 2
  | CHANGE_PASS => 3
  | DOOR_UNLOCKING => 4
  | ALARM => 5
  | WAITING => 6

/-- The `case` label of `switch(state)` that a received byte selects, if any. -/
def APPLICATION_STATE.ofCode : Nat → Option APPLICATION_STATE
  | 0 => some CREATE_PASS
  | 1 => some MAIN_SCREEN
  | 2 => some OPEN_DOOR
  | 3 => some CHANGE_PASS
  | 4 => some DOOR_UNLOCKING
  | 5 => some ALARM
  | 6 => some WAITING
  | _ => none

/-- One externally visible action of the Human-Interface ECU. -/
inductive Event where
  | UART_sendByte (data : Nat)
  | LCD_clearScreen
  | LCD_displayString (str : String)
  | LCD_displayStringRowColumn (row : Nat) (col : Nat) (str : String)
  | LCD_moveCursor (row : Nat) (col : Nat)
  | LCD_displayCharacter (data : Nat)
  | delay_ms (ms : Nat)
  | TIMER1_setCallBack (cb : CallBack)
  | TIMER1_init (cfg : Timer1_ConfigType)
  | TIMER1_deInit
  deriving DecidableEq, Repr

/-- The global of ECU1.c, the local `state` of `main`, the two function-static
tick counters, and the devices the application talks to. -/
structure ECU1 where
  /-- `APPLICATION_STATE state`, local to `main`, as the byte it holds -/
  state : Nat
  /-- `uint8 freezeFlag` -/
  freezeFlag : Nat
  /-- `static uint8 tick` of `openDoorCallBackFunction` -/
  openDoorTick : Nat
  /-- `static uint8 tick` of `alarmCallBackFunction` -/
  alarmTick : Nat
  /-- current programming of timer 1; `none` when de-initialised -/
  timer1 : Option Timer1_ConfigType
  /-- function registered with the timer driver -/
  callBack : Option CallBack
  /-- keys that will be pressed on the keypad, oldest first -/
  keys : List Nat
  /-- bytes that will arrive on the UART, oldest first -/
  rx : List Nat
  /-- everything done so far, oldest first -/
  trace : List Event
  /-- not a variable of ECU1.c but a property of the build: whether `main`
  loads `freezeFlag` from memory at every test of `while(freezeFlag == 1);`.
  ECU1.c declares `uint8 freezeFlag` without `volatile`, so the source leaves
  this open. -/
  rereadsFlag : Bool

/-- Append one action to the trace. -/
def emit (e : Event) (s : ECU1) : ECU1 :=
  { s with trace := s.trace ++ [e] }

/-- Modelled from the spec: `UART_sendByte` of the serial transport (uart.c is
not among the sources): send one byte. -/
def UART_sendByte (data : Nat) (s : ECU1) : ECU1 :=
  emit (Event.UART_sendByte data) s

/-- Modelled from the spec: `UART_recieveByte` of the serial transport (uart.c
is not among the sources): a blocking receive of one byte with no timeout. -/
def UART_recieveByte (s : ECU1) : Option (Nat × ECU1) :=
  match s.rx with
  | [] => none
  | b :: rest => some (b, { s with rx := rest })

/-- The idiom `while(UART_recieveByte() != tok);`. -/
def waitFor (tok : Nat) (s : ECU1) : Option ECU1 :=
  (awaitToken tok s.rx).map (fun rest => { s with rx := rest })

/-- Modelled from the spec: `KEYPAD_getPressedKey` of the keypad character
input (keypad.c is not among the sources): block until a key is pressed and
return it. -/
def KEYPAD_getPressedKey (s : ECU1) : Option (Nat × ECU1) :=
  match s.keys with
  | [] => none
  | k :: rest => some (k, { s with keys := rest })

/-- The idiom `while(KEYPAD_getPressedKey() != tok);`. -/
def waitForKey (tok : Nat) (s : ECU1) : Option ECU1 :=
  (awaitToken tok s.keys).map (fun rest => { s with keys := rest })

/-- Modelled from the spec: the display output of lcd.c, which is not among
the sources. -/
def LCD_clearScreen (s : ECU1) : ECU1 :=
  emit Event.LCD_clearScreen s

/-- Modelled from the spec: the display output of lcd.c, which is not among
the sources. -/
def LCD_displayString (str : String) (s : ECU1) : ECU1 :=
  emit (Event.LCD_displayString str) s

/-- Modelled from the spec: the display output of lcd.c, which is not among
the sources. -/
def LCD_displayStringRowColumn (row col : Nat) (str : String) (s : ECU1) : ECU1 :=
  emit (Event.LCD_displayStringRowColumn row col str) s

/-- Modelled from the spec: the display output of lcd.c, which is not among
the sources. -/
def LCD_moveCursor (row col : Nat) (s : ECU1) : ECU1 :=
  emit (Event.LCD_moveCursor row col) s

/-- Modelled from the spec: the display output of lcd.c, which is not among
the sources. -/
def LCD_displayCharacter (data : Nat) (s : ECU1) : ECU1 :=
  emit (Event.LCD_displayCharacter data) s

def delay_ms (ms : Nat) (s : ECU1) : ECU1 :=
  emit (Event.delay_ms ms) s

/-- Modelled from the spec: `TIMER1_setCallBack` of the timer peripheral
abstraction (timer1.c is not among the sources): register the call-back. -/
def TIMER1_setCallBack (cb : CallBack) (s : ECU1) : ECU1 :=
  emit (Event.TIMER1_setCallBack cb) { s with callBack := some cb }

/-- Modelled from the spec: `TIMER1_init` of the timer peripheral abstraction
(timer1.c is not among the sources): program a tick period. -/
def TIMER1_init (cfg : Timer1_ConfigType) (s : ECU1) : ECU1 :=
  emit (Event.TIMER1_init cfg) { s with timer1 := some cfg }

/-- Modelled from the spec: `TIMER1_deInit` of the timer peripheral abstraction
(timer1.c is not among the sources): deactivate the timer. -/
def TIMER1_deInit (s : ECU1) : ECU1 :=
  emit Event.TIMER1_deInit { s with timer1 := none }

/-- `openDoorCallBackFunction` of ECU1.c: one timer tick of the door-unlock
sequence, on the display. -/
def openDoorCallBackFunction (s : ECU1) : ECU1 :=
  let s := { s with openDoorTick := (s.openDoorTick + 1) % 256 }
  if s.openDoorTick = 1 then
    LCD_displayString ("Unlocking Door")
      (LCD_clearScreen (TIMER1_init ⟨0, 23438, F_CPU_1024, TIMER1_COMPARE⟩ s))
  else if s.openDoorTick = 6 then
    LCD_displayString ("Door is open") (LCD_clearScreen s)
  else if s.openDoorTick = 7 then
    LCD_displayString ("Locking Door") (LCD_clearScreen s)
  else if s.openDoorTick = 12 then
    TIMER1_deInit { s with openDoorTick := 0, freezeFlag := 0 }
  else
    s

/-- `alarmCallBackFunction` of ECU1.c: one timer tick of the alarm sequence,
on the display. -/
def alarmCallBackFunction (s : ECU1) : ECU1 :=
  let s := { s with alarmTick := (s.alarmTick + 1) % 256 }
  let s :=
    if s.alarmTick = 1 then
      LCD_displayString ("ERROR!!!!")
        (LCD_clearScreen (TIMER1_init ⟨0, 0, F_CPU_1024, TIMER1_OVERFLOW⟩ s))
    else
      s
  if s.alarmTick = 7 then
    TIMER1_deInit { s with alarmTick := 0, freezeFlag := 0 }
  else
    s

/-- The function a timer interrupt runs on the Human-Interface ECU. -/
def runCallBack : CallBack → ECU1 → ECU1
  | CallBack.openDoor => openDoorCallBackFunction
  | CallBack.alarm => alarmCallBackFunction

/-- The busy wait `while(freezeFlag == 1);` of the main loop of ECU1.c, as on
the Control side: `ticks` bounds how many timer interrupts are waited for.
`freezeFlag` is not `volatile` here either: where the build does not load it
at every test (`rereadsFlag` is `false`), the loop goes on testing the 1 it
loaded on entry and the wait never ends. -/
def busyWait : Nat → ECU1 → Option ECU1
  | 0, s => if s.freezeFlag = 1 then none else some s
  | ticks + 1, s =>
    if s.freezeFlag = 1 then
      if s.rereadsFlag then
        match s.timer1, s.callBack with
        | some _, some cb => busyWait ticks (runCallBack cb s)
        | _, _ => none
      else
        none
    else
      some s

/-- The key-entry `for` loop that `sendPass` runs once and `createPass` runs
twice, with `n` iterations left at index `i`: store the pressed key in the
array, show a star (42), wait 500 ms. -/
def keyLoop : Nat → Nat → List Nat → ECU1 → Option (List Nat × ECU1)
  | 0, _, password, s => some (password, s)
  | n + 1, i, password, s => do
    let (k, s1) ← KEYPAD_getPressedKey s
    let password := password.set i k
    let s2 := LCD_displayCharacter 42 s1
    let s3 := delay_ms 500 s2
    keyLoop n (i + 1) password s3

/-- The sending `for` loop of `sendPass`, with `n` iterations left at index `i`. -/
def sendPassLoop : Nat → Nat → List Nat → ECU1 → Option ECU1
  | 0, _, _, s => some s
  | n + 1, i, password, s => do
    let s1 ← waitFor MC2_READY (UART_sendByte MC1_ASK s)
    sendPassLoop n (i + 1) password (UART_sendByte (password.getD i 0) s1)

/-- `sendPass`: read five keys, wait for the enter key `=` (61), send the five
keys.  The local array starts as five zero bytes (it is written before read). -/
def sendPass (s : ECU1) : Option ECU1 := do
  let s1 := LCD_clearScreen s
  let s2 := LCD_displayString ("Plz Enter Pass:") s1
  let s3 := LCD_moveCursor 1 0 s2
  let (password, s4) ← keyLoop 5 0 (List.replicate 5 0) s3
  let s5 ← waitForKey 61 s4
  sendPassLoop 5 0 password s5

/-- The sending `for` loop of `createPass`, with `n` iterations left at index `i`. -/
def createPassSendLoop : Nat → Nat → List Nat → List Nat → ECU1 → Option ECU1
  | 0, _, _, _, s => some s
  | n + 1, i, password, repass, s => do
    let s1 ← waitFor MC2_READY (UART_sendByte MC1_ASK s)
    let s2 := UART_sendByte (password.getD i 0) s1
    let s3 ← waitFor MC2_READY (UART_sendByte MC1_ASK s2)
    createPassSendLoop n (i + 1) password repass (UART_sendByte (repass.getD i 0) s3)

/-- `createPass` of ECU1.c: read the password and, after the enter key, its
re-entry; after the second enter key send both, interleaved. -/
def createPass (s : ECU1) : Option ECU1 := do
  let s1 := LCD_clearScreen s
  let s2 := LCD_displayString ("Plz Enter Pass:") s1
  let s3 := LCD_moveCursor 1 0 s2
  let (password, s4) ← keyLoop 5 0 (List.replicate 5 0) s3
  let s5 ← waitForKey 61 s4
  let s6 := LCD_clearScreen s5
  let s7 := LCD_displayString ("Plz re-enter the") s6
  let s8 := LCD_moveCursor 1 0 s7
  let s9 := LCD_displayString ("same Pass: ") s8
  let s10 := delay_ms 500 s9
  let (repass, s11) ← keyLoop 5 0 (List.replicate 5 0) s10
  let s12 ← waitForKey 61 s11
  createPassSendLoop 5 0 password repass s12

/-- The `while(1)` of the `MAIN_SCREEN` case: read keys, 500 ms after each,
until one is `+` (43) or `-` (45). -/
def menuKeyLoop : List Nat → List Event → Option (Nat × List Nat × List Event)
  | [], _ => none
  | key :: rest, trace =>
    if key = 43 ∨ key = 45 then some (key, rest, trace ++ [Event.delay_ms 500])
    else menuKeyLoop rest (trace ++ [Event.delay_ms 500])

/-- The `switch(state)` of `main` in ECU1.c. -/
def dispatch (ticks : Nat) (s : ECU1) : Option ECU1 :=
  match APPLICATION_STATE.ofCode s.state with
  | some CREATE_PASS => do
    let s1 ← createPass s
    some { s1 with state := WAITING.code }
  | some MAIN_SCREEN => do
    let s1 := LCD_clearScreen s
    let s2 := LCD_displayString ("+:Open Door") s1
    let s3 := LCD_displayStringRowColumn 1 0 ("-:Change Password") s2
    let (key, keys, trace) ← menuKeyLoop s3.keys s3.trace
    let s4 := { s3 with keys := keys, trace := trace }
    let s5 ← waitFor MC2_READY (UART_sendByte MC1_ASK s4)
    let s6 := UART_sendByte key s5
    some { s6 with state := WAITING.code }
  | some OPEN_DOOR => do
    let s1 ← sendPass s
    some { s1 with state := WAITING.code }
  | some CHANGE_PASS => do
    let s1 ← sendPass s
    some { s1 with state := WAITING.code }
  | some DOOR_UNLOCKING => do
    let s1 := { s with freezeFlag := 1 }
    let s2 := TIMER1_setCallBack CallBack.openDoor s1
    let s3 := TIMER1_init ⟨0, 10, F_CPU_1024, TIMER1_COMPARE⟩ s2
    let s4 ← busyWait ticks s3
    some { s4 with state := WAITING.code }
  | some ALARM => do
    let s1 := { s with freezeFlag := 1 }
    let s2 := TIMER1_setCallBack CallBack.alarm s1
    let s3 := TIMER1_init ⟨65525, 0, F_CPU_1024, TIMER1_OVERFLOW⟩ s2
    let s4 ← busyWait ticks s3
    some { s4 with state := WAITING.code }
  | some WAITING => some s
  | none => some s

/-- One iteration of `while(1)` in `main` of ECU1.c. -/
def mainIteration (ticks : Nat) (s : ECU1) : Option ECU1 := do
  let s1 ← waitFor MC2_ASK s
  let (st, s2) ← UART_recieveByte (UART_sendByte MC1_READY s1)
  dispatch ticks { s2 with state := st }

/-- The globals as `main` of ECU1.c finds them when it enters `while(1)`, with
the keys and the incoming bytes given; the uninitialised local `state` is
taken as `WAITING`, and is overwritten before it is read.  The build is taken
as one that does not load `freezeFlag` again in the busy wait. -/
def boot (keys rx : List Nat) : ECU1 :=
  { state := WAITING.code, freezeFlag := 0, openDoorTick := 0, alarmTick := 0,
    timer1 := none, callBack := none, keys := keys, rx := rx, trace := [],
    rereadsFlag := false }

/-- The bytes sent over the UART in a trace, oldest first. -/
def uartSent : List Event → List Nat
  | [] => []
  | Event.UART_sendByte b :: es => b :: uartSent es
  | _ :: es => uartSent es

/-- The bytes of `n` acknowledgements as the Human-Interface side receives
them: each is some line noise (`noise k` for round `k`) and the token
`MC2_READY`. -/
def readyStream : Nat → Nat → (Nat → List Nat) → List Nat
  | 0, _, _ => []
  | n + 1, i, noise => noise i ++ MC2_READY :: readyStream n (i + 1) noise

/-- The actions of `n` iterations of the sending loop of `createPass` from
index `i`. -/
def sendPairTrace : Nat → Nat → List Nat → List Nat → List Event
  | 0, _, _, _ => []
  | n + 1, i, password, repass =>
    Event.UART_sendByte MC1_ASK :: Event.UART_sendByte (password.getD i 0) ::
      Event.UART_sendByte MC1_ASK :: Event.UART_sendByte (repass.getD i 0) ::
        sendPairTrace n (i + 1) password repass

/-- The timer actions in a trace of the Human-Interface ECU, oldest first. -/
def timerActions : List Event → List TimerAction
  | [] => []
  | Event.TIMER1_init cfg :: es => TimerAction.init cfg :: timerActions es
  | Event.TIMER1_deInit :: es => TimerAction.deInit :: timerActions es
  | _ :: es => timerActions es

end Human_Interface

namespace Control

open APPLICATION_STATE DcMotor_State Timer1_Mode Timer1_Prescaler

/-! ## The link: receiving from a stream -/

theorem awaitToken_noise (tok : Nat) (j rest : List Nat) (h : tok ∉ j) :
    awaitToken tok (j ++ tok :: rest) = some rest := by
  induction j with
  | nil => simp [awaitToken]
  | cons a j ih =>
    simp only [List.mem_cons, not_or] at h
    have hne : a ≠ tok := fun e => h.1 e.symm
    simp [awaitToken, hne, ih h.2]

theorem recvPayload_round (s : ECU2) (j rest : List Nat) (b : Nat)
    (h : MC1_ASK ∉ j) (hs : s.rx = j ++ MC1_ASK :: b :: rest) :
    recvPayload s =
      some (b, { s with rx := rest,
                        trace := s.trace ++ [Event.UART_sendByte MC2_READY] }) := by
  simp [recvPayload, waitFor, hs, awaitToken_noise _ _ _ h, UART_sendByte, emit,
    UART_recieveByte]

theorem forall_lt_succ_shift (n i : Nat) (f : Nat → Prop) :
    (∀ k, k < n + 1 → f (i + k)) ↔ f i ∧ ∀ k, k < n → f (i + 1 + k) := by
  constructor
  · intro h
    refine ⟨by simpa using h 0 (Nat.succ_pos n), fun k hk => ?_⟩
    have := h (k + 1) (Nat.succ_lt_succ hk)
    rwa [Nat.add_comm k 1, ← Nat.add_assoc] at this
  · rintro ⟨h0, h1⟩ k hk
    cases k with
    | zero => simpa using h0
    | succ k =>
      have := h1 k (Nat.lt_of_succ_lt_succ hk)
      rwa [Nat.add_comm k 1, ← Nat.add_assoc]

theorem getPassLoop_passStream (noise : Nat → List Nat) (P rest : List Nat)
    (hn : ∀ k, MC1_ASK ∉ noise k) :
    ∀ (n i m : Nat) (s : ECU2), s.rx = passStream n i noise P ++ rest →
      getPassLoop n i m s =
        some (if ∀ k, k < n → s.eeprom (MEMORY_ADDRESS + (i + k)) = P.getD (i + k) 0
                then m else FALSE,
              { s with rx := rest, trace := s.trace ++ getPassTrace n i }) := by
  intro n
  induction n with
  | zero =>
    intro i m s hs
    simp [passStream] at hs
    simp [getPassLoop, getPassTrace, ← hs]
  | succ n ih =>
    intro i m s hs
    simp only [passStream, List.append_assoc, List.cons_append] at hs
    rw [getPassLoop]
    simp only [recvPayload_round s _ _ _ (hn i) hs, Option.bind_eq_bind, Option.some_bind,
      bind, EEPROM_readByte, delay_ms, emit]
    rw [ih _ _ _ rfl]
    have hsplit := forall_lt_succ_shift n i
      (fun a => s.eeprom (MEMORY_ADDRESS + a) = P.getD a 0)
    by_cases h0 : s.eeprom (MEMORY_ADDRESS + i) = P.getD i 0
    · by_cases hr : ∀ k, k < n → s.eeprom (MEMORY_ADDRESS + (i + 1 + k)) = P.getD (i + 1 + k) 0
      · rw [if_pos hr, if_pos (hsplit.2 ⟨h0, hr⟩), if_neg (not_not.2 h0)]
        simp [getPassTrace]
      · rw [if_neg hr, if_neg (fun h => hr (hsplit.1 h).2)]
        simp [getPassTrace]
    · rw [if_pos h0, if_neg (fun h => h0 (hsplit.1 h).1)]
      simp [getPassTrace]


theorem getD_set_self (arr : List Nat) (i v : Nat) (h : i < arr.length) :
    (arr.set i v).getD i 0 = v := by
  simp [List.getD_eq_getElem?_getD, h]

theorem createPassRecvLoop_pairStream (noise : Nat → List Nat) (A B rest : List Nat)
    (hn : ∀ k, MC1_ASK ∉ noise k) :
    ∀ (n i : Nat) (pass repass : List Nat) (u : Nat) (s : ECU2),
      i + n ≤ pass.length → i + n ≤ repass.length →
      s.rx = pairStream n i noise A B ++ rest →
      createPassRecvLoop n i pass repass u s =
        some (overwrite n i A pass, overwrite n i B repass,
              (if ∀ k, k < n → B.getD (i + k) 0 = A.getD (i + k) 0 then u else TRUE),
              { s with rx := rest,
                       trace := s.trace ++
                         List.replicate (2 * n) (Event.UART_sendByte MC2_READY) }) := by
  intro n
  induction n with
  | zero =>
    intro i pass repass u s _ _ hs
    simp [pairStream] at hs
    simp [createPassRecvLoop, overwrite, ← hs]
  | succ n ih =>
    intro i pass repass u s hp hr hs
    simp only [pairStream, List.append_assoc, List.cons_append] at hs
    rw [createPassRecvLoop]
    simp only [recvPayload_round s _ _ _ (hn (2 * i)) hs, Option.bind_eq_bind,
      Option.some_bind, bind]
    rw [recvPayload_round _ _ _ _ (hn (2 * i + 1)) rfl]
    simp only [Option.some_bind]
    rw [ih _ _ _ _ _ (by simp; omega) (by simp; omega) rfl]
    rw [getD_set_self _ _ _ (by omega), getD_set_self _ _ _ (by omega)]
    have hsplit := forall_lt_succ_shift n i (fun a => B.getD a 0 = A.getD a 0)
    by_cases h0 : B.getD i 0 = A.getD i 0
    · by_cases hk : ∀ k, k < n → B.getD (i + 1 + k) 0 = A.getD (i + 1 + k) 0
      · rw [if_pos hk, if_pos (hsplit.2 ⟨h0, hk⟩), if_neg (not_not.2 h0)]
        simp [overwrite, List.replicate_succ, Nat.mul_succ, List.replicate_add]
      · rw [if_neg hk, if_neg (fun h => hk (hsplit.1 h).2)]
        simp [overwrite, List.replicate_succ, Nat.mul_succ, List.replicate_add]
    · rw [if_pos h0, if_neg (fun h => h0 (hsplit.1 h).1)]
      simp [overwrite, List.replicate_succ, Nat.mul_succ, List.replicate_add]

theorem overwrite_all (A : List Nat) (h : A.length = 5) :
    overwrite 5 0 A (List.replicate 5 0) = A := by
  match A, h with
  | [a, b, c, d, e], _ => simp [overwrite]

theorem createPassSaveLoop_eq (pass : List Nat) :
    ∀ (n i : Nat) (s : ECU2),
      createPassSaveLoop n i pass s =
        { s with
          eeprom := fun a =>
            if MEMORY_ADDRESS + i ≤ a ∧ a < MEMORY_ADDRESS + i + n
              then pass.getD (a - MEMORY_ADDRESS) 0 else s.eeprom a,
          trace := s.trace ++ saveTrace n i pass } := by
  intro n
  induction n with
  | zero =>
    intro i s
    have : ∀ a, ¬ (MEMORY_ADDRESS + i ≤ a ∧ a < MEMORY_ADDRESS + i + 0) := by
      intro a; omega
    cases s
    simp only [createPassSaveLoop, saveTrace, List.append_nil, ECU2.mk.injEq, true_and, and_true]
    funext a
    rw [if_neg (this a)]
  | succ n ih =>
    intro i s
    rw [createPassSaveLoop, ih]
    simp only [delay_ms, EEPROM_writeByte, emit, saveTrace, List.append_assoc,
      List.singleton_append, ECU2.mk.injEq, true_and, and_true]
    refine ⟨?_, by simp⟩
    funext a
    by_cases h1 : MEMORY_ADDRESS + (i + 1) ≤ a ∧ a < MEMORY_ADDRESS + (i + 1) + n
    · have h2 : MEMORY_ADDRESS + i ≤ a ∧ a < MEMORY_ADDRESS + i + (n + 1) := by omega
      rw [if_pos h1, if_pos h2]
    · rw [if_neg h1]
      by_cases h3 : a = MEMORY_ADDRESS + i
      · have h2 : MEMORY_ADDRESS + i ≤ a ∧ a < MEMORY_ADDRESS + i + (n + 1) := by omega
        rw [if_pos h3, if_pos h2, h3]
        simp
      · have h2 : ¬ (MEMORY_ADDRESS + i ≤ a ∧ a < MEMORY_ADDRESS + i + (n + 1)) := by omega
        rw [if_neg h3, if_neg h2]

theorem pairs_agree_iff (A B : List Nat) (hA : A.length = 5) (hB : B.length = 5) :
    (∀ k, k < 5 → B.getD (0 + k) 0 = A.getD (0 + k) 0) ↔ A = B := by
  constructor
  · intro h
    apply List.ext_getElem (by omega)
    intro k h1 h2
    have := h k (by omega)
    simp only [Nat.zero_add, List.getD_eq_getElem?_getD] at this
    rw [List.getElem?_eq_getElem h1, List.getElem?_eq_getElem h2] at this
    simpa using this.symm
  · rintro rfl k _
    rfl

theorem createPass_pairStream (noise : Nat → List Nat) (A B rest : List Nat)
    (hn : ∀ k, MC1_ASK ∉ noise k) (hA : A.length = 5) (hB : B.length = 5) (s : ECU2)
    (hs : s.rx = pairStream 5 0 noise A B ++ rest) :
    createPass s =
      some (if A = B then
              { s with
                state := MAIN_SCREEN
                eeprom := fun a =>
                  if MEMORY_ADDRESS ≤ a ∧ a < MEMORY_ADDRESS + 5
                    then A.getD (a - MEMORY_ADDRESS) 0 else s.eeprom a
                rx := rest
                trace := s.trace ++ List.replicate 10 (Event.UART_sendByte MC2_READY) ++
                  saveTrace 5 0 A }
            else
              { s with
                state := CREATE_PASS
                rx := rest
                trace := s.trace ++ List.replicate 10 (Event.UART_sendByte MC2_READY) }) := by
  have hrecv := createPassRecvLoop_pairStream noise A B rest hn 5 0
    (List.replicate 5 0) (List.replicate 5 0) FALSE s (by simp) (by simp) hs
  rw [overwrite_all A hA, overwrite_all B hB] at hrecv
  have hiff : (∀ k, k < 5 → B.getD (0 + k) 0 = A.getD (0 + k) 0) ↔ A = B :=
    (pairs_agree_iff A B hA hB)
  unfold createPass
  rw [hrecv]
  by_cases hAB : A = B
  · rw [if_pos (hiff.2 hAB)]
    simp [hAB, createPassSaveLoop_eq, FALSE]
  · rw [if_neg (fun h => hAB (hiff.1 h))]
    simp [hAB, FALSE, TRUE]

/-! ## Password lifecycle -/

theorem getPass_passStream (noise : Nat → List Nat) (Q rest : List Nat)
    (hn : ∀ k, MC1_ASK ∉ noise k) (s : ECU2) (hs : s.rx = passStream 5 0 noise Q ++ rest) :
    getPass s =
      some (if secretIs s.eeprom Q then TRUE else FALSE,
            { s with rx := rest, trace := s.trace ++ getPassTrace 5 0 }) := by
  have h := getPassLoop_passStream noise Q rest hn 5 0 TRUE s hs
  simp only [Nat.zero_add] at h
  exact h

theorem secretIs_unique (e : Nat → Nat) (P Q : List Nat) (hP : P.length = 5)
    (hQ : Q.length = 5) (h1 : secretIs e P) (h2 : secretIs e Q) : P = Q := by
  apply (pairs_agree_iff P Q hP hQ).1
  intro k hk
  simp only [Nat.zero_add]
  rw [← h1 k hk, ← h2 k hk]

theorem secretIs_after_save (e : Nat → Nat) (P : List Nat) :
    secretIs
      (fun a => if MEMORY_ADDRESS ≤ a ∧ a < MEMORY_ADDRESS + 5
                  then P.getD (a - MEMORY_ADDRESS) 0 else e a) P := by
  intro k hk
  have h : MEMORY_ADDRESS ≤ MEMORY_ADDRESS + k ∧ MEMORY_ADDRESS + k < MEMORY_ADDRESS + 5 := by
    omega
  simp only [h, and_self, if_true, Nat.add_sub_cancel_left]

/-- C1: for every 5-byte sequence `P`, every prior machine state (so every
prior store content) and every line noise that does not imitate `MC1_ASK`:
when `createPass` receives `P` both as entry and as confirmation, interleaved,
it returns, and a `getPass` that then runs on the store it left and receives
`P` returns `TRUE`. -/
theorem C1_create_then_verify_round_trip (P : List Nat) (hP : P.length = 5)
    (noise noise' : Nat → List Nat)
    (hn : ∀ k, MC1_ASK ∉ noise k) (hn' : ∀ k, MC1_ASK ∉ noise' k)
    (rest rest' : List Nat) (s : ECU2) (hs : s.rx = pairStream 5 0 noise P P ++ rest) :
    ∃ s1, createPass s = some s1 ∧
      ∀ t : ECU2, t.eeprom = s1.eeprom → t.rx = passStream 5 0 noise' P ++ rest' →
        ∃ t', getPass t = some (TRUE, t') := by
  refine ⟨_, createPass_pairStream noise P P rest hn hP hP s hs, ?_⟩
  intro t he ht
  rw [if_pos rfl] at he
  have hsec : secretIs t.eeprom P := by
    rw [he]
    exact secretIs_after_save s.eeprom P
  rw [getPass_passStream noise' P rest' hn' t ht, if_pos hsec]
  exact ⟨_, rfl⟩

/-- The round trip of C1 on the secret 1, 2, 3, 4, 5, with line noise before every creation round. -/
theorem C1_witness :
    ∃ s1 t',
      createPass (boot (fun _ => 0)
        (pairStream 5 0 (fun _ => [9]) [1, 2, 3, 4, 5] [1, 2, 3, 4, 5] ++ [7])) = some s1 ∧
      getPass { s1 with rx := passStream 5 0 (fun _ => []) [1, 2, 3, 4, 5] ++ [] }
        = some (TRUE, t') := by
  obtain ⟨s1, h1, h2⟩ := C1_create_then_verify_round_trip [1, 2, 3, 4, 5] rfl
    (fun _ => [9]) (fun _ => []) (by intro _; simp [MC1_ASK]) (by intro _; simp [MC1_ASK]) [7] []
    (boot (fun _ => 0) (pairStream 5 0 (fun _ => [9]) [1, 2, 3, 4, 5] [1, 2, 3, 4, 5] ++ [7]))
    rfl
  obtain ⟨t', h3⟩ := h2 { s1 with rx := passStream 5 0 (fun _ => []) [1, 2, 3, 4, 5] ++ [] }
    rfl rfl
  exact ⟨s1, t', h1, h3⟩

/-- C2: for all 5-byte sequences `P` and `Q` that differ, after `createPass`
has received `P` as entry and as confirmation (it returns with the state
`MAIN_SCREEN`), a `getPass` that runs on the store it left and receives `Q`
returns `FALSE`. -/
theorem C2_create_then_verify_other_fails (P Q : List Nat) (hP : P.length = 5)
    (hQ : Q.length = 5) (hPQ : P ≠ Q) (noise noise' : Nat → List Nat)
    (hn : ∀ k, MC1_ASK ∉ noise k) (hn' : ∀ k, MC1_ASK ∉ noise' k)
    (rest rest' : List Nat) (s : ECU2) (hs : s.rx = pairStream 5 0 noise P P ++ rest) :
    ∃ s1, createPass s = some s1 ∧ s1.state = MAIN_SCREEN ∧
      ∀ t : ECU2, t.eeprom = s1.eeprom → t.rx = passStream 5 0 noise' Q ++ rest' →
        ∃ t', getPass t = some (FALSE, t') := by
  refine ⟨_, createPass_pairStream noise P P rest hn hP hP s hs, ?_, ?_⟩
  · rw [if_pos rfl]
  · intro t he ht
    rw [if_pos rfl] at he
    have hsec : ¬ secretIs t.eeprom Q := by
      intro hsec
      apply hPQ
      refine secretIs_unique t.eeprom P Q hP hQ ?_ hsec
      rw [he]
      exact secretIs_after_save s.eeprom P
    rw [getPass_passStream noise' Q rest' hn' t ht, if_neg hsec]
    exact ⟨_, rfl⟩

/-- The failure of C2 on the secret 1, 2, 3, 4, 5 and the attempt 1, 2, 3, 4, 6. -/
theorem C2_witness :
    ∃ s1 t',
      createPass (boot (fun _ => 0)
        (pairStream 5 0 (fun _ => []) [1, 2, 3, 4, 5] [1, 2, 3, 4, 5])) = some s1 ∧
      getPass { s1 with rx := passStream 5 0 (fun _ => []) [1, 2, 3, 4, 6] ++ [] }
        = some (FALSE, t') := by
  obtain ⟨s1, h1, _, h2⟩ := C2_create_then_verify_other_fails [1, 2, 3, 4, 5] [1, 2, 3, 4, 6]
    rfl rfl (by decide) (fun _ => []) (fun _ => []) (by intro _; simp [MC1_ASK]) (by intro _; simp [MC1_ASK]) [] []
    (boot (fun _ => 0) (pairStream 5 0 (fun _ => []) [1, 2, 3, 4, 5] [1, 2, 3, 4, 5]))
    rfl
  obtain ⟨t', h3⟩ := h2 { s1 with rx := passStream 5 0 (fun _ => []) [1, 2, 3, 4, 6] ++ [] }
    rfl rfl
  exact ⟨s1, t', h1, h3⟩

/-- C5: failed creation is atomic.  For every pair of 5-byte sequences that
differ, every prior state and store: `createPass` returns, the store is the
same function of the address as before, no `EEPROM_writeByte` is issued (the
only actions are the ten `MC2_READY` replies), and the state is `CREATE_PASS`. -/
theorem C5_failed_creation_writes_nothing (pass repass : List Nat)
    (hp : pass.length = 5) (hr : repass.length = 5) (hne : pass ≠ repass)
    (noise : Nat → List Nat) (hn : ∀ k, MC1_ASK ∉ noise k) (rest : List Nat) (s : ECU2)
    (hs : s.rx = pairStream 5 0 noise pass repass ++ rest) :
    ∃ s1, createPass s = some s1 ∧
      (∀ a, s1.eeprom a = s.eeprom a) ∧
      s1.trace = s.trace ++ List.replicate 10 (Event.UART_sendByte MC2_READY) ∧
      (∀ a d, Event.EEPROM_writeByte a d ∈ s1.trace → Event.EEPROM_writeByte a d ∈ s.trace) ∧
      s1.state = CREATE_PASS := by
  refine ⟨_, createPass_pairStream noise pass repass rest hn hp hr s hs, ?_⟩
  rw [if_neg hne]
  refine ⟨fun _ => rfl, rfl, ?_, rfl⟩
  intro a d h
  simp only [List.mem_append, List.mem_replicate] at h
  rcases h with h | ⟨_, h⟩
  · exact h
  · cases h

/-- The atomicity of C5 on the entry 1, 2, 3, 4, 5 and the confirmation 1, 2, 3, 4, 6. -/
theorem C5_witness :
    ∃ s1,
      createPass { boot (fun a => a + 40) (pairStream 5 0 (fun _ => [])
        [1, 2, 3, 4, 5] [1, 2, 3, 4, 6]) with state := CHANGE_PASS } = some s1 ∧
      (∀ a, s1.eeprom a = a + 40) ∧ s1.state = CREATE_PASS := by
  obtain ⟨s1, h1, h2, _, _, h3⟩ := C5_failed_creation_writes_nothing
    [1, 2, 3, 4, 5] [1, 2, 3, 4, 6] rfl rfl (by decide) (fun _ => [])
    (by intro _; simp [MC1_ASK]) []
    { boot (fun a => a + 40) (pairStream 5 0 (fun _ => [])
        [1, 2, 3, 4, 5] [1, 2, 3, 4, 6]) with state := CHANGE_PASS }
    (by simp [boot])
  exact ⟨s1, h1, h2, h3⟩

/-- C6: successful creation persists exactly the secret.  When the five
`(pass[i], repass[i])` pairs agree, `createPass` returns with
`store[MEMORY_ADDRESS + i] = pass[i]` for `i = 0..4`, which are the addresses
1..5, written in that order; every other address holds what it held before;
and the state is `MAIN_SCREEN`. -/
theorem C6_successful_creation_persists_secret (pass repass : List Nat)
    (hp : pass.length = 5) (hr : repass.length = 5) (heq : repass = pass)
    (noise : Nat → List Nat) (hn : ∀ k, MC1_ASK ∉ noise k) (rest : List Nat) (s : ECU2)
    (hs : s.rx = pairStream 5 0 noise pass repass ++ rest) :
    ∃ s1, createPass s = some s1 ∧
      (∀ i, i < 5 → s1.eeprom (MEMORY_ADDRESS + i) = pass.getD i 0) ∧
      (∀ a, (a < 1 ∨ 5 < a) → s1.eeprom a = s.eeprom a) ∧
      s1.trace = s.trace ++ List.replicate 10 (Event.UART_sendByte MC2_READY) ++
        [Event.EEPROM_writeByte 1 (pass.getD 0 0), Event.delay_ms 15,
         Event.EEPROM_writeByte 2 (pass.getD 1 0), Event.delay_ms 15,
         Event.EEPROM_writeByte 3 (pass.getD 2 0), Event.delay_ms 15,
         Event.EEPROM_writeByte 4 (pass.getD 3 0), Event.delay_ms 15,
         Event.EEPROM_writeByte 5 (pass.getD 4 0), Event.delay_ms 15] ∧
      s1.state = MAIN_SCREEN := by
  refine ⟨_, createPass_pairStream noise pass repass rest hn hp hr s hs, ?_⟩
  rw [if_pos heq.symm]
  refine ⟨secretIs_after_save s.eeprom pass, ?_, rfl, rfl⟩
  intro a ha
  have h : ¬ (MEMORY_ADDRESS ≤ a ∧ a < MEMORY_ADDRESS + 5) := by
    simp only [MEMORY_ADDRESS]
    omega
  simp only [h, if_false]

/-- The persistence of C6 on the secret 1, 2, 3, 4, 5 over a store of 255s. -/
theorem C6_witness :
    ∃ s1,
      createPass (boot (fun _ => 255) (pairStream 5 0 (fun _ => [])
        [1, 2, 3, 4, 5] [1, 2, 3, 4, 5])) = some s1 ∧
      (List.range 7).map s1.eeprom = [255, 1, 2, 3, 4, 5, 255] ∧ s1.state = MAIN_SCREEN := by
  obtain ⟨s1, h1, h2, h3, _, h4⟩ := C6_successful_creation_persists_secret
    [1, 2, 3, 4, 5] [1, 2, 3, 4, 5] rfl rfl rfl (fun _ => [])
    (by intro _; simp [MC1_ASK]) []
    (boot (fun _ => 255) (pairStream 5 0 (fun _ => []) [1, 2, 3, 4, 5] [1, 2, 3, 4, 5]))
    (by simp [boot])
  refine ⟨s1, h1, ?_, h4⟩
  have e0 := h3 0 (by omega)
  have e6 := h3 6 (by omega)
  have e1 := h2 0 (by omega)
  have e2 := h2 1 (by omega)
  have e3 := h2 2 (by omega)
  have e4 := h2 3 (by omega)
  have e5 := h2 4 (by omega)
  simp only [MEMORY_ADDRESS] at e1 e2 e3 e4 e5
  simp [List.range, List.range.loop, e0, e1, e2, e3, e4, e5, e6, boot]

/-! ## Actuation sequencer -/

theorem motorCommands_append (xs ys : List Event) :
    motorCommands (xs ++ ys) = motorCommands xs ++ motorCommands ys := by
  induction xs with
  | nil => simp [motorCommands]
  | cons x xs ih => cases x <;> simp [motorCommands, ih]

theorem buzzerCommands_append (xs ys : List Event) :
    buzzerCommands (xs ++ ys) = buzzerCommands xs ++ buzzerCommands ys := by
  induction xs with
  | nil => simp [buzzerCommands]
  | cons x xs ih => cases x <;> simp [buzzerCommands, ih]

theorem announce_stream (s : ECU2) (j rest : List Nat) (hj : MC1_READY ∉ j)
    (hs : s.rx = j ++ MC1_READY :: rest) :
    announce s =
      some { s with
             rx := rest
             trace := s.trace ++
               [Event.UART_sendByte MC2_ASK, Event.UART_sendByte s.state.code] } := by
  simp [announce, waitFor, UART_sendByte, emit, hs, awaitToken_noise _ _ _ hj]

theorem busyWait_done (ticks : Nat) (s : ECU2) (h : s.freezeFlag ≠ 1) :
    busyWait ticks s = some s := by
  cases ticks <;> simp [busyWait, h]

theorem busyWait_step (ticks : Nat) (s : ECU2) (cfg : Timer1_ConfigType) (cb : CallBack)
    (hf : s.freezeFlag = 1) (hr : s.rereadsFlag = true) (ht : s.timer1 = some cfg)
    (hc : s.callBack = some cb) :
    busyWait (ticks + 1) s = busyWait ticks (cb.run s) := by
  simp [busyWait, hf, hr, ht, hc]

/-- Entered with the flag set, a busy wait that does not load the flag again
never ends, however many timer interrupts come. -/
theorem busyWait_stale (ticks : Nat) (s : ECU2) (hf : s.freezeFlag = 1)
    (hr : s.rereadsFlag = false) : busyWait ticks s = none := by
  cases ticks <;> simp [busyWait, hf, hr]

/-- The door-unlock call-back, `k` calls after an activation, for `k < 12`. -/
theorem openDoor_iterate_lt (s : ECU2) (h0 : s.openDoorTick = 0) (k : Nat) (hk : k < 12) :
    openDoorCallBackFunction^[k] s =
      { s with
        openDoorTick := k
        timer1 := if k = 0 then s.timer1 else some ⟨0, 23438, F_CPU_1024, TIMER1_COMPARE⟩
        trace := s.trace ++
          ((if 1 ≤ k then [Event.TIMER1_init ⟨0, 23438, F_CPU_1024, TIMER1_COMPARE⟩,
                           Event.DcMotor_Rotate DC_MOTOR_CW 100] else []) ++
           ((if 6 ≤ k then [Event.DcMotor_Rotate DC_MOTOR_STOP 0] else []) ++
            (if 7 ≤ k then [Event.DcMotor_Rotate DC_MOTOR_CCW 100] else []))) } := by
  cases s
  simp only at h0
  subst h0
  interval_cases k <;>
    simp [Nat.iterate, openDoorCallBackFunction, DcMotor_Rotate, TIMER1_init, emit]

theorem openDoor_iterate_12 (s : ECU2) (h0 : s.openDoorTick = 0) :
    openDoorCallBackFunction^[12] s =
      { s with
        openDoorTick := 0
        freezeFlag := 0
        timer1 := none
        trace := s.trace ++
          [Event.TIMER1_init ⟨0, 23438, F_CPU_1024, TIMER1_COMPARE⟩,
           Event.DcMotor_Rotate DC_MOTOR_CW 100,
           Event.DcMotor_Rotate DC_MOTOR_STOP 0,
           Event.DcMotor_Rotate DC_MOTOR_CCW 100,
           Event.DcMotor_Rotate DC_MOTOR_STOP 0,
           Event.TIMER1_deInit] } := by
  cases s
  simp only at h0
  subst h0
  simp [Nat.iterate, openDoorCallBackFunction, DcMotor_Rotate, TIMER1_init, TIMER1_deInit, emit]

theorem alarm_iterate_lt (s : ECU2) (h0 : s.alarmTick = 0) (k : Nat) (hk : k < 7) :
    alarmCallBackFunction^[k] s =
      { s with
        alarmTick := k
        timer1 := if k = 0 then s.timer1 else some ⟨0, 0, F_CPU_1024, TIMER1_OVERFLOW⟩
        trace := s.trace ++
          (if 1 ≤ k then [Event.TIMER1_init ⟨0, 0, F_CPU_1024, TIMER1_OVERFLOW⟩,
                          Event.BUZZER_on] else []) } := by
  cases s
  simp only at h0
  subst h0
  interval_cases k <;>
    simp [Nat.iterate, alarmCallBackFunction, BUZZER_on, TIMER1_init, emit]

theorem alarm_iterate_7 (s : ECU2) (h0 : s.alarmTick = 0) :
    alarmCallBackFunction^[7] s =
      { s with
        alarmTick := 0
        freezeFlag := 0
        timer1 := none
        trace := s.trace ++
          [Event.TIMER1_init ⟨0, 0, F_CPU_1024, TIMER1_OVERFLOW⟩,
           Event.BUZZER_on, Event.BUZZER_off, Event.TIMER1_deInit] } := by
  cases s
  simp only at h0
  subst h0
  simp [Nat.iterate, alarmCallBackFunction, BUZZER_on, BUZZER_off, TIMER1_init,
    TIMER1_deInit, emit]

/-- The busy wait runs the registered call-back until the flag is cleared:
when the flag stays set and the timer stays programmed for the first `N`
calls and the `N`-th call clears the flag, then with `d` calls done and `k`
still to come the wait ends iff at least `k` interrupts are available. -/
theorem busyWait_iterate (cb : CallBack) (N : Nat) (s : ECU2)
    (hrun : ∀ d, d < N → (cb.run^[d] s).freezeFlag = 1 ∧
      (cb.run^[d] s).rereadsFlag = true ∧
      (cb.run^[d] s).callBack = some cb ∧ ∃ c, (cb.run^[d] s).timer1 = some c)
    (hend : (cb.run^[N] s).freezeFlag ≠ 1) :
    ∀ (k d ticks : Nat), d + k = N →
      busyWait ticks (cb.run^[d] s) = if k ≤ ticks then some (cb.run^[N] s) else none := by
  intro k
  induction k with
  | zero =>
    intro d ticks hd
    have hdN : d = N := by omega
    subst hdN
    simp only [Nat.zero_le, if_true]
    exact busyWait_done _ _ hend
  | succ k ih =>
    intro d ticks hd
    obtain ⟨hflag, hre, hcb, c, htm⟩ := hrun d (by omega)
    cases ticks with
    | zero =>
      rw [busyWait, if_pos hflag, if_neg (by omega)]
    | succ ticks =>
      rw [busyWait_step ticks _ c cb hflag hre htm hcb,
        ← Function.iterate_succ_apply' cb.run d s,
        ih (d + 1) ticks (by omega)]
      simp only [Nat.add_le_add_iff_right]

theorem busyWait_openDoor (s : ECU2) (cfg : Timer1_ConfigType) (h0 : s.openDoorTick = 0)
    (hf : s.freezeFlag = 1) (hr : s.rereadsFlag = true) (ht : s.timer1 = some cfg)
    (hc : s.callBack = some CallBack.openDoor) (ticks : Nat) :
    busyWait ticks s =
      if 12 ≤ ticks then some (openDoorCallBackFunction^[12] s) else none := by
  refine busyWait_iterate CallBack.openDoor 12 s ?_ ?_ 12 0 ticks rfl
  · intro d hd
    show (openDoorCallBackFunction^[d] s).freezeFlag = 1 ∧
      (openDoorCallBackFunction^[d] s).rereadsFlag = true ∧
      (openDoorCallBackFunction^[d] s).callBack = some CallBack.openDoor ∧
      ∃ c, (openDoorCallBackFunction^[d] s).timer1 = some c
    rw [openDoor_iterate_lt s h0 d hd]
    refine ⟨hf, hr, hc, ?_⟩
    by_cases hz : d = 0
    · exact ⟨cfg, by simp only [hz, if_true, ht]⟩
    · exact ⟨⟨0, 23438, F_CPU_1024, TIMER1_COMPARE⟩, by simp only [hz, if_false]⟩
  · show (openDoorCallBackFunction^[12] s).freezeFlag ≠ 1
    rw [openDoor_iterate_12 s h0]
    simp

theorem busyWait_alarm (s : ECU2) (cfg : Timer1_ConfigType) (h0 : s.alarmTick = 0)
    (hf : s.freezeFlag = 1) (hr : s.rereadsFlag = true) (ht : s.timer1 = some cfg)
    (hc : s.callBack = some CallBack.alarm) (ticks : Nat) :
    busyWait ticks s =
      if 7 ≤ ticks then some (alarmCallBackFunction^[7] s) else none := by
  refine busyWait_iterate CallBack.alarm 7 s ?_ ?_ 7 0 ticks rfl
  · intro d hd
    show (alarmCallBackFunction^[d] s).freezeFlag = 1 ∧
      (alarmCallBackFunction^[d] s).rereadsFlag = true ∧
      (alarmCallBackFunction^[d] s).callBack = some CallBack.alarm ∧
      ∃ c, (alarmCallBackFunction^[d] s).timer1 = some c
    rw [alarm_iterate_lt s h0 d hd]
    refine ⟨hf, hr, hc, ?_⟩
    by_cases hz : d = 0
    · exact ⟨cfg, by simp only [hz, if_true, ht]⟩
    · exact ⟨⟨0, 0, F_CPU_1024, TIMER1_OVERFLOW⟩, by simp only [hz, if_false]⟩
  · show (alarmCallBackFunction^[7] s).freezeFlag ≠ 1
    rw [alarm_iterate_7 s h0]
    simp

/-- One iteration of the main loop in the state `DOOR_UNLOCKING`, in a build
whose busy wait loads the flag at every test. -/
theorem mainIteration_door (m : ECU2) (hst : m.state = DOOR_UNLOCKING)
    (h0 : m.openDoorTick = 0) (hr : m.rereadsFlag = true) (j rest : List Nat)
    (hj : MC1_READY ∉ j) (hrx : m.rx = j ++ MC1_READY :: rest) (ticks : Nat) :
    mainIteration ticks m =
      if 12 ≤ ticks then
        some { m with
               state := MAIN_SCREEN
               freezeFlag := 0
               openDoorTick := 0
               timer1 := none
               callBack := some CallBack.openDoor
               rx := rest
               trace := m.trace ++
                 [Event.UART_sendByte MC2_ASK, Event.UART_sendByte 4,
                  Event.TIMER1_setCallBack CallBack.openDoor,
                  Event.TIMER1_init ⟨0, 10, F_CPU_1024, TIMER1_COMPARE⟩,
                  Event.TIMER1_init ⟨0, 23438, F_CPU_1024, TIMER1_COMPARE⟩,
                  Event.DcMotor_Rotate DC_MOTOR_CW 100,
                  Event.DcMotor_Rotate DC_MOTOR_STOP 0,
                  Event.DcMotor_Rotate DC_MOTOR_CCW 100,
                  Event.DcMotor_Rotate DC_MOTOR_STOP 0,
                  Event.TIMER1_deInit] }
      else none := by
  unfold mainIteration
  rw [announce_stream m j rest hj hrx]
  simp only [Option.bind_eq_bind, Option.some_bind, bind, dispatch, hst]
  rw [busyWait_openDoor _ ⟨0, 10, F_CPU_1024, TIMER1_COMPARE⟩ _ _ _ _ _ ticks]
  · by_cases ht : 12 ≤ ticks
    · rw [if_pos ht, if_pos ht, openDoor_iterate_12 _ _]
      · simp [TIMER1_init, TIMER1_setCallBack, emit, APPLICATION_STATE.code]
      · exact h0
    · rw [if_neg ht, if_neg ht]
      rfl
  · exact h0
  · rfl
  · exact hr
  · rfl
  · rfl

/-- One iteration of the main loop in the state `DOOR_UNLOCKING` or `ALARM`,
in a build whose busy wait does not load the flag again: the iteration never
ends, however many timer interrupts come. -/
theorem mainIteration_stale (m : ECU2) (hst : m.state = DOOR_UNLOCKING ∨ m.state = ALARM)
    (hr : m.rereadsFlag = false) (j rest : List Nat) (hj : MC1_READY ∉ j)
    (hrx : m.rx = j ++ MC1_READY :: rest) (ticks : Nat) :
    mainIteration ticks m = none := by
  unfold mainIteration
  rw [announce_stream m j rest hj hrx]
  rcases hst with hst | hst
  · simp only [Option.bind_eq_bind, Option.some_bind, bind, dispatch, hst]
    rw [busyWait_stale ticks _ _ _]
    · rfl
    · rfl
    · exact hr
  · simp only [Option.bind_eq_bind, Option.some_bind, bind, dispatch, hst]
    rw [busyWait_stale ticks _ _ _]
    · rfl
    · rfl
    · exact hr

/-- One iteration of the main loop in the state `ALARM`, in a build whose busy
wait loads the flag at every test. -/
theorem mainIteration_alarm (m : ECU2) (hst : m.state = ALARM)
    (h0 : m.alarmTick = 0) (hr : m.rereadsFlag = true) (j rest : List Nat)
    (hj : MC1_READY ∉ j) (hrx : m.rx = j ++ MC1_READY :: rest) (ticks : Nat) :
    mainIteration ticks m =
      if 7 ≤ ticks then
        some { m with
               state := MAIN_SCREEN
               freezeFlag := 0
               alarmTick := 0
               timer1 := none
               callBack := some CallBack.alarm
               rx := rest
               trace := m.trace ++
                 [Event.UART_sendByte MC2_ASK, Event.UART_sendByte 5,
                  Event.TIMER1_setCallBack CallBack.alarm,
                  Event.TIMER1_init ⟨65525, 0, F_CPU_1024, TIMER1_OVERFLOW⟩,
                  Event.TIMER1_init ⟨0, 0, F_CPU_1024, TIMER1_OVERFLOW⟩,
                  Event.BUZZER_on, Event.BUZZER_off, Event.TIMER1_deInit] }
      else none := by
  unfold mainIteration
  rw [announce_stream m j rest hj hrx]
  simp only [Option.bind_eq_bind, Option.some_bind, bind, dispatch, hst]
  rw [busyWait_alarm _ ⟨65525, 0, F_CPU_1024, TIMER1_OVERFLOW⟩ _ _ _ _ _ ticks]
  · by_cases ht : 7 ≤ ticks
    · rw [if_pos ht, if_pos ht, alarm_iterate_7 _ _]
      · simp [TIMER1_init, TIMER1_setCallBack, emit, APPLICATION_STATE.code]
      · exact h0
    · rw [if_neg ht, if_neg ht]
      rfl
  · exact h0
  · rfl
  · exact hr
  · rfl
  · rfl

/-- C7: the Control-side door-unlock sequence takes exactly 12 ticks, but the
main loop is not sure to see its end.  From `tick = 0` and `freezeFlag = 1`,
the flag is still 1 after each of the first 11 calls of
`openDoorCallBackFunction`; after the 12th call the flag is 0, the tick counter
is 0 again and the timer is de-initialised (the last action).  Whether the main
loop then sets the state to `MAIN_SCREEN` depends on the build, because
`freezeFlag` is not `volatile`.  Where the busy wait loads the flag at every
test, an iteration of the main loop in `DOOR_UNLOCKING` ends, with the state
`MAIN_SCREEN`, as soon as 12 timer interrupts have come, and not before.
Where it does not, the iteration never ends, however many interrupts come:
the statement `state = MAIN_SCREEN` is not reached. -/
theorem C7_door_unlock_sequence_takes_12_ticks (s : ECU2) (h0 : s.openDoorTick = 0)
    (hf : s.freezeFlag = 1) (m : ECU2) (hst : m.state = DOOR_UNLOCKING)
    (hm0 : m.openDoorTick = 0) (j rest : List Nat) (hj : MC1_READY ∉ j)
    (hrx : m.rx = j ++ MC1_READY :: rest) :
    (∀ k, k < 12 → (openDoorCallBackFunction^[k] s).freezeFlag = 1) ∧
    (openDoorCallBackFunction^[12] s).freezeFlag = 0 ∧
    (openDoorCallBackFunction^[12] s).openDoorTick = 0 ∧
    (openDoorCallBackFunction^[12] s).timer1 = none ∧
    (openDoorCallBackFunction^[12] s).trace.getLast? = some Event.TIMER1_deInit ∧
    (m.rereadsFlag = true →
      (∀ ticks, 12 ≤ ticks →
        ∃ m', mainIteration ticks m = some m' ∧ m'.state = MAIN_SCREEN ∧
          m'.freezeFlag = 0 ∧ m'.openDoorTick = 0 ∧ m'.timer1 = none ∧ m'.rx = rest) ∧
      (∀ ticks, ticks < 12 → mainIteration ticks m = none)) ∧
    (m.rereadsFlag = false → ∀ ticks, mainIteration ticks m = none) := by
  refine ⟨?_, ?_, ?_, ?_, ?_, ?_, ?_⟩
  · intro k hk
    rw [openDoor_iterate_lt s h0 k hk]
    exact hf
  · rw [openDoor_iterate_12 s h0]
  · rw [openDoor_iterate_12 s h0]
  · rw [openDoor_iterate_12 s h0]
  · rw [openDoor_iterate_12 s h0]
    simp [List.getLast?_append]
  · intro hr
    refine ⟨?_, ?_⟩
    · intro ticks ht
      rw [mainIteration_door m hst hm0 hr j rest hj hrx ticks, if_pos ht]
      exact ⟨_, rfl, rfl, rfl, rfl, rfl, rfl⟩
    · intro ticks ht
      rw [mainIteration_door m hst hm0 hr j rest hj hrx ticks, if_neg (by omega)]
  · intro hr ticks
    exact mainIteration_stale m (Or.inl hst) hr j rest hj hrx ticks

/-- The door sequence of C7 from the initial globals: the call-back clears the
flag at its 12th call; in the build that does not load the flag again the
iteration in `DOOR_UNLOCKING` never ends, and in the build that does it ends
with 12 timer interrupts and not with 11. -/
theorem C7_witness :
    (openDoorCallBackFunction^[11] { boot (fun _ => 0) [] with freezeFlag := 1 }).freezeFlag = 1 ∧
    (openDoorCallBackFunction^[12] { boot (fun _ => 0) [] with freezeFlag := 1 }).freezeFlag = 0 ∧
    (∀ ticks, mainIteration ticks { boot (fun _ => 0) [2] with state := DOOR_UNLOCKING } = none) ∧
    (∃ m', mainIteration 12
        { boot (fun _ => 0) [2] with state := DOOR_UNLOCKING, rereadsFlag := true } = some m' ∧
      m'.state = MAIN_SCREEN) ∧
    mainIteration 11
      { boot (fun _ => 0) [2] with state := DOOR_UNLOCKING, rereadsFlag := true } = none := by
  obtain ⟨h1, h2, -, -, -, -, h3⟩ := C7_door_unlock_sequence_takes_12_ticks
    { boot (fun _ => 0) [] with freezeFlag := 1 } rfl rfl
    { boot (fun _ => 0) [2] with state := DOOR_UNLOCKING } rfl rfl [] [] (by simp) rfl
  obtain ⟨-, -, -, -, -, h4, -⟩ := C7_door_unlock_sequence_takes_12_ticks
    { boot (fun _ => 0) [] with freezeFlag := 1 } rfl rfl
    { boot (fun _ => 0) [2] with state := DOOR_UNLOCKING, rereadsFlag := true }
    rfl rfl [] [] (by simp) rfl
  obtain ⟨h5, h6⟩ := h4 rfl
  obtain ⟨m', h7, h8, -⟩ := h5 12 (Nat.le_refl 12)
  exact ⟨h1 11 (by omega), h2, h3 rfl, ⟨m', h7, h8⟩, h6 11 (by omega)⟩

/-- C8: the Control-side alarm sequence takes exactly 7 ticks, but the main
loop is not sure to see its end.  From `tick = 0` and `freezeFlag = 1`, the
flag is still 1 after each of the first 6 calls of `alarmCallBackFunction`;
after the 7th call the flag is 0, the tick counter is 0 again and the timer is
de-initialised (the last action).  Whether the main loop then sets the state
to `MAIN_SCREEN` depends on the build, because `freezeFlag` is not `volatile`.
Where the busy wait loads the flag at every test, an iteration of the main
loop in `ALARM` ends, with the state `MAIN_SCREEN`, as soon as 7 timer
interrupts have come, and not before.  Where it does not, the iteration never
ends, however many interrupts come: the statement `state = MAIN_SCREEN` is not
reached. -/
theorem C8_alarm_sequence_takes_7_ticks (s : ECU2) (h0 : s.alarmTick = 0)
    (hf : s.freezeFlag = 1) (m : ECU2) (hst : m.state = ALARM)
    (hm0 : m.alarmTick = 0) (j rest : List Nat) (hj : MC1_READY ∉ j)
    (hrx : m.rx = j ++ MC1_READY :: rest) :
    (∀ k, k < 7 → (alarmCallBackFunction^[k] s).freezeFlag = 1) ∧
    (alarmCallBackFunction^[7] s).freezeFlag = 0 ∧
    (alarmCallBackFunction^[7] s).alarmTick = 0 ∧
    (alarmCallBackFunction^[7] s).timer1 = none ∧
    (alarmCallBackFunction^[7] s).trace.getLast? = some Event.TIMER1_deInit ∧
    (m.rereadsFlag = true →
      (∀ ticks, 7 ≤ ticks →
        ∃ m', mainIteration ticks m = some m' ∧ m'.state = MAIN_SCREEN ∧
          m'.freezeFlag = 0 ∧ m'.alarmTick = 0 ∧ m'.timer1 = none ∧ m'.rx = rest) ∧
      (∀ ticks, ticks < 7 → mainIteration ticks m = none)) ∧
    (m.rereadsFlag = false → ∀ ticks, mainIteration ticks m = none) := by
  refine ⟨?_, ?_, ?_, ?_, ?_, ?_, ?_⟩
  · intro k hk
    rw [alarm_iterate_lt s h0 k hk]
    exact hf
  · rw [alarm_iterate_7 s h0]
  · rw [alarm_iterate_7 s h0]
  · rw [alarm_iterate_7 s h0]
  · rw [alarm_iterate_7 s h0]
    simp [List.getLast?_append]
  · intro hr
    refine ⟨?_, ?_⟩
    · intro ticks ht
      rw [mainIteration_alarm m hst hm0 hr j rest hj hrx ticks, if_pos ht]
      exact ⟨_, rfl, rfl, rfl, rfl, rfl, rfl⟩
    · intro ticks ht
      rw [mainIteration_alarm m hst hm0 hr j rest hj hrx ticks, if_neg (by omega)]
  · intro hr ticks
    exact mainIteration_stale m (Or.inr hst) hr j rest hj hrx ticks

/-- The alarm sequence of C8 from the initial globals: the call-back clears the
flag at its 7th call; in the build that does not load the flag again the
iteration in `ALARM` never ends, and in the build that does it ends with 7
timer interrupts and not with 6. -/
theorem C8_witness :
    (alarmCallBackFunction^[6] { boot (fun _ => 0) [] with freezeFlag := 1 }).freezeFlag = 1 ∧
    (alarmCallBackFunction^[7] { boot (fun _ => 0) [] with freezeFlag := 1 }).freezeFlag = 0 ∧
    (∀ ticks, mainIteration ticks { boot (fun _ => 0) [2] with state := ALARM } = none) ∧
    (∃ m', mainIteration 7
        { boot (fun _ => 0) [2] with state := ALARM, rereadsFlag := true } = some m' ∧
      m'.state = MAIN_SCREEN) ∧
    mainIteration 6 { boot (fun _ => 0) [2] with state := ALARM, rereadsFlag := true } = none := by
  obtain ⟨h1, h2, -, -, -, -, h3⟩ := C8_alarm_sequence_takes_7_ticks
    { boot (fun _ => 0) [] with freezeFlag := 1 } rfl rfl
    { boot (fun _ => 0) [2] with state := ALARM } rfl rfl [] [] (by simp) rfl
  obtain ⟨-, -, -, -, -, h4, -⟩ := C8_alarm_sequence_takes_7_ticks
    { boot (fun _ => 0) [] with freezeFlag := 1 } rfl rfl
    { boot (fun _ => 0) [2] with state := ALARM, rereadsFlag := true }
    rfl rfl [] [] (by simp) rfl
  obtain ⟨h5, h6⟩ := h4 rfl
  obtain ⟨m', h7, h8, -⟩ := h5 7 (Nat.le_refl 7)
  exact ⟨h1 6 (by omega), h2, h3 rfl, ⟨m', h7, h8⟩, h6 6 (by omega)⟩

/-- C9: motor phase schedule.  Over one activation of the Control-side
door-unlock sequence (12 calls of `openDoorCallBackFunction` from `tick = 0`;
call `k + 1` is the one that sees tick `k + 1`) the call at tick 1 issues
rotate clockwise, the call at tick 6 issues stop, the call at tick 7 issues
rotate counter-clockwise, the call at tick 12 issues stop, and the call at any
other tick issues no motor command; the last motor command of the completed
sequence is stop. -/
theorem C9_motor_phase_schedule (s : ECU2) (h0 : s.openDoorTick = 0) :
    (∀ k, k < 12 →
      (openDoorCallBackFunction^[k] s).openDoorTick + 1 = k + 1 ∧
      motorCommands (openDoorCallBackFunction^[k + 1] s).trace =
        motorCommands (openDoorCallBackFunction^[k] s).trace ++
          (if k + 1 = 1 then [(DC_MOTOR_CW, 100)]
           else if k + 1 = 6 then [(DC_MOTOR_STOP, 0)]
           else if k + 1 = 7 then [(DC_MOTOR_CCW, 100)]
           else if k + 1 = 12 then [(DC_MOTOR_STOP, 0)]
           else [])) ∧
    motorCommands (openDoorCallBackFunction^[12] s).trace =
      motorCommands s.trace ++
        [(DC_MOTOR_CW, 100), (DC_MOTOR_STOP, 0), (DC_MOTOR_CCW, 100), (DC_MOTOR_STOP, 0)] ∧
    (motorCommands (openDoorCallBackFunction^[12] s).trace).getLast? =
      some (DC_MOTOR_STOP, 0) := by
  refine ⟨?_, ?_, ?_⟩
  · intro k hk
    refine ⟨?_, ?_⟩
    · rw [openDoor_iterate_lt s h0 k hk]
    · by_cases h11 : k = 11
      · subst h11
        rw [openDoor_iterate_12 s h0, openDoor_iterate_lt s h0 11 (by omega)]
        simp [motorCommands_append, motorCommands]
      · rw [openDoor_iterate_lt s h0 (k + 1) (by omega), openDoor_iterate_lt s h0 k hk]
        interval_cases k <;> simp [motorCommands_append, motorCommands] at h11 ⊢
  · rw [openDoor_iterate_12 s h0]
    simp [motorCommands_append, motorCommands]
  · rw [openDoor_iterate_12 s h0]
    simp [motorCommands_append, motorCommands, List.getLast?_append]

/-- The motor schedule of C9 from the initial globals. -/
theorem C9_witness :
    motorCommands (openDoorCallBackFunction^[12] (boot (fun _ => 0) [])).trace =
      [(DC_MOTOR_CW, 100), (DC_MOTOR_STOP, 0), (DC_MOTOR_CCW, 100), (DC_MOTOR_STOP, 0)] ∧
    motorCommands (openDoorCallBackFunction^[6] (boot (fun _ => 0) [])).trace =
      motorCommands (openDoorCallBackFunction^[5] (boot (fun _ => 0) [])).trace ++
        [(DC_MOTOR_STOP, 0)] := by
  obtain ⟨h1, h2, _⟩ := C9_motor_phase_schedule (boot (fun _ => 0) []) rfl
  exact ⟨h2, (h1 5 (by omega)).2⟩

/-- C10: alarm output schedule.  Over one activation of the Control-side alarm
sequence (7 calls of `alarmCallBackFunction` from `tick = 0`; call `k + 1` is
the one that sees tick `k + 1`) the call at tick 1 switches the buzzer on, the
call at tick 7 switches it off, and the calls at ticks 2..6 issue no buzzer
command; whenever the sequence has completed (`freezeFlag` cleared) the last
buzzer command is off. -/
theorem C10_alarm_output_schedule (s : ECU2) (h0 : s.alarmTick = 0) (hf : s.freezeFlag = 1) :
    (∀ k, k < 7 →
      (alarmCallBackFunction^[k] s).alarmTick + 1 = k + 1 ∧
      buzzerCommands (alarmCallBackFunction^[k + 1] s).trace =
        buzzerCommands (alarmCallBackFunction^[k] s).trace ++
          (if k + 1 = 1 then [true] else if k + 1 = 7 then [false] else [])) ∧
    buzzerCommands (alarmCallBackFunction^[7] s).trace =
      buzzerCommands s.trace ++ [true, false] ∧
    (∀ k, k ≤ 7 → (alarmCallBackFunction^[k] s).freezeFlag = 0 →
      (buzzerCommands (alarmCallBackFunction^[k] s).trace).getLast? = some false) := by
  refine ⟨?_, ?_, ?_⟩
  · intro k hk
    refine ⟨?_, ?_⟩
    · rw [alarm_iterate_lt s h0 k hk]
    · by_cases h6 : k = 6
      · subst h6
        rw [alarm_iterate_7 s h0, alarm_iterate_lt s h0 6 (by omega)]
        simp [buzzerCommands_append, buzzerCommands]
      · rw [alarm_iterate_lt s h0 (k + 1) (by omega), alarm_iterate_lt s h0 k hk]
        interval_cases k <;> simp [buzzerCommands_append, buzzerCommands] at h6 ⊢
  · rw [alarm_iterate_7 s h0]
    simp [buzzerCommands_append, buzzerCommands]
  · intro k hk hflag
    by_cases h7 : k = 7
    · subst h7
      rw [alarm_iterate_7 s h0]
      simp [buzzerCommands_append, buzzerCommands, List.getLast?_append]
    · rw [alarm_iterate_lt s h0 k (by omega)] at hflag
      simp only at hflag
      omega

/-- The buzzer schedule of C10 from the initial globals. -/
theorem C10_witness :
    buzzerCommands (alarmCallBackFunction^[7]
      { boot (fun _ => 0) [] with freezeFlag := 1 }).trace = [true, false] ∧
    buzzerCommands (alarmCallBackFunction^[1]
      { boot (fun _ => 0) [] with freezeFlag := 1 }).trace = [true] := by
  obtain ⟨h1, h2, _⟩ := C10_alarm_output_schedule
    { boot (fun _ => 0) [] with freezeFlag := 1 } rfl rfl
  exact ⟨h2, (h1 0 (by omega)).2⟩

/-! ## Main loop -/

/-- One iteration of the main loop in `OPEN_DOOR` or `CHANGE_PASS`. -/
theorem mainIteration_verify (s : ECU2) (hst : s.state = OPEN_DOOR ∨ s.state = CHANGE_PASS)
    (j : List Nat) (noise : Nat → List Nat) (Q rest : List Nat) (hj : MC1_READY ∉ j)
    (hn : ∀ k, MC1_ASK ∉ noise k) (hrx : s.rx = verifyStream j noise Q ++ rest)
    (ticks : Nat) :
    mainIteration ticks s =
      some (if secretIs s.eeprom Q then
              { s with
                state := if s.state = OPEN_DOOR then DOOR_UNLOCKING else CREATE_PASS
                wrongPassCounter := 0
                rx := rest
                trace := s.trace ++
                  [Event.UART_sendByte MC2_ASK, Event.UART_sendByte s.state.code] ++
                  getPassTrace 5 0 }
            else
              wrongPass
                { s with
                  rx := rest
                  trace := s.trace ++
                    [Event.UART_sendByte MC2_ASK, Event.UART_sendByte s.state.code] ++
                    getPassTrace 5 0 }) := by
  simp only [verifyStream, List.append_assoc, List.cons_append] at hrx
  unfold mainIteration
  rw [announce_stream s j _ hj hrx]
  simp only [Option.bind_eq_bind, Option.some_bind, bind]
  rcases hst with hst | hst
  · simp only [dispatch, hst]
    rw [getPass_passStream noise Q rest hn _ rfl]
    by_cases hsec : secretIs s.eeprom Q
    · simp [hsec, TRUE]
    · simp [hsec, TRUE, FALSE]
  · simp only [dispatch, hst]
    rw [getPass_passStream noise Q rest hn _ rfl]
    by_cases hsec : secretIs s.eeprom Q
    · simp [hsec, TRUE]
    · simp [hsec, TRUE, FALSE]

/-- One iteration of the main loop in `MAIN_SCREEN`. -/
theorem mainIteration_menu (s : ECU2) (hst : s.state = MAIN_SCREEN)
    (j j' : List Nat) (key : Nat) (rest : List Nat) (hj : MC1_READY ∉ j)
    (hj' : MC1_ASK ∉ j') (hrx : s.rx = menuStream j j' key ++ rest) (ticks : Nat) :
    mainIteration ticks s =
      some { s with
             state := if key = 43 then OPEN_DOOR else if key = 45 then CHANGE_PASS
                      else MAIN_SCREEN
             rx := rest
             trace := s.trace ++
               [Event.UART_sendByte MC2_ASK, Event.UART_sendByte 1,
                Event.UART_sendByte MC2_READY] } := by
  simp only [menuStream, List.append_assoc, List.cons_append, List.nil_append] at hrx
  unfold mainIteration
  rw [announce_stream s j _ hj hrx]
  simp only [Option.bind_eq_bind, Option.some_bind, bind, dispatch, hst, waitFor,
    awaitToken_noise _ _ _ hj', Option.map_some', UART_sendByte, UART_recieveByte, emit]
  by_cases h43 : key = 43
  · simp [h43, APPLICATION_STATE.code]
  · by_cases h45 : key = 45
    · simp [h45, APPLICATION_STATE.code]
    · simp [h43, h45, APPLICATION_STATE.code, hst]

/-- A failed verification round: what the next iteration starts from. -/
theorem verify_fail_step (s : ECU2) (hst : s.state = OPEN_DOOR ∨ s.state = CHANGE_PASS)
    (j : List Nat) (noise : Nat → List Nat) (Q rest : List Nat) (hj : MC1_READY ∉ j)
    (hn : ∀ k, MC1_ASK ∉ noise k) (hrx : s.rx = verifyStream j noise Q ++ rest)
    (hfail : ¬ secretIs s.eeprom Q) (ticks : Nat) :
    ∃ s', mainIteration ticks s = some s' ∧ s'.rx = rest ∧ s'.eeprom = s.eeprom ∧
      s'.openDoorTick = s.openDoorTick ∧
      s'.wrongPassCounter =
        (if (s.wrongPassCounter + 1) % 256 = 3 then 0 else (s.wrongPassCounter + 1) % 256) ∧
      s'.state = (if (s.wrongPassCounter + 1) % 256 = 3 then ALARM else s.state) := by
  refine ⟨_, mainIteration_verify s hst j noise Q rest hj hn hrx ticks, ?_⟩
  rw [if_neg hfail]
  by_cases h3 : (s.wrongPassCounter + 1) % 256 = 3
  · simp [wrongPass, h3]
  · simp [wrongPass, h3]

/-- A successful verification round: what the next iteration starts from. -/
theorem verify_ok_step (s : ECU2) (hst : s.state = OPEN_DOOR ∨ s.state = CHANGE_PASS)
    (j : List Nat) (noise : Nat → List Nat) (Q rest : List Nat) (hj : MC1_READY ∉ j)
    (hn : ∀ k, MC1_ASK ∉ noise k) (hrx : s.rx = verifyStream j noise Q ++ rest)
    (hok : secretIs s.eeprom Q) (ticks : Nat) :
    ∃ s', mainIteration ticks s = some s' ∧ s'.rx = rest ∧ s'.eeprom = s.eeprom ∧
      s'.openDoorTick = s.openDoorTick ∧ s'.wrongPassCounter = 0 ∧
      s'.state = (if s.state = OPEN_DOOR then DOOR_UNLOCKING else CREATE_PASS) := by
  refine ⟨_, mainIteration_verify s hst j noise Q rest hj hn hrx ticks, ?_⟩
  rw [if_pos hok]
  exact ⟨rfl, rfl, rfl, rfl, rfl⟩

/-- C3: three-strike lockout.  The Control state machine is in `OPEN_DOOR` or
`CHANGE_PASS` with `wrongPassCounter = 0` and the link delivers three
verification rounds carrying `Q1`, `Q2`, `Q3`, of which `Q1` and `Q2` are not
the stored secret.  Then the first two iterations of the main loop return with
the state unchanged (so not `ALARM`) and the counter 1, then 2; the third
returns with the state `ALARM` and the counter 0 if `Q3` is not the secret
either, and with a state other than `ALARM` if `Q3` is the secret. -/
theorem C3_three_strike_lockout (s0 : ECU2)
    (hst : s0.state = OPEN_DOOR ∨ s0.state = CHANGE_PASS) (hc : s0.wrongPassCounter = 0)
    (Q1 Q2 Q3 : List Nat) (h1 : ¬ secretIs s0.eeprom Q1) (h2 : ¬ secretIs s0.eeprom Q2)
    (j : Nat → List Nat) (hj : ∀ a, MC1_READY ∉ j a)
    (noise : Nat → Nat → List Nat) (hn : ∀ a k, MC1_ASK ∉ noise a k)
    (rest : List Nat) (ticks : Nat)
    (hrx : s0.rx = verifyStream (j 0) (noise 0) Q1 ++ (verifyStream (j 1) (noise 1) Q2 ++
      (verifyStream (j 2) (noise 2) Q3 ++ rest))) :
    ∃ s1 s2 s3,
      mainIteration ticks s0 = some s1 ∧ s1.state = s0.state ∧ s1.wrongPassCounter = 1 ∧
        s1.state ≠ ALARM ∧
      mainIteration ticks s1 = some s2 ∧ s2.state = s0.state ∧ s2.wrongPassCounter = 2 ∧
        s2.state ≠ ALARM ∧
      mainIteration ticks s2 = some s3 ∧
      (¬ secretIs s0.eeprom Q3 → s3.state = ALARM ∧ s3.wrongPassCounter = 0) ∧
      (secretIs s0.eeprom Q3 → s3.state ≠ ALARM ∧ s3.wrongPassCounter = 0) := by
  have hnA : s0.state ≠ ALARM := by
    rcases hst with h | h <;> rw [h] <;> decide
  obtain ⟨s1, e1, r1, m1, -, c1, t1⟩ :=
    verify_fail_step s0 hst (j 0) (noise 0) Q1 _ (hj 0) (hn 0) hrx h1 ticks
  rw [hc] at c1 t1
  norm_num at c1 t1
  have hst1 : s1.state = OPEN_DOOR ∨ s1.state = CHANGE_PASS := by rw [t1]; exact hst
  obtain ⟨s2, e2, r2, m2, -, c2, t2⟩ :=
    verify_fail_step s1 hst1 (j 1) (noise 1) Q2 _ (hj 1) (hn 1) r1 (by rw [m1]; exact h2) ticks
  rw [c1] at c2 t2
  norm_num at c2 t2
  have hst2 : s2.state = OPEN_DOOR ∨ s2.state = CHANGE_PASS := by rw [t2, t1]; exact hst
  refine ⟨s1, s2, ?_⟩
  by_cases h3 : secretIs s0.eeprom Q3
  · obtain ⟨s3, e3, -, -, -, c3, t3⟩ :=
      verify_ok_step s2 hst2 (j 2) (noise 2) Q3 rest (hj 2) (hn 2) r2
        (by rw [m2, m1]; exact h3) ticks
    refine ⟨s3, e1, t1, c1, by rw [t1]; exact hnA, e2, by rw [t2, t1], c2,
      by rw [t2, t1]; exact hnA, e3, fun h => absurd h3 h, fun _ => ⟨?_, c3⟩⟩
    rw [t3]
    split <;> decide
  · obtain ⟨s3, e3, -, -, -, c3, t3⟩ :=
      verify_fail_step s2 hst2 (j 2) (noise 2) Q3 rest (hj 2) (hn 2) r2
        (by rw [m2, m1]; exact h3) ticks
    rw [c2] at c3 t3
    norm_num at c3 t3
    exact ⟨s3, e1, t1, c1, by rw [t1]; exact hnA, e2, by rw [t2, t1], c2,
      by rw [t2, t1]; exact hnA, e3, fun _ => ⟨t3, c3⟩, fun h => absurd h h3⟩

/-- The lockout of C3 on a store holding 1, 2, 3, 4, 5 and three attempts 9, 9, 9, 9, 9. -/
theorem C3_witness :
    ∃ s1 s2 s3,
      mainIteration 0 { boot (fun a => a)
        (verifyStream [] (fun _ => []) [9, 9, 9, 9, 9] ++
          (verifyStream [] (fun _ => []) [9, 9, 9, 9, 9] ++
            (verifyStream [] (fun _ => []) [9, 9, 9, 9, 9] ++ []))) with state := OPEN_DOOR }
        = some s1 ∧ s1.state = OPEN_DOOR ∧ s1.wrongPassCounter = 1 ∧
      mainIteration 0 s1 = some s2 ∧ s2.state = OPEN_DOOR ∧ s2.wrongPassCounter = 2 ∧
      mainIteration 0 s2 = some s3 ∧ s3.state = ALARM ∧ s3.wrongPassCounter = 0 := by
  obtain ⟨s1, s2, s3, e1, t1, c1, -, e2, t2, c2, -, e3, h3, -⟩ :=
    C3_three_strike_lockout
      { boot (fun a => a)
        (verifyStream [] (fun _ => []) [9, 9, 9, 9, 9] ++
          (verifyStream [] (fun _ => []) [9, 9, 9, 9, 9] ++
            (verifyStream [] (fun _ => []) [9, 9, 9, 9, 9] ++ []))) with state := OPEN_DOOR }
      (Or.inl rfl) rfl [9, 9, 9, 9, 9] [9, 9, 9, 9, 9] [9, 9, 9, 9, 9] (by decide) (by decide)
      (fun _ => []) (by intro _; simp) (fun _ _ => []) (by intro _ _; simp) [] 0 rfl
  exact ⟨s1, s2, s3, e1, t1, c1, e2, t2, c2, e3, (h3 (by decide)).1, (h3 (by decide)).2⟩

/-- A timer call-back leaves the link, the store and the retry counter alone. -/
theorem run_link (cb : CallBack) (s : ECU2) :
    (cb.run s).rx = s.rx ∧ (cb.run s).eeprom = s.eeprom ∧
      (cb.run s).wrongPassCounter = s.wrongPassCounter := by
  cases cb
  · simp only [CallBack.run, openDoorCallBackFunction, DcMotor_Rotate, TIMER1_init,
      TIMER1_deInit, emit]
    split_ifs <;> exact ⟨rfl, rfl, rfl⟩
  · simp only [CallBack.run, alarmCallBackFunction, BUZZER_on, BUZZER_off, TIMER1_init,
      TIMER1_deInit, emit]
    split_ifs <;> exact ⟨rfl, rfl, rfl⟩

/-- A busy wait that ends leaves the link, the store and the retry counter
alone, whatever made it end. -/
theorem busyWait_link :
    ∀ (ticks : Nat) (s s' : ECU2), busyWait ticks s = some s' →
      s'.rx = s.rx ∧ s'.eeprom = s.eeprom ∧ s'.wrongPassCounter = s.wrongPassCounter := by
  intro ticks
  induction ticks with
  | zero =>
    intro s s' h
    by_cases hf : s.freezeFlag = 1
    · simp [busyWait, hf] at h
    · simp only [busyWait, hf, if_false, Option.some.injEq] at h
      subst h
      exact ⟨rfl, rfl, rfl⟩
  | succ ticks ih =>
    intro s s' h
    by_cases hf : s.freezeFlag = 1
    · cases hr : s.rereadsFlag with
      | false => simp [busyWait_stale _ s hf hr] at h
      | true =>
        cases ht : s.timer1 with
        | none => simp [busyWait, hf, ht] at h
        | some c =>
          cases hc : s.callBack with
          | none => simp [busyWait, hf, ht, hc] at h
          | some cb =>
            rw [busyWait_step ticks s c cb hf hr ht hc] at h
            obtain ⟨h1, h2, h3⟩ := ih _ _ h
            obtain ⟨h4, h5, h6⟩ := run_link cb s
            exact ⟨h1.trans h4, h2.trans h5, h3.trans h6⟩
    · rw [busyWait_done _ _ hf] at h
      simp only [Option.some.injEq] at h
      subst h
      exact ⟨rfl, rfl, rfl⟩

/-- A door-unlock round that ends, whatever made the busy wait end: what the
next iteration starts from. -/
theorem door_step (s : ECU2) (hst : s.state = DOOR_UNLOCKING)
    (j rest : List Nat) (hj : MC1_READY ∉ j) (hrx : s.rx = announceStream j ++ rest)
    (ticks : Nat) (s' : ECU2) (h : mainIteration ticks s = some s') :
    s'.rx = rest ∧ s'.eeprom = s.eeprom ∧ s'.wrongPassCounter = s.wrongPassCounter ∧
      s'.state = MAIN_SCREEN := by
  simp only [announceStream, List.append_assoc, List.singleton_append] at hrx
  unfold mainIteration at h
  rw [announce_stream s j rest hj hrx] at h
  simp only [Option.bind_eq_bind, Option.some_bind, bind, dispatch, hst] at h
  cases hb : busyWait ticks
      (TIMER1_init ⟨0, 10, F_CPU_1024, TIMER1_COMPARE⟩
        (TIMER1_setCallBack CallBack.openDoor
          { s with
            state := DOOR_UNLOCKING
            freezeFlag := 1
            rx := rest
            trace := s.trace ++
              [Event.UART_sendByte MC2_ASK, Event.UART_sendByte DOOR_UNLOCKING.code] })) with
  | none =>
    rw [hb] at h
    simp at h
  | some b =>
    rw [hb] at h
    simp only [Option.some_bind, Option.some.injEq] at h
    subst h
    obtain ⟨b1, b2, b3⟩ := busyWait_link _ _ _ hb
    exact ⟨b1, b2, b3, rfl⟩

/-- A door-unlock round ends when the busy wait loads the flag at every test
and 12 timer interrupts come. -/
theorem door_ends (s : ECU2) (hst : s.state = DOOR_UNLOCKING) (h0 : s.openDoorTick = 0)
    (hr : s.rereadsFlag = true) (j rest : List Nat) (hj : MC1_READY ∉ j)
    (hrx : s.rx = announceStream j ++ rest) (ticks : Nat) (ht : 12 ≤ ticks) :
    ∃ s', mainIteration ticks s = some s' := by
  simp only [announceStream, List.append_assoc, List.singleton_append] at hrx
  have h := mainIteration_door s hst h0 hr j rest hj hrx ticks
  rw [if_pos ht] at h
  exact ⟨_, h⟩

/-- A door-unlock round never ends when the busy wait does not load the flag
again. -/
theorem door_hangs (s : ECU2) (hst : s.state = DOOR_UNLOCKING)
    (hr : s.rereadsFlag = false) (j rest : List Nat) (hj : MC1_READY ∉ j)
    (hrx : s.rx = announceStream j ++ rest) (ticks : Nat) :
    mainIteration ticks s = none := by
  simp only [announceStream, List.append_assoc, List.singleton_append] at hrx
  exact mainIteration_stale s (Or.inl hst) hr j rest hj hrx ticks

/-- A verification round leaves the build as it is. -/
theorem verify_build (s : ECU2) (hst : s.state = OPEN_DOOR ∨ s.state = CHANGE_PASS)
    (j : List Nat) (noise : Nat → List Nat) (Q rest : List Nat) (hj : MC1_READY ∉ j)
    (hn : ∀ k, MC1_ASK ∉ noise k) (hrx : s.rx = verifyStream j noise Q ++ rest)
    (ticks : Nat) (s' : ECU2) (h : mainIteration ticks s = some s') :
    s'.rereadsFlag = s.rereadsFlag := by
  rw [mainIteration_verify s hst j noise Q rest hj hn hrx ticks] at h
  simp only [Option.some.injEq] at h
  subst h
  by_cases hsec : secretIs s.eeprom Q
  · rw [if_pos hsec]
  · rw [if_neg hsec]
    simp only [wrongPass]
    split_ifs <;> rfl

/-- A menu round: what the next iteration starts from. -/
theorem menu_step (s : ECU2) (hst : s.state = MAIN_SCREEN)
    (j j' : List Nat) (key : Nat) (rest : List Nat) (hj : MC1_READY ∉ j)
    (hj' : MC1_ASK ∉ j') (hrx : s.rx = menuStream j j' key ++ rest) (ticks : Nat) :
    ∃ s', mainIteration ticks s = some s' ∧ s'.rx = rest ∧ s'.eeprom = s.eeprom ∧
      s'.openDoorTick = s.openDoorTick ∧ s'.wrongPassCounter = s.wrongPassCounter ∧
      s'.state = (if key = 43 then OPEN_DOOR else if key = 45 then CHANGE_PASS
                  else MAIN_SCREEN) :=
  ⟨_, mainIteration_menu s hst j j' key rest hj hj' hrx ticks, rfl, rfl, rfl, rfl, rfl⟩

theorem mainLoop_succ_of (n ticks : Nat) (s s' : ECU2)
    (h : mainIteration ticks s = some s') :
    mainLoop (n + 1) ticks s = mainLoop n ticks s' := by
  simp [mainLoop, h]

theorem mainLoop_succ_none (n ticks : Nat) (s : ECU2)
    (h : mainIteration ticks s = none) :
    mainLoop (n + 1) ticks s = none := by
  simp [mainLoop, h]

/-- C4: a successful verification resets the failure count.  The Control state
machine is in `OPEN_DOOR` with `wrongPassCounter = 0`; the link delivers two
verification rounds that fail, one that succeeds, the announce round of the
door sequence, a menu round with the key `+` (43), and two more verification
rounds that fail.  The first three iterations of the main loop return, with
the counter at 1, at 2, and back at 0 in `DOOR_UNLOCKING`.  When the door
sequence completes, that is when the fourth iteration returns, all seven
iterations return, none of the eight states met is `ALARM`, and the run ends
in `OPEN_DOOR` with `wrongPassCounter = 2`.  The door sequence completes when
the busy wait loads `freezeFlag` at every test, the door tick counter is at
rest and 12 timer interrupts come; it does not complete when the busy wait
does not load the flag again, and `freezeFlag` not being `volatile` the source
leaves either open.  Whether or not it completes, no iteration that returns
leaves the state machine in `ALARM`. -/
theorem C4_success_resets_failure_count (s0 : ECU2)
    (hst : s0.state = OPEN_DOOR) (hc : s0.wrongPassCounter = 0)
    (Q1 Q2 P Q4 Q5 : List Nat)
    (h1 : ¬ secretIs s0.eeprom Q1) (h2 : ¬ secretIs s0.eeprom Q2)
    (hP : secretIs s0.eeprom P)
    (h4 : ¬ secretIs s0.eeprom Q4) (h5 : ¬ secretIs s0.eeprom Q5)
    (j : Nat → List Nat) (hj : ∀ a, MC1_READY ∉ j a)
    (noise : Nat → Nat → List Nat) (hn : ∀ a k, MC1_ASK ∉ noise a k)
    (rest : List Nat) (ticks : Nat)
    (hrx : s0.rx =
      verifyStream (j 0) (noise 0) Q1 ++ (verifyStream (j 1) (noise 1) Q2 ++
        (verifyStream (j 2) (noise 2) P ++ (announceStream (j 3) ++
          (menuStream (j 4) (noise 4 0) 43 ++ (verifyStream (j 5) (noise 5) Q4 ++
            (verifyStream (j 6) (noise 6) Q5 ++ rest))))))) :
    (List.range 4).map
        (fun k => (mainLoop k ticks s0).map (fun t => (t.state, t.wrongPassCounter))) =
      [some (OPEN_DOOR, 0), some (OPEN_DOOR, 1), some (OPEN_DOOR, 2),
       some (DOOR_UNLOCKING, 0)] ∧
    ((mainLoop 4 ticks s0).isSome = true →
      (∀ k, k ≤ 7 → ∃ t, mainLoop k ticks s0 = some t ∧ t.state ≠ ALARM) ∧
      (∃ t, mainLoop 7 ticks s0 = some t ∧ t.state = OPEN_DOOR ∧ t.wrongPassCounter = 2) ∧
      (List.range 8).map
          (fun k => (mainLoop k ticks s0).map (fun t => (t.state, t.wrongPassCounter))) =
        [some (OPEN_DOOR, 0), some (OPEN_DOOR, 1), some (OPEN_DOOR, 2),
         some (DOOR_UNLOCKING, 0), some (MAIN_SCREEN, 0), some (OPEN_DOOR, 0),
         some (OPEN_DOOR, 1), some (OPEN_DOOR, 2)]) ∧
    (s0.rereadsFlag = true → s0.openDoorTick = 0 → 12 ≤ ticks →
      (mainLoop 4 ticks s0).isSome = true) ∧
    (s0.rereadsFlag = false → mainLoop 4 ticks s0 = none) ∧
    (∀ k t, k ≤ 7 → mainLoop k ticks s0 = some t → t.state ≠ ALARM) := by
  obtain ⟨s1, e1, r1, m1, k1, c1, t1⟩ :=
    verify_fail_step s0 (Or.inl hst) (j 0) (noise 0) Q1 _ (hj 0) (hn 0) hrx h1 ticks
  have b1 := verify_build s0 (Or.inl hst) (j 0) (noise 0) Q1 _ (hj 0) (hn 0) hrx ticks s1 e1
  rw [hc] at c1 t1
  norm_num at c1 t1
  rw [hst] at t1
  obtain ⟨s2, e2, r2, m2, k2, c2, t2⟩ :=
    verify_fail_step s1 (Or.inl t1) (j 1) (noise 1) Q2 _ (hj 1) (hn 1) r1
      (by rw [m1]; exact h2) ticks
  have b2 := verify_build s1 (Or.inl t1) (j 1) (noise 1) Q2 _ (hj 1) (hn 1) r1 ticks s2 e2
  rw [c1] at c2 t2
  norm_num at c2 t2
  rw [t1] at t2
  obtain ⟨s3, e3, r3, m3, k3, c3, t3⟩ :=
    verify_ok_step s2 (Or.inl t2) (j 2) (noise 2) P _ (hj 2) (hn 2) r2
      (by rw [m2, m1]; exact hP) ticks
  have b3 := verify_build s2 (Or.inl t2) (j 2) (noise 2) P _ (hj 2) (hn 2) r2 ticks s3 e3
  rw [t2, if_pos rfl] at t3
  have l0 : mainLoop 0 ticks s0 = some s0 := rfl
  have l1 : mainLoop 1 ticks s0 = some s1 := by
    rw [mainLoop_succ_of 0 ticks s0 s1 e1]; rfl
  have l2 : mainLoop 2 ticks s0 = some s2 := by
    rw [mainLoop_succ_of 1 ticks s0 s1 e1, mainLoop_succ_of 0 ticks s1 s2 e2]; rfl
  have l3 : mainLoop 3 ticks s0 = some s3 := by
    rw [mainLoop_succ_of 2 ticks s0 s1 e1, mainLoop_succ_of 1 ticks s1 s2 e2,
      mainLoop_succ_of 0 ticks s2 s3 e3]; rfl
  have first : (List.range 4).map
      (fun k => (mainLoop k ticks s0).map (fun t => (t.state, t.wrongPassCounter))) =
      [some (OPEN_DOOR, 0), some (OPEN_DOOR, 1), some (OPEN_DOOR, 2),
       some (DOOR_UNLOCKING, 0)] := by
    simp [List.range, List.range.loop, l0, l1, l2, l3, hst, hc, t1, c1, t2, c2, t3, c3]
  have hang : ∀ n, mainIteration ticks s3 = none → mainLoop (n + 4) ticks s0 = none := by
    intro n e4
    rw [mainLoop_succ_of (n + 3) ticks s0 s1 e1, mainLoop_succ_of (n + 2) ticks s1 s2 e2,
      mainLoop_succ_of (n + 1) ticks s2 s3 e3, mainLoop_succ_none n ticks s3 e4]
  cases e4 : mainIteration ticks s3 with
  | none =>
    have l4 : mainLoop 4 ticks s0 = none := hang 0 e4
    refine ⟨first, ?_, ?_, fun _ => l4, ?_⟩
    · intro hsome
      rw [l4] at hsome
      cases hsome
    · intro hr htick ht
      obtain ⟨s4, e4'⟩ := door_ends s3 t3 (by rw [k3, k2, k1, htick])
        (by rw [b3, b2, b1, hr]) (j 3) _ (hj 3) r3 ticks ht
      rw [e4] at e4'
      cases e4'
    · intro k t hk hkt
      interval_cases k
      · rw [l0] at hkt; cases hkt; rw [hst]; decide
      · rw [l1] at hkt; cases hkt; rw [t1]; decide
      · rw [l2] at hkt; cases hkt; rw [t2]; decide
      · rw [l3] at hkt; cases hkt; rw [t3]; decide
      · rw [hang 0 e4] at hkt; cases hkt
      · rw [hang 1 e4] at hkt; cases hkt
      · rw [hang 2 e4] at hkt; cases hkt
      · rw [hang 3 e4] at hkt; cases hkt
  | some s4 =>
    obtain ⟨r4, m4, c4, t4⟩ := door_step s3 t3 (j 3) _ (hj 3) r3 ticks s4 e4
    rw [c3] at c4
    obtain ⟨s5, e5, r5, m5, k5, c5, t5⟩ :=
      menu_step s4 t4 (j 4) (noise 4 0) 43 _ (hj 4) (hn 4 0) r4 ticks
    rw [c4] at c5
    rw [if_pos rfl] at t5
    obtain ⟨s6, e6, r6, m6, k6, c6, t6⟩ :=
      verify_fail_step s5 (Or.inl t5) (j 5) (noise 5) Q4 _ (hj 5) (hn 5) r5
        (by rw [m5, m4, m3, m2, m1]; exact h4) ticks
    rw [c5] at c6 t6
    norm_num at c6 t6
    rw [t5] at t6
    obtain ⟨s7, e7, r7, m7, k7, c7, t7⟩ :=
      verify_fail_step s6 (Or.inl t6) (j 6) (noise 6) Q5 rest (hj 6) (hn 6) r6
        (by rw [m6, m5, m4, m3, m2, m1]; exact h5) ticks
    rw [c6] at c7 t7
    norm_num at c7 t7
    rw [t6] at t7
    have l4 : mainLoop 4 ticks s0 = some s4 := by
      rw [mainLoop_succ_of 3 ticks s0 s1 e1, mainLoop_succ_of 2 ticks s1 s2 e2,
        mainLoop_succ_of 1 ticks s2 s3 e3, mainLoop_succ_of 0 ticks s3 s4 e4]; rfl
    have l5 : mainLoop 5 ticks s0 = some s5 := by
      rw [mainLoop_succ_of 4 ticks s0 s1 e1, mainLoop_succ_of 3 ticks s1 s2 e2,
        mainLoop_succ_of 2 ticks s2 s3 e3, mainLoop_succ_of 1 ticks s3 s4 e4,
        mainLoop_succ_of 0 ticks s4 s5 e5]; rfl
    have l6 : mainLoop 6 ticks s0 = some s6 := by
      rw [mainLoop_succ_of 5 ticks s0 s1 e1, mainLoop_succ_of 4 ticks s1 s2 e2,
        mainLoop_succ_of 3 ticks s2 s3 e3, mainLoop_succ_of 2 ticks s3 s4 e4,
        mainLoop_succ_of 1 ticks s4 s5 e5, mainLoop_succ_of 0 ticks s5 s6 e6]; rfl
    have l7 : mainLoop 7 ticks s0 = some s7 := by
      rw [mainLoop_succ_of 6 ticks s0 s1 e1, mainLoop_succ_of 5 ticks s1 s2 e2,
        mainLoop_succ_of 4 ticks s2 s3 e3, mainLoop_succ_of 3 ticks s3 s4 e4,
        mainLoop_succ_of 2 ticks s4 s5 e5, mainLoop_succ_of 1 ticks s5 s6 e6,
        mainLoop_succ_of 0 ticks s6 s7 e7]; rfl
    have all : ∀ k, k ≤ 7 → ∃ t, mainLoop k ticks s0 = some t ∧ t.state ≠ ALARM := by
      intro k hk
      interval_cases k
      · exact ⟨s0, l0, by rw [hst]; decide⟩
      · exact ⟨s1, l1, by rw [t1]; decide⟩
      · exact ⟨s2, l2, by rw [t2]; decide⟩
      · exact ⟨s3, l3, by rw [t3]; decide⟩
      · exact ⟨s4, l4, by rw [t4]; decide⟩
      · exact ⟨s5, l5, by rw [t5]; decide⟩
      · exact ⟨s6, l6, by rw [t6]; decide⟩
      · exact ⟨s7, l7, by rw [t7]; decide⟩
    refine ⟨first, fun _ => ⟨all, ⟨s7, l7, t7, c7⟩, ?_⟩, ?_, ?_, ?_⟩
    · simp [List.range, List.range.loop, l0, l1, l2, l3, l4, l5, l6, l7, hst, hc, t1, c1, t2,
        c2, t3, c3, t4, c4, t5, c5, t6, c6, t7, c7]
    · intro _ _ _
      rw [l4]
      rfl
    · intro hr
      have e4' := door_hangs s3 t3 (by rw [b3, b2, b1, hr]) (j 3) _ (hj 3) r3 ticks
      rw [e4] at e4'
      cases e4'
    · intro k t hk hkt
      obtain ⟨t', ht', hne⟩ := all k hk
      rw [ht'] at hkt
      cases hkt
      exact hne

/-- The run of C4 on a store holding 1, 2, 3, 4, 5, in the build whose busy
wait loads the flag at every test, with 12 timer interrupts for the door
sequence: the door sequence completes and the run ends in `OPEN_DOOR` with the
counter at 2. -/
theorem C4_witness :
    (mainLoop 4 12 { boot (fun a => a)
        (verifyStream [] (fun _ => []) [9, 9, 9, 9, 9] ++
          (verifyStream [] (fun _ => []) [1, 2, 3, 4, 6] ++
            (verifyStream [] (fun _ => []) [1, 2, 3, 4, 5] ++ (announceStream [] ++
              (menuStream [] [] 43 ++ (verifyStream [] (fun _ => []) [0, 2, 3, 4, 5] ++
                (verifyStream [] (fun _ => []) [5, 4, 3, 2, 1] ++ []))))))) with
        state := OPEN_DOOR, rereadsFlag := true }).isSome = true ∧
    ∃ t,
      mainLoop 7 12 { boot (fun a => a)
        (verifyStream [] (fun _ => []) [9, 9, 9, 9, 9] ++
          (verifyStream [] (fun _ => []) [1, 2, 3, 4, 6] ++
            (verifyStream [] (fun _ => []) [1, 2, 3, 4, 5] ++ (announceStream [] ++
              (menuStream [] [] 43 ++ (verifyStream [] (fun _ => []) [0, 2, 3, 4, 5] ++
                (verifyStream [] (fun _ => []) [5, 4, 3, 2, 1] ++ []))))))) with
        state := OPEN_DOOR, rereadsFlag := true } = some t ∧
      t.state = OPEN_DOOR ∧ t.wrongPassCounter = 2 := by
  obtain ⟨-, h, hsome, -, -⟩ := C4_success_resets_failure_count
    { boot (fun a => a)
        (verifyStream [] (fun _ => []) [9, 9, 9, 9, 9] ++
          (verifyStream [] (fun _ => []) [1, 2, 3, 4, 6] ++
            (verifyStream [] (fun _ => []) [1, 2, 3, 4, 5] ++ (announceStream [] ++
              (menuStream [] [] 43 ++ (verifyStream [] (fun _ => []) [0, 2, 3, 4, 5] ++
                (verifyStream [] (fun _ => []) [5, 4, 3, 2, 1] ++ []))))))) with
        state := OPEN_DOOR, rereadsFlag := true }
    rfl rfl [9, 9, 9, 9, 9] [1, 2, 3, 4, 6] [1, 2, 3, 4, 5] [0, 2, 3, 4, 5] [5, 4, 3, 2, 1]
    (by decide) (by decide) (by decide) (by decide) (by decide)
    (fun _ => []) (by intro _; simp) (fun _ _ => []) (by intro _ _; simp) [] 12 rfl
  have hdone := hsome rfl rfl (Nat.le_refl 12)
  exact ⟨hdone, (h hdone).2.1⟩

/-! ## Frame lemmas: any incoming stream -/

theorem awaitToken_suffix (tok : Nat) :
    ∀ (l r : List Nat), awaitToken tok l = some r → ∃ c, l = c ++ r := by
  intro l
  induction l with
  | nil => intro r h; simp [awaitToken] at h
  | cons b l ih =>
    intro r h
    by_cases hb : b = tok
    · simp [awaitToken, hb] at h
      exact ⟨[tok], by simp [hb, h]⟩
    · simp [awaitToken, hb] at h
      obtain ⟨c, hc⟩ := ih r h
      exact ⟨b :: c, by simp [hc]⟩

theorem waitFor_frame (tok : Nat) (s s1 : ECU2) (h : waitFor tok s = some s1) :
    s1 = { s with rx := s1.rx } ∧ ∃ c, s.rx = c ++ s1.rx := by
  unfold waitFor at h
  cases hr : awaitToken tok s.rx with
  | none => simp [hr] at h
  | some r =>
    simp [hr] at h
    subst h
    exact ⟨rfl, awaitToken_suffix tok _ _ hr⟩

theorem recvPayload_frame (s s1 : ECU2) (b : Nat) (h : recvPayload s = some (b, s1)) :
    s1 = { s with rx := s1.rx, trace := s.trace ++ [Event.UART_sendByte MC2_READY] } ∧
      ∃ c, s.rx = c ++ s1.rx := by
  unfold recvPayload at h
  cases hw : waitFor MC1_ASK s with
  | none => simp [hw] at h
  | some s0 =>
    obtain ⟨h0, c, hc⟩ := waitFor_frame _ _ _ hw
    simp only [hw, Option.bind_eq_bind, Option.some_bind, bind, UART_recieveByte,
      UART_sendByte, emit] at h
    cases hrx : s0.rx with
    | nil => simp [hrx] at h
    | cons x rest =>
      simp only [hrx, Option.some.injEq, Prod.mk.injEq] at h
      obtain ⟨-, h2⟩ := h
      subst h2
      refine ⟨?_, c ++ [x], ?_⟩
      · rw [h0]
      · simp [hc, hrx]

theorem getPassLoop_frame :
    ∀ (n i m : Nat) (s t : ECU2) (r : Nat), getPassLoop n i m s = some (r, t) →
      t = { s with rx := t.rx, trace := s.trace ++ getPassTrace n i } ∧
      (r = m ∨ r = FALSE) ∧ ∃ c, s.rx = c ++ t.rx := by
  intro n
  induction n with
  | zero =>
    intro i m s t r h
    simp only [getPassLoop, Option.some.injEq, Prod.mk.injEq] at h
    obtain ⟨h1, h2⟩ := h
    subst h1 h2
    exact ⟨by simp [getPassTrace], Or.inl rfl, [], rfl⟩
  | succ n ih =>
    intro i m s t r h
    rw [getPassLoop] at h
    cases hp : recvPayload s with
    | none => simp [hp] at h
    | some p =>
      obtain ⟨b, s1⟩ := p
      obtain ⟨h1, c1, hc1⟩ := recvPayload_frame s s1 b hp
      simp only [hp, Option.bind_eq_bind, Option.some_bind, bind, EEPROM_readByte,
        delay_ms, emit] at h
      obtain ⟨h2, h3, c2, hc2⟩ := ih _ _ _ _ _ h
      refine ⟨?_, ?_, c1 ++ c2, ?_⟩
      · rw [h2, h1]
        simp [getPassTrace]
      · rcases h3 with h3 | h3
        · rw [h3]
          by_cases hb : s1.eeprom (MEMORY_ADDRESS + i) ≠ b
          · right; rw [if_pos hb]
          · left; rw [if_neg hb]
        · exact Or.inr h3
      · rw [hc1]
        simp only at hc2
        rw [hc2, List.append_assoc]

theorem getPass_frame (s t : ECU2) (r : Nat) (h : getPass s = some (r, t)) :
    t = { s with rx := t.rx, trace := s.trace ++ getPassTrace 5 0 } ∧
      (r = TRUE ∨ r = FALSE) ∧ ∃ c, s.rx = c ++ t.rx :=
  getPassLoop_frame 5 0 TRUE s t r h

/-! ## Verification -/

theorem recvPayload_store (s : ECU2) (e : Nat → Nat) :
    recvPayload { s with eeprom := e } =
      (recvPayload s).map (fun p => (p.1, { p.2 with eeprom := e })) := by
  unfold recvPayload waitFor
  cases hr : awaitToken MC1_ASK s.rx with
  | none => simp [hr]
  | some r =>
    cases r with
    | nil => simp [hr, UART_recieveByte, UART_sendByte, emit]
    | cons x rest => simp [hr, UART_recieveByte, UART_sendByte, emit]

/-- The loop of `getPass` on two stores: same termination, and the same final
state up to the store. -/
theorem getPassLoop_store (e1 e2 : Nat → Nat) :
    ∀ (n i m1 m2 : Nat) (s : ECU2),
      (getPassLoop n i m2 { s with eeprom := e2 }).map (fun p => { p.2 with eeprom := e1 }) =
        (getPassLoop n i m1 { s with eeprom := e1 }).map (fun p => p.2) := by
  intro n
  induction n with
  | zero =>
    intro i m1 m2 s
    simp [getPassLoop]
  | succ n ih =>
    intro i m1 m2 s
    rw [getPassLoop, getPassLoop, recvPayload_store s e1, recvPayload_store s e2]
    cases hp : recvPayload s with
    | none => simp
    | some p =>
      simp only [Option.map_some', Option.bind_eq_bind, Option.some_bind, bind,
        EEPROM_readByte, delay_ms, emit]
      exact ih (i + 1) _ _
        { p.2 with
          trace := p.2.trace ++ [Event.EEPROM_readByte (MEMORY_ADDRESS + i)] ++
            [Event.delay_ms 15] }

/-- C11: positional verification.  For every received sequence `Q[0..4]`,
every store content and every state, `getPass` returns, with `TRUE` or
`FALSE`; it returns `TRUE` if and only if `Q[i]` equals
`store[MEMORY_ADDRESS + i]` for all `i` in 0..4; a mismatch in a single
position `m` (first, middle or last) with the other four matching returns
`FALSE`. -/
theorem C11_positional_verification (Q : List Nat)
    (noise : Nat → List Nat) (hn : ∀ k, MC1_ASK ∉ noise k) (rest : List Nat) (s : ECU2)
    (hs : s.rx = passStream 5 0 noise Q ++ rest) :
    ∃ r t, getPass s = some (r, t) ∧ (r = TRUE ∨ r = FALSE) ∧
      (r = TRUE ↔ ∀ i, i < 5 → Q.getD i 0 = s.eeprom (MEMORY_ADDRESS + i)) ∧
      (∀ m, m < 5 → Q.getD m 0 ≠ s.eeprom (MEMORY_ADDRESS + m) →
        (∀ i, i < 5 → i ≠ m → Q.getD i 0 = s.eeprom (MEMORY_ADDRESS + i)) → r = FALSE) := by
  have hiff : secretIs s.eeprom Q ↔ ∀ i, i < 5 → Q.getD i 0 = s.eeprom (MEMORY_ADDRESS + i) :=
    ⟨fun h i hi => (h i hi).symm, fun h i hi => (h i hi).symm⟩
  refine ⟨_, _, getPass_passStream noise Q rest hn s hs, ?_, ?_, ?_⟩
  · by_cases h : secretIs s.eeprom Q
    · left; rw [if_pos h]
    · right; rw [if_neg h]
  · rw [← hiff]
    by_cases h : secretIs s.eeprom Q
    · rw [if_pos h]; exact ⟨fun _ => h, fun _ => rfl⟩
    · rw [if_neg h]
      exact ⟨fun hf => absurd hf (by decide), fun hs => absurd hs h⟩
  · intro m hm hne _
    rw [if_neg]
    intro h
    exact hne (h m hm).symm

/-- The verdicts of C11 on a store holding 1, 2, 3, 4, 5: a full match, and a
mismatch in the first, the middle and the last position. -/
theorem C11_witness :
    (∃ t, getPass (boot (fun a => a) (passStream 5 0 (fun _ => []) [1, 2, 3, 4, 5] ++ []))
      = some (TRUE, t)) ∧
    (∃ t, getPass (boot (fun a => a) (passStream 5 0 (fun _ => []) [0, 2, 3, 4, 5] ++ []))
      = some (FALSE, t)) ∧
    (∃ t, getPass (boot (fun a => a) (passStream 5 0 (fun _ => []) [1, 2, 0, 4, 5] ++ []))
      = some (FALSE, t)) ∧
    (∃ t, getPass (boot (fun a => a) (passStream 5 0 (fun _ => []) [1, 2, 3, 4, 0] ++ []))
      = some (FALSE, t)) := by
  refine ⟨?_, ?_, ?_, ?_⟩
  · obtain ⟨r, t, h, -, hiff, -⟩ := C11_positional_verification [1, 2, 3, 4, 5]
      (fun _ => []) (by intro _; simp) []
      (boot (fun a => a) (passStream 5 0 (fun _ => []) [1, 2, 3, 4, 5] ++ [])) rfl
    have hr : r = TRUE := hiff.2 (by decide)
    subst hr
    exact ⟨t, h⟩
  · obtain ⟨r, t, h, -, -, hone⟩ := C11_positional_verification [0, 2, 3, 4, 5]
      (fun _ => []) (by intro _; simp) []
      (boot (fun a => a) (passStream 5 0 (fun _ => []) [0, 2, 3, 4, 5] ++ [])) rfl
    have hr : r = FALSE := hone 0 (by decide) (by decide) (by decide)
    subst hr
    exact ⟨t, h⟩
  · obtain ⟨r, t, h, -, -, hone⟩ := C11_positional_verification [1, 2, 0, 4, 5]
      (fun _ => []) (by intro _; simp) []
      (boot (fun a => a) (passStream 5 0 (fun _ => []) [1, 2, 0, 4, 5] ++ [])) rfl
    have hr : r = FALSE := hone 2 (by decide) (by decide) (by decide)
    subst hr
    exact ⟨t, h⟩
  · obtain ⟨r, t, h, -, -, hone⟩ := C11_positional_verification [1, 2, 3, 4, 0]
      (fun _ => []) (by intro _; simp) []
      (boot (fun a => a) (passStream 5 0 (fun _ => []) [1, 2, 3, 4, 0] ++ [])) rfl
    have hr : r = FALSE := hone 4 (by decide) (by decide) (by decide)
    subst hr
    exact ⟨t, h⟩

/-- C12: no early exit in verification.  For the same incoming byte stream
(any stream) and any two store contents, `getPass` returns on both or on
neither, and the two final states agree in everything but the store: same
bytes left to receive, same actions.  Whenever it returns it has run exactly
five rounds, each one `MC2_READY` sent, one store read at
`MEMORY_ADDRESS + i` (addresses 1..5 in order) and the 15 ms delay, and it
returns `TRUE` or `FALSE`.  On a stream of five data-exchange rounds it does
return on both stores, so only the returned flag can differ. -/
theorem C12_no_early_exit (s : ECU2) (e1 e2 : Nat → Nat) :
    ((getPass { s with eeprom := e2 }).map (fun p => { p.2 with eeprom := e1 }) =
      (getPass { s with eeprom := e1 }).map (fun p => p.2)) ∧
    (∀ r t, getPass s = some (r, t) →
      t.trace = s.trace ++
        [Event.UART_sendByte MC2_READY, Event.EEPROM_readByte 1, Event.delay_ms 15,
         Event.UART_sendByte MC2_READY, Event.EEPROM_readByte 2, Event.delay_ms 15,
         Event.UART_sendByte MC2_READY, Event.EEPROM_readByte 3, Event.delay_ms 15,
         Event.UART_sendByte MC2_READY, Event.EEPROM_readByte 4, Event.delay_ms 15,
         Event.UART_sendByte MC2_READY, Event.EEPROM_readByte 5, Event.delay_ms 15] ∧
      (r = TRUE ∨ r = FALSE) ∧ (∃ c, s.rx = c ++ t.rx) ∧ t.eeprom = s.eeprom) ∧
    (∀ (noise : Nat → List Nat) (Q rest : List Nat), (∀ k, MC1_ASK ∉ noise k) →
      s.rx = passStream 5 0 noise Q ++ rest →
      ∃ r1 r2 t1 t2, getPass { s with eeprom := e1 } = some (r1, t1) ∧
        getPass { s with eeprom := e2 } = some (r2, t2) ∧
        t1.rx = rest ∧ t2.rx = rest ∧ t1.trace = t2.trace ∧
        (r1 = r2 ↔ (secretIs e1 Q ↔ secretIs e2 Q))) := by
  refine ⟨getPassLoop_store e1 e2 5 0 TRUE TRUE s, ?_, ?_⟩
  · intro r t h
    obtain ⟨h1, h2, h3⟩ := getPass_frame s t r h
    refine ⟨?_, h2, h3, ?_⟩
    · rw [h1]
      rfl
    · rw [h1]
  · intro noise Q rest hn hs
    refine ⟨_, _, _, _, getPass_passStream noise Q rest hn { s with eeprom := e1 } hs,
      getPass_passStream noise Q rest hn { s with eeprom := e2 } hs, rfl, rfl, rfl, ?_⟩
    by_cases h1 : secretIs e1 Q <;> by_cases h2 : secretIs e2 Q <;>
      simp [h1, h2, TRUE, FALSE]

/-- The two runs of C12 on the stream of 1, 2, 3, 4, 5, once against a store
that holds it and once against a store of zeros. -/
theorem C12_witness :
    ∃ r1 r2 t1 t2,
      getPass { boot (fun _ => 9) (passStream 5 0 (fun _ => []) [1, 2, 3, 4, 5] ++ [8]) with
                eeprom := fun a => a } = some (r1, t1) ∧
      getPass { boot (fun _ => 9) (passStream 5 0 (fun _ => []) [1, 2, 3, 4, 5] ++ [8]) with
                eeprom := fun _ => 0 } = some (r2, t2) ∧
      t1.rx = [8] ∧ t2.rx = [8] ∧ t1.trace = t2.trace := by
  obtain ⟨-, -, h⟩ := C12_no_early_exit
    (boot (fun _ => 9) (passStream 5 0 (fun _ => []) [1, 2, 3, 4, 5] ++ [8]))
    (fun a => a) (fun _ => 0)
  obtain ⟨r1, r2, t1, t2, h1, h2, h3, h4, h5, -⟩ :=
    h (fun _ => []) [1, 2, 3, 4, 5] [8] (by intro _; simp) rfl
  exact ⟨r1, r2, t1, t2, h1, h2, h3, h4, h5⟩

/-! ## Transitions of the main loop -/

theorem announce_frame (s a : ECU2) (h : announce s = some a) :
    a = { s with
          rx := a.rx
          trace := s.trace ++ [Event.UART_sendByte MC2_ASK, Event.UART_sendByte s.state.code] } ∧
      ∃ c, s.rx = c ++ a.rx := by
  unfold announce at h
  cases hw : waitFor MC1_READY (UART_sendByte MC2_ASK s) with
  | none => simp [hw] at h
  | some s1 =>
    obtain ⟨h1, c, hc⟩ := waitFor_frame _ _ _ hw
    simp only [hw, Option.bind_eq_bind, Option.some_bind, bind, Option.some.injEq] at h
    subst h
    refine ⟨?_, c, hc⟩
    rw [h1]
    simp [UART_sendByte, emit]

/-- C13: main-menu transition.  For the Control state machine in
`MAIN_SCREEN` and every received menu byte `k`, the iteration returns with the
state `OPEN_DOOR` if `k` is `+` (43), `CHANGE_PASS` if `k` is `-` (45), and
`MAIN_SCREEN` for every other byte; `wrongPassCounter` and the store are
unchanged in all three cases. -/
theorem C13_main_menu_transition (s : ECU2) (hst : s.state = MAIN_SCREEN)
    (j j' : List Nat) (k : Nat) (rest : List Nat) (hj : MC1_READY ∉ j)
    (hj' : MC1_ASK ∉ j') (hrx : s.rx = menuStream j j' k ++ rest) (ticks : Nat) :
    Char.toNat '+' = 43 ∧ Char.toNat '-' = 45 ∧
    ∃ s', mainIteration ticks s = some s' ∧
      (k = 43 → s'.state = OPEN_DOOR) ∧
      (k = 45 → s'.state = CHANGE_PASS) ∧
      (k ≠ 43 → k ≠ 45 → s'.state = MAIN_SCREEN) ∧
      s'.wrongPassCounter = s.wrongPassCounter ∧
      (∀ a, s'.eeprom a = s.eeprom a) ∧
      s'.rx = rest := by
  refine ⟨by decide, by decide, _,
    mainIteration_menu s hst j j' k rest hj hj' hrx ticks, ?_, ?_, ?_, rfl, fun _ => rfl, rfl⟩
  · intro h
    simp [h]
  · intro h
    simp [h]
  · intro h1 h2
    simp [h1, h2]

/-- The three transitions of C13 on the keys `+`, `-` and `=` (61). -/
theorem C13_witness :
    (∃ s', mainIteration 0 { boot (fun _ => 0) (menuStream [] [] 43 ++ []) with
        state := MAIN_SCREEN } = some s' ∧ s'.state = OPEN_DOOR) ∧
    (∃ s', mainIteration 0 { boot (fun _ => 0) (menuStream [] [] 45 ++ []) with
        state := MAIN_SCREEN } = some s' ∧ s'.state = CHANGE_PASS) ∧
    (∃ s', mainIteration 0 { boot (fun _ => 0) (menuStream [] [] 61 ++ []) with
        state := MAIN_SCREEN } = some s' ∧ s'.state = MAIN_SCREEN) := by
  refine ⟨?_, ?_, ?_⟩
  · obtain ⟨-, -, s', h, h1, -⟩ := C13_main_menu_transition
      { boot (fun _ => 0) (menuStream [] [] 43 ++ []) with state := MAIN_SCREEN }
      rfl [] [] 43 [] (by simp) (by simp) rfl 0
    exact ⟨s', h, h1 rfl⟩
  · obtain ⟨-, -, s', h, -, h2, -⟩ := C13_main_menu_transition
      { boot (fun _ => 0) (menuStream [] [] 45 ++ []) with state := MAIN_SCREEN }
      rfl [] [] 45 [] (by simp) (by simp) rfl 0
    exact ⟨s', h, h2 rfl⟩
  · obtain ⟨-, -, s', h, -, -, h3, -⟩ := C13_main_menu_transition
      { boot (fun _ => 0) (menuStream [] [] 61 ++ []) with state := MAIN_SCREEN }
      rfl [] [] 61 [] (by simp) (by simp) rfl 0
    exact ⟨s', h, h3 (by decide) (by decide)⟩

/-- C14: verification transitions.  In an iteration of the main loop whose
announce round returns and in which `getPass` returns `r`: if `r` is `TRUE`
the iteration ends in `DOOR_UNLOCKING` when it began in `OPEN_DOOR` and in
`CREATE_PASS` when it began in `CHANGE_PASS`, with `wrongPassCounter = 0`
whatever it was; if `r` is `FALSE` and the counter was below 2, the counter is
one more and the state is the same. -/
theorem C14_verification_transitions (s a t : ECU2) (r : Nat) (ticks : Nat)
    (hst : s.state = OPEN_DOOR ∨ s.state = CHANGE_PASS)
    (ha : announce s = some a) (hg : getPass a = some (r, t)) :
    ∃ s', mainIteration ticks s = some s' ∧
      (r = TRUE →
        s'.wrongPassCounter = 0 ∧
        (s.state = OPEN_DOOR → s'.state = DOOR_UNLOCKING) ∧
        (s.state = CHANGE_PASS → s'.state = CREATE_PASS)) ∧
      (r = FALSE → s.wrongPassCounter < 2 →
        s'.wrongPassCounter = s.wrongPassCounter + 1 ∧ s'.state = s.state) := by
  obtain ⟨ha1, -⟩ := announce_frame s a ha
  obtain ⟨hg1, hr, -⟩ := getPass_frame a t r hg
  have hast : a.state = s.state := by rw [ha1]
  have htst : t.state = s.state := by rw [hg1, ha1]
  have htc : t.wrongPassCounter = s.wrongPassCounter := by rw [hg1, ha1]
  have key : mainIteration ticks s =
      some (if r = TRUE then
              { t with
                state := if s.state = OPEN_DOOR then DOOR_UNLOCKING else CREATE_PASS
                wrongPassCounter := 0 }
            else wrongPass t) := by
    unfold mainIteration
    simp only [ha, Option.bind_eq_bind, Option.some_bind, bind]
    rcases hst with hst | hst
    · simp only [dispatch, hast, hst, hg, Option.some_bind]
      by_cases hrt : r = TRUE
      · simp [hrt]
      · simp [hrt]
    · simp only [dispatch, hast, hst, hg, Option.some_bind]
      by_cases hrt : r = TRUE
      · simp [hrt]
      · simp [hrt]
  refine ⟨_, key, ?_, ?_⟩
  · intro hrt
    rw [if_pos hrt]
    refine ⟨rfl, fun h => ?_, fun h => ?_⟩
    · simp [h]
    · simp [h]
  · intro hrf hc
    have hne : ¬ r = TRUE := by rw [hrf]; decide
    rw [if_neg hne]
    have h3 : ¬ (t.wrongPassCounter + 1) % 256 = 3 := by rw [htc]; omega
    have hm : (t.wrongPassCounter + 1) % 256 = s.wrongPassCounter + 1 := by rw [htc]; omega
    simp only [wrongPass, h3, if_false]
    exact ⟨hm, htst⟩

/-- The transitions of C14 on a store holding 1, 2, 3, 4, 5: a match from
`OPEN_DOOR` with the counter at 2, and a mismatch from `CHANGE_PASS` with the
counter at 1. -/
theorem C14_witness :
    (∃ s', mainIteration 0
        { boot (fun a => a) (verifyStream [] (fun _ => []) [1, 2, 3, 4, 5] ++ []) with
          state := OPEN_DOOR
          wrongPassCounter := 2 } = some s' ∧
      s'.state = DOOR_UNLOCKING ∧ s'.wrongPassCounter = 0) ∧
    (∃ s', mainIteration 0
        { boot (fun a => a) (verifyStream [] (fun _ => []) [9, 9, 9, 9, 9] ++ []) with
          state := CHANGE_PASS
          wrongPassCounter := 1 } = some s' ∧
      s'.state = CHANGE_PASS ∧ s'.wrongPassCounter = 2) := by
  refine ⟨?_, ?_⟩
  · obtain ⟨s', h, h1, -⟩ := C14_verification_transitions
      { boot (fun a => a) (verifyStream [] (fun _ => []) [1, 2, 3, 4, 5] ++ []) with
        state := OPEN_DOOR
        wrongPassCounter := 2 } _ _ TRUE 0 (Or.inl rfl)
      (announce_stream _ [] (passStream 5 0 (fun _ => []) [1, 2, 3, 4, 5] ++ []) (by simp)
        (by simp [boot, verifyStream]))
      (getPass_passStream (fun _ => []) [1, 2, 3, 4, 5] [] (by intro _; simp) _ rfl)
    obtain ⟨hc, hs, -⟩ := h1 rfl
    exact ⟨s', h, hs rfl, hc⟩
  · obtain ⟨s', h, -, h2⟩ := C14_verification_transitions
      { boot (fun a => a) (verifyStream [] (fun _ => []) [9, 9, 9, 9, 9] ++ []) with
        state := CHANGE_PASS
        wrongPassCounter := 1 } _ _ FALSE 0 (Or.inr rfl)
      (announce_stream _ [] (passStream 5 0 (fun _ => []) [9, 9, 9, 9, 9] ++ []) (by simp)
        (by simp [boot, verifyStream]))
      (getPass_passStream (fun _ => []) [9, 9, 9, 9, 9] [] (by intro _; simp) _ rfl)
    obtain ⟨hc, hs⟩ := h2 rfl (by decide)
    exact ⟨s', h, hs, hc⟩

/-! ## Reachable states -/

theorem createPassRecvLoop_frame :
    ∀ (n i : Nat) (pass repass : List Nat) (u : Nat) (s s1 : ECU2)
      (pass' repass' : List Nat) (u' : Nat),
      createPassRecvLoop n i pass repass u s = some (pass', repass', u', s1) →
      s1 = { s with rx := s1.rx, trace := s1.trace } := by
  intro n
  induction n with
  | zero =>
    intro i pass repass u s s1 pass' repass' u' h
    simp only [createPassRecvLoop, Option.some.injEq, Prod.mk.injEq] at h
    obtain ⟨-, -, -, h⟩ := h
    rw [← h]
  | succ n ih =>
    intro i pass repass u s s1 pass' repass' u' h
    rw [createPassRecvLoop] at h
    cases hp : recvPayload s with
    | none => simp [hp] at h
    | some p =>
      obtain ⟨b, sa⟩ := p
      obtain ⟨ha, -⟩ := recvPayload_frame s sa b hp
      simp only [hp, Option.bind_eq_bind, Option.some_bind, bind] at h
      cases hq : recvPayload sa with
      | none => simp [hq] at h
      | some q =>
        obtain ⟨c, sb⟩ := q
        obtain ⟨hb, -⟩ := recvPayload_frame sa sb c hq
        simp only [hq, Option.some_bind] at h
        have h1 := ih _ _ _ _ _ _ _ _ _ h
        rw [h1, hb, ha]

theorem createPass_frame (s s' : ECU2) (h : createPass s = some s') :
    s'.wrongPassCounter = s.wrongPassCounter ∧
      (s'.state = MAIN_SCREEN ∨ s'.state = CREATE_PASS) := by
  unfold createPass at h
  cases hr : createPassRecvLoop 5 0 (List.replicate 5 0) (List.replicate 5 0) FALSE s with
  | none =>
    rw [hr] at h
    simp at h
  | some p =>
    obtain ⟨pass, repass, u, s1⟩ := p
    have h1 := createPassRecvLoop_frame _ _ _ _ _ _ _ _ _ _ hr
    rw [hr] at h
    simp only [Option.bind_eq_bind, Option.some_bind, bind] at h
    by_cases hu : u = FALSE
    · simp only [hu, if_true, Option.some.injEq] at h
      subst h
      rw [createPassSaveLoop_eq]
      refine ⟨?_, Or.inl rfl⟩
      show s1.wrongPassCounter = s.wrongPassCounter
      rw [h1]
    · simp only [hu, if_false, Option.some.injEq] at h
      subst h
      refine ⟨?_, Or.inr rfl⟩
      show s1.wrongPassCounter = s.wrongPassCounter
      rw [h1]

theorem run_frame (cb : CallBack) (s : ECU2) :
    (cb.run s).state = s.state ∧ (cb.run s).wrongPassCounter = s.wrongPassCounter := by
  cases cb
  · simp only [CallBack.run, openDoorCallBackFunction, DcMotor_Rotate, TIMER1_init,
      TIMER1_deInit, emit]
    split_ifs <;> exact ⟨rfl, rfl⟩
  · simp only [CallBack.run, alarmCallBackFunction, BUZZER_on, BUZZER_off, TIMER1_init,
      TIMER1_deInit, emit]
    split_ifs <;> exact ⟨rfl, rfl⟩

theorem busyWait_frame :
    ∀ (ticks : Nat) (s s' : ECU2), busyWait ticks s = some s' →
      s'.state = s.state ∧ s'.wrongPassCounter = s.wrongPassCounter := by
  intro ticks
  induction ticks with
  | zero =>
    intro s s' h
    by_cases hf : s.freezeFlag = 1
    · simp [busyWait, hf] at h
    · simp only [busyWait, hf, if_false, Option.some.injEq] at h
      subst h
      exact ⟨rfl, rfl⟩
  | succ ticks ih =>
    intro s s' h
    by_cases hf : s.freezeFlag = 1
    · cases hr : s.rereadsFlag with
      | false => simp [busyWait_stale _ s hf hr] at h
      | true =>
        cases ht : s.timer1 with
        | none => simp [busyWait, hf, ht] at h
        | some c =>
          cases hc : s.callBack with
          | none => simp [busyWait, hf, ht, hc] at h
          | some cb =>
            rw [busyWait_step ticks s c cb hf hr ht hc] at h
            obtain ⟨h1, h2⟩ := ih _ _ h
            obtain ⟨h3, h4⟩ := run_frame cb s
            exact ⟨h1.trans h3, h2.trans h4⟩
    · rw [busyWait_done _ _ hf] at h
      simp only [Option.some.injEq] at h
      subst h
      exact ⟨rfl, rfl⟩

theorem wrongPass_third (t : ECU2) (h : (t.wrongPassCounter + 1) % 256 = 3) :
    (wrongPass t).state = ALARM ∧ (wrongPass t).wrongPassCounter = 0 := by
  simp [wrongPass, h]

theorem wrongPass_other (t : ECU2) (h : ¬ (t.wrongPassCounter + 1) % 256 = 3) :
    (wrongPass t).state = t.state ∧
      (wrongPass t).wrongPassCounter = (t.wrongPassCounter + 1) % 256 := by
  simp [wrongPass, h]

/-- One iteration of the main loop keeps the invariant of the retry counter,
and leaves the counter at 0 whenever it changes the state. -/
theorem mainIteration_retry (ticks : Nat) (s s' : ECU2) (hinv : retryInvariant s)
    (h : mainIteration ticks s = some s') :
    retryInvariant s' ∧ (s'.state = s.state ∨ s'.wrongPassCounter = 0) := by
  obtain ⟨hle, hnz⟩ := hinv
  unfold mainIteration at h
  cases ha : announce s with
  | none => simp [ha] at h
  | some a =>
    obtain ⟨ha1, -⟩ := announce_frame s a ha
    have hast : a.state = s.state := by rw [ha1]
    have hac : a.wrongPassCounter = s.wrongPassCounter := by rw [ha1]
    simp only [ha, Option.bind_eq_bind, Option.some_bind, bind] at h
    have hzero : (s.state ≠ OPEN_DOOR ∧ s.state ≠ CHANGE_PASS) → s.wrongPassCounter = 0 := by
      intro hs
      by_contra hc
      rcases hnz hc with h1 | h1
      · exact hs.1 h1
      · exact hs.2 h1
    have verify : ∀ (good : APPLICATION_STATE),
        (s.state = OPEN_DOOR ∨ s.state = CHANGE_PASS) →
        ((getPass a).bind fun p =>
          if p.1 = TRUE then some { p.2 with state := good, wrongPassCounter := 0 }
          else some (wrongPass p.2)) = some s' →
        retryInvariant s' ∧ (s'.state = s.state ∨ s'.wrongPassCounter = 0) := by
      intro good hs hv
      cases hg : getPass a with
      | none => simp [hg] at hv
      | some p =>
        obtain ⟨r, t⟩ := p
        obtain ⟨hg1, -, -⟩ := getPass_frame a t r hg
        have htst : t.state = s.state := by rw [hg1, hast]
        have htc : t.wrongPassCounter = s.wrongPassCounter := by rw [hg1, hac]
        simp only [hg, Option.some_bind] at hv
        by_cases hr : r = TRUE
        · simp only [hr, if_true, Option.some.injEq] at hv
          subst hv
          exact ⟨⟨Nat.zero_le _, fun h0 => absurd rfl h0⟩, Or.inr rfl⟩
        · simp only [hr, if_false, Option.some.injEq] at hv
          subst hv
          by_cases h3 : (t.wrongPassCounter + 1) % 256 = 3
          · obtain ⟨-, w2⟩ := wrongPass_third t h3
            exact ⟨⟨by omega, fun h0 => absurd w2 h0⟩, Or.inr w2⟩
          · obtain ⟨w1, w2⟩ := wrongPass_other t h3
            refine ⟨⟨?_, fun _ => ?_⟩, Or.inl (w1.trans htst)⟩
            · rw [w2]
              rw [htc] at h3 ⊢
              omega
            · rw [w1, htst]
              exact hs
    cases hst : s.state with
    | CREATE_PASS =>
      have hc0 : s.wrongPassCounter = 0 := hzero (by rw [hst]; decide)
      simp only [dispatch, hast, hst] at h
      obtain ⟨h1, h2⟩ := createPass_frame a s' h
      have hc : s'.wrongPassCounter = 0 := by rw [h1, hac, hc0]
      exact ⟨⟨by omega, fun h0 => absurd hc h0⟩, Or.inr hc⟩
    | MAIN_SCREEN =>
      have hc0 : s.wrongPassCounter = 0 := hzero (by rw [hst]; decide)
      simp only [dispatch, hast, hst] at h
      cases hw : waitFor MC1_ASK a with
      | none => simp [hw] at h
      | some a1 =>
        obtain ⟨hw1, -⟩ := waitFor_frame _ _ _ hw
        simp only [hw, Option.bind_eq_bind, Option.some_bind, bind, UART_recieveByte,
          UART_sendByte, emit] at h
        cases hrx : a1.rx with
        | nil => simp [hrx] at h
        | cons x rest =>
          simp only [hrx, Option.some_bind] at h
          have hc1 : a1.wrongPassCounter = 0 := by rw [hw1]; show a.wrongPassCounter = 0; omega
          have hc : s'.wrongPassCounter = 0 := by
            split_ifs at h <;> simp only [Option.some.injEq] at h <;> subst h <;> exact hc1
          exact ⟨⟨by omega, fun h0 => absurd hc h0⟩, Or.inr hc⟩
    | OPEN_DOOR =>
      simp only [dispatch, hast, hst] at h
      have := verify DOOR_UNLOCKING (Or.inl hst) h
      rw [hst] at this
      exact this
    | CHANGE_PASS =>
      simp only [dispatch, hast, hst] at h
      have := verify CREATE_PASS (Or.inr hst) h
      rw [hst] at this
      exact this
    | DOOR_UNLOCKING =>
      have hc0 : s.wrongPassCounter = 0 := hzero (by rw [hst]; decide)
      simp only [dispatch, hast, hst, Option.bind_eq_bind, bind] at h
      rw [Option.bind_eq_some] at h
      obtain ⟨b, hb, h⟩ := h
      obtain ⟨-, hb2⟩ := busyWait_frame _ _ _ hb
      simp only [Option.some.injEq] at h
      subst h
      have hc : b.wrongPassCounter = 0 := by
        rw [hb2]; show a.wrongPassCounter = 0; omega
      exact ⟨⟨by show b.wrongPassCounter ≤ 2; omega, fun h0 => absurd hc h0⟩, Or.inr hc⟩
    | ALARM =>
      have hc0 : s.wrongPassCounter = 0 := hzero (by rw [hst]; decide)
      simp only [dispatch, hast, hst, Option.bind_eq_bind, bind] at h
      rw [Option.bind_eq_some] at h
      obtain ⟨b, hb, h⟩ := h
      obtain ⟨-, hb2⟩ := busyWait_frame _ _ _ hb
      simp only [Option.some.injEq] at h
      subst h
      have hc : b.wrongPassCounter = 0 := by
        rw [hb2]; show a.wrongPassCounter = 0; omega
      exact ⟨⟨by show b.wrongPassCounter ≤ 2; omega, fun h0 => absurd hc h0⟩, Or.inr hc⟩

theorem reachable_retry (s : ECU2) (h : Reachable s) : retryInvariant s := by
  induction h with
  | init eeprom rx rereads => exact ⟨Nat.zero_le _, fun h0 => absurd rfl h0⟩
  | step ticks s s' _ hstep ih => exact (mainIteration_retry ticks s s' ih hstep).1

/-- C16: the retry counter is zero on entering password-creation.  In every
state reachable from the initial Control state by any number of iterations of
the main loop, on any incoming bytes and any timer interrupts, if the state at
the top of the loop is `CREATE_PASS` then `wrongPassCounter = 0`. -/
theorem C16_counter_zero_in_create_pass (s : ECU2) (h : Reachable s)
    (hst : s.state = CREATE_PASS) : s.wrongPassCounter = 0 := by
  obtain ⟨-, hnz⟩ := reachable_retry s h
  by_contra hc
  rcases hnz hc with h1 | h1
  · rw [hst] at h1; cases h1
  · rw [hst] at h1; cases h1

/-- The initial globals are reachable. -/
theorem reachable_boot (eeprom : Nat → Nat) (rx : List Nat) : Reachable (boot eeprom rx) :=
  Reachable.init eeprom rx false

/-- The invariant of C16 after a creation round whose confirmation differs:
the state is `CREATE_PASS` again and the counter is 0. -/
theorem C16_witness :
    ∃ s1, mainIteration 0 (boot (fun _ => 0)
        (MC1_READY :: pairStream 5 0 (fun _ => []) [1, 2, 3, 4, 5] [1, 2, 3, 4, 6])) = some s1 ∧
      s1.state = CREATE_PASS ∧ s1.wrongPassCounter = 0 := by
  have h1 : mainIteration 0 (boot (fun _ => 0)
      (MC1_READY :: pairStream 5 0 (fun _ => []) [1, 2, 3, 4, 5] [1, 2, 3, 4, 6])) =
      some { boot (fun _ => 0) [] with
             trace := [Event.UART_sendByte MC2_ASK, Event.UART_sendByte 0] ++
               List.replicate 10 (Event.UART_sendByte MC2_READY) } := by
    rfl
  exact ⟨_, h1, rfl,
    C16_counter_zero_in_create_pass _ (Reachable.step 0 _ _ (reachable_boot _ _) h1) rfl⟩

theorem reachable_mainLoop :
    ∀ (n ticks : Nat) (s s' : ECU2), Reachable s → mainLoop n ticks s = some s' →
      Reachable s' := by
  intro n
  induction n with
  | zero =>
    intro ticks s s' hr h
    simp only [mainLoop, Option.some.injEq] at h
    subst h
    exact hr
  | succ n ih =>
    intro ticks s s' hr h
    rw [mainLoop] at h
    simp only [Option.bind_eq_bind, bind] at h
    rw [Option.bind_eq_some] at h
    obtain ⟨s1, h1, h2⟩ := h
    exact ih ticks s1 s' (Reachable.step ticks s s1 hr h1) h2

/-- C20: the invariant of the retry counter.  In every state reachable from
the initial Control state by any number of iterations of the main loop, on any
incoming bytes and any timer interrupts: `wrongPassCounter` is at most 2; it
is non-zero only in `OPEN_DOOR` or `CHANGE_PASS`, so it is 0 in `CREATE_PASS`,
`MAIN_SCREEN`, `DOOR_UNLOCKING` and `ALARM`; the increment in `wrongPass` does
not wrap and yields at most 3, so the test against 3 is met exactly when the
counter was 2 and `wrongPass` leaves a counter of at most 2; and an iteration
that changes the state leaves the counter at 0, so no count carries from
`OPEN_DOOR` into `CHANGE_PASS` or back. -/
theorem C20_retry_counter_invariant (s : ECU2) (h : Reachable s) :
    s.wrongPassCounter ≤ 2 ∧
    (s.wrongPassCounter ≠ 0 → s.state = OPEN_DOOR ∨ s.state = CHANGE_PASS) ∧
    (s.state = CREATE_PASS ∨ s.state = MAIN_SCREEN ∨ s.state = DOOR_UNLOCKING ∨
      s.state = ALARM → s.wrongPassCounter = 0) ∧
    ((s.wrongPassCounter + 1) % 256 = s.wrongPassCounter + 1 ∧
      s.wrongPassCounter + 1 ≤ 3 ∧
      (s.wrongPassCounter = 2 →
        (wrongPass s).state = ALARM ∧ (wrongPass s).wrongPassCounter = 0) ∧
      (s.wrongPassCounter < 2 →
        (wrongPass s).state = s.state ∧
        (wrongPass s).wrongPassCounter = s.wrongPassCounter + 1) ∧
      (wrongPass s).wrongPassCounter ≤ 2) ∧
    (∀ ticks s', mainIteration ticks s = some s' → s'.state ≠ s.state →
      s'.wrongPassCounter = 0) := by
  have hinv := reachable_retry s h
  obtain ⟨hle, hnz⟩ := hinv
  have hmod : (s.wrongPassCounter + 1) % 256 = s.wrongPassCounter + 1 := by omega
  refine ⟨hle, hnz, ?_, ⟨hmod, by omega, ?_, ?_, ?_⟩, ?_⟩
  · intro hs
    by_contra hc
    rcases hnz hc with h1 | h1 <;> rw [h1] at hs <;> simp at hs
  · intro h2
    exact wrongPass_third s (by omega)
  · intro h2
    obtain ⟨w1, w2⟩ := wrongPass_other s (by omega)
    exact ⟨w1, w2.trans hmod⟩
  · by_cases h3 : (s.wrongPassCounter + 1) % 256 = 3
    · rw [(wrongPass_third s h3).2]
      omega
    · rw [(wrongPass_other s h3).2]
      omega
  · intro ticks s' hstep hne
    rcases (mainIteration_retry ticks s s' ⟨hle, hnz⟩ hstep).2 with h1 | h1
    · exact absurd h1 hne
    · exact h1

/-- The invariant of C20 after a creation of 1, 2, 3, 4, 5, the menu key `+`
and one failed verification: the state is `OPEN_DOOR` and the counter is 1. -/
theorem C20_witness :
    ∃ s3,
      mainLoop 3 0 (boot (fun _ => 0)
        (MC1_READY :: pairStream 5 0 (fun _ => []) [1, 2, 3, 4, 5] [1, 2, 3, 4, 5] ++
          (menuStream [] [] 43 ++ verifyStream [] (fun _ => []) [9, 9, 9, 9, 9]))) = some s3 ∧
      s3.state = OPEN_DOOR ∧ s3.wrongPassCounter = 1 ∧ s3.wrongPassCounter ≤ 2 ∧
      (wrongPass s3).wrongPassCounter = 2 := by
  obtain ⟨s3, h1, h2, h3⟩ : ∃ s3,
      mainLoop 3 0 (boot (fun _ => 0)
        (MC1_READY :: pairStream 5 0 (fun _ => []) [1, 2, 3, 4, 5] [1, 2, 3, 4, 5] ++
          (menuStream [] [] 43 ++ verifyStream [] (fun _ => []) [9, 9, 9, 9, 9]))) = some s3 ∧
      s3.state = OPEN_DOOR ∧ s3.wrongPassCounter = 1 := ⟨_, rfl, rfl, rfl⟩
  obtain ⟨c1, -, -, ⟨-, -, -, c2, -⟩, -⟩ := C20_retry_counter_invariant s3
    (reachable_mainLoop 3 0 _ s3 (reachable_boot _ _) h1)
  exact ⟨s3, h1, h2, h3, c1, by rw [(c2 (by omega)).2, h3]⟩

/-! ## The door and the verification -/

theorem awaitToken_decompose (tok : Nat) :
    ∀ (l r : List Nat), awaitToken tok l = some r → ∃ j, l = j ++ tok :: r ∧ tok ∉ j := by
  intro l
  induction l with
  | nil => intro r h; simp [awaitToken] at h
  | cons b l ih =>
    intro r h
    by_cases hb : b = tok
    · simp [awaitToken, hb] at h
      exact ⟨[], by simp [hb, h], by simp⟩
    · simp [awaitToken, hb] at h
      obtain ⟨j, hj, hn⟩ := ih r h
      refine ⟨b :: j, by simp [hj], ?_⟩
      intro hmem
      rcases List.mem_cons.1 hmem with h1 | h1
      · exact hb h1.symm
      · exact hn h1

theorem recvPayload_decompose (s s1 : ECU2) (b : Nat) (h : recvPayload s = some (b, s1)) :
    ∃ j, s.rx = j ++ MC1_ASK :: b :: s1.rx ∧ MC1_ASK ∉ j := by
  unfold recvPayload waitFor at h
  cases hr : awaitToken MC1_ASK s.rx with
  | none => simp [hr] at h
  | some r =>
    obtain ⟨j, hj, hn⟩ := awaitToken_decompose _ _ _ hr
    cases r with
    | nil => simp [hr, UART_recieveByte, UART_sendByte, emit] at h
    | cons x rest =>
      simp only [hr, Option.map_some', Option.bind_eq_bind, Option.some_bind, bind,
        UART_recieveByte, UART_sendByte, emit, Option.some.injEq, Prod.mk.injEq] at h
      obtain ⟨h1, h2⟩ := h
      subst h1 h2
      exact ⟨j, hj, hn⟩

theorem passStream_congr (noise noise' : Nat → List Nat) (Q Q' : List Nat) :
    ∀ (n i : Nat),
      (∀ k, i ≤ k → k < i + n → noise k = noise' k ∧ Q.getD k 0 = Q'.getD k 0) →
      passStream n i noise Q = passStream n i noise' Q' := by
  intro n
  induction n with
  | zero => intro i _; rfl
  | succ n ih =>
    intro i h
    obtain ⟨h1, h2⟩ := h i (Nat.le_refl i) (by omega)
    rw [passStream, passStream, h1, h2, ih (i + 1) (fun k hk1 hk2 => h k (by omega) (by omega))]

theorem getD_map_range (N : Nat) (g : Nat → Nat) (k : Nat) (hk : k < N) :
    ((List.range N).map g).getD k 0 = g k := by
  simp [List.getD_eq_getElem?_getD, hk]

/-- Whenever the loop of `getPass` returns, the bytes it consumed were `n`
data-exchange rounds. -/
theorem getPassLoop_decompose :
    ∀ (n i m : Nat) (s t : ECU2) (r : Nat), getPassLoop n i m s = some (r, t) →
      ∃ (noise : Nat → List Nat) (Q : List Nat), (∀ k, MC1_ASK ∉ noise k) ∧
        Q.length = i + n ∧ s.rx = passStream n i noise Q ++ t.rx := by
  intro n
  induction n with
  | zero =>
    intro i m s t r h
    simp only [getPassLoop, Option.some.injEq, Prod.mk.injEq] at h
    obtain ⟨-, h2⟩ := h
    subst h2
    exact ⟨fun _ => [], List.replicate i 0, by intro k; simp, by simp, by simp [passStream]⟩
  | succ n ih =>
    intro i m s t r h
    rw [getPassLoop] at h
    cases hp : recvPayload s with
    | none => simp [hp] at h
    | some p =>
      obtain ⟨b, s1⟩ := p
      obtain ⟨j, hj, hjn⟩ := recvPayload_decompose s s1 b hp
      simp only [hp, Option.bind_eq_bind, Option.some_bind, bind, EEPROM_readByte,
        delay_ms, emit] at h
      obtain ⟨noise', Q', hn', -, hrx'⟩ := ih _ _ _ _ _ h
      simp only at hrx'
      refine ⟨fun k => if k = i then j else noise' k,
        (List.range (i + (n + 1))).map (fun k => if k = i then b else Q'.getD k 0),
        ?_, by simp, ?_⟩
      · intro k
        by_cases hk : k = i
        · simp only [hk, if_true]; exact hjn
        · simp only [hk, if_false]; exact hn' k
      · rw [passStream, hj, hrx']
        simp only [if_true, List.append_assoc, List.cons_append]
        rw [getD_map_range _ _ i (by omega)]
        simp only [if_true]
        congr 3
        congr 1
        apply passStream_congr
        intro k hk1 hk2
        have hki : ¬ k = i := by omega
        refine ⟨by simp only [hki, if_false], ?_⟩
        rw [getD_map_range _ _ k (by omega)]
        simp only [hki, if_false]

theorem motorCommands_getPassTrace : ∀ (n i : Nat), motorCommands (getPassTrace n i) = [] := by
  intro n
  induction n with
  | zero => intro i; rfl
  | succ n ih => intro i; simp [getPassTrace, motorCommands, ih]

theorem motorCommands_saveTrace (pass : List Nat) :
    ∀ (n i : Nat), motorCommands (saveTrace n i pass) = [] := by
  intro n
  induction n with
  | zero => intro i; rfl
  | succ n ih => intro i; simp [saveTrace, motorCommands, ih]

theorem recvPayload_motor (s s1 : ECU2) (b : Nat) (h : recvPayload s = some (b, s1)) :
    motorCommands s1.trace = motorCommands s.trace := by
  obtain ⟨h1, -⟩ := recvPayload_frame s s1 b h
  rw [h1]
  simp [motorCommands_append, motorCommands]

theorem createPassRecvLoop_motor :
    ∀ (n i : Nat) (pass repass : List Nat) (u : Nat) (s s1 : ECU2)
      (pass' repass' : List Nat) (u' : Nat),
      createPassRecvLoop n i pass repass u s = some (pass', repass', u', s1) →
      motorCommands s1.trace = motorCommands s.trace := by
  intro n
  induction n with
  | zero =>
    intro i pass repass u s s1 pass' repass' u' h
    simp only [createPassRecvLoop, Option.some.injEq, Prod.mk.injEq] at h
    obtain ⟨-, -, -, h⟩ := h
    rw [← h]
  | succ n ih =>
    intro i pass repass u s s1 pass' repass' u' h
    rw [createPassRecvLoop] at h
    simp only [Option.bind_eq_bind, bind] at h
    rw [Option.bind_eq_some] at h
    obtain ⟨⟨b, sa⟩, hp, h⟩ := h
    simp only at h
    rw [Option.bind_eq_some] at h
    obtain ⟨⟨c, sb⟩, hq, h⟩ := h
    simp only at h
    rw [ih _ _ _ _ _ _ _ _ _ h, recvPayload_motor sa sb c hq, recvPayload_motor s sa b hp]

theorem createPass_motor (s s' : ECU2) (h : createPass s = some s') :
    motorCommands s'.trace = motorCommands s.trace := by
  unfold createPass at h
  simp only [Option.bind_eq_bind, bind] at h
  rw [Option.bind_eq_some] at h
  obtain ⟨⟨pass, repass, u, s1⟩, hr, h⟩ := h
  have h1 := createPassRecvLoop_motor _ _ _ _ _ _ _ _ _ _ hr
  simp only at h
  by_cases hu : u = FALSE
  · simp only [hu, if_true, Option.some.injEq] at h
    subst h
    rw [createPassSaveLoop_eq]
    show motorCommands (s1.trace ++ saveTrace 5 0 pass) = _
    rw [motorCommands_append, motorCommands_saveTrace, List.append_nil, h1]
  · simp only [hu, if_false, Option.some.injEq] at h
    subst h
    exact h1

theorem alarmCallBackFunction_motor (s : ECU2) :
    motorCommands (alarmCallBackFunction s).trace = motorCommands s.trace ∧
      (alarmCallBackFunction s).callBack = s.callBack := by
  simp only [alarmCallBackFunction, BUZZER_on, BUZZER_off, TIMER1_init, TIMER1_deInit, emit]
  split_ifs <;> simp [motorCommands_append, motorCommands]

/-- While the registered call-back is the alarm one, the busy wait issues no
motor command. -/
theorem busyWait_alarm_motor :
    ∀ (ticks : Nat) (s s' : ECU2), s.callBack = some CallBack.alarm →
      busyWait ticks s = some s' → motorCommands s'.trace = motorCommands s.trace := by
  intro ticks
  induction ticks with
  | zero =>
    intro s s' _ h
    by_cases hf : s.freezeFlag = 1
    · simp [busyWait, hf] at h
    · simp only [busyWait, hf, if_false, Option.some.injEq] at h
      rw [h]
  | succ ticks ih =>
    intro s s' hcb h
    by_cases hf : s.freezeFlag = 1
    · cases hr : s.rereadsFlag with
      | false => simp [busyWait_stale _ s hf hr] at h
      | true =>
        cases ht : s.timer1 with
        | none => simp [busyWait, hf, ht] at h
        | some c =>
          rw [busyWait_step ticks s c CallBack.alarm hf hr ht hcb] at h
          obtain ⟨m1, m2⟩ := alarmCallBackFunction_motor s
          have := ih (CallBack.alarm.run s) s'
            (by show (alarmCallBackFunction s).callBack = _
                rw [m2, hcb]) h
          rw [this]
          exact m1
    · rw [busyWait_done _ _ hf] at h
      simp only [Option.some.injEq] at h
      rw [h]

theorem UART_recieveByte_state (s s1 : ECU2) (b : Nat)
    (h : UART_recieveByte s = some (b, s1)) :
    s1.state = s.state ∧ s1.trace = s.trace := by
  unfold UART_recieveByte at h
  cases hrx : s.rx with
  | nil => simp [hrx] at h
  | cons x rest =>
    simp only [hrx, Option.some.injEq, Prod.mk.injEq] at h
    obtain ⟨-, h⟩ := h
    subst h
    exact ⟨rfl, rfl⟩

/-- An iteration of the main loop that ends in `DOOR_UNLOCKING` began in
`OPEN_DOOR` and its `getPass` returned `TRUE`. -/
theorem mainIteration_to_door (ticks : Nat) (s s' : ECU2)
    (h : mainIteration ticks s = some s') (hd : s'.state = DOOR_UNLOCKING) :
    s.state = OPEN_DOOR ∧ ∃ a t, announce s = some a ∧ getPass a = some (TRUE, t) := by
  unfold mainIteration at h
  simp only [Option.bind_eq_bind, bind] at h
  rw [Option.bind_eq_some] at h
  obtain ⟨a, ha, h⟩ := h
  obtain ⟨ha1, -⟩ := announce_frame s a ha
  have hast : a.state = s.state := by rw [ha1]
  cases hst : s.state with
  | CREATE_PASS =>
    simp only [dispatch, hast, hst] at h
    rcases (createPass_frame a s' h).2 with h1 | h1 <;> rw [h1] at hd <;> cases hd
  | MAIN_SCREEN =>
    simp only [dispatch, hast, hst, Option.bind_eq_bind, bind] at h
    rw [Option.bind_eq_some] at h
    obtain ⟨a1, hw, h⟩ := h
    rw [Option.bind_eq_some] at h
    obtain ⟨⟨k, a2⟩, hk, h⟩ := h
    obtain ⟨hw1, -⟩ := waitFor_frame _ _ _ hw
    have h2 : a2.state = MAIN_SCREEN := by
      rw [(UART_recieveByte_state _ _ _ hk).1]
      show a1.state = MAIN_SCREEN
      rw [hw1]
      show a.state = MAIN_SCREEN
      rw [hast, hst]
    simp only at h
    exfalso
    split_ifs at h <;> simp only [Option.some.injEq] at h <;> subst h
    · cases hd
    · cases hd
    · rw [h2] at hd; cases hd
  | OPEN_DOOR =>
    simp only [dispatch, hast, hst, Option.bind_eq_bind, bind] at h
    rw [Option.bind_eq_some] at h
    obtain ⟨⟨r, t⟩, hg, h⟩ := h
    refine ⟨rfl, a, t, ha, ?_⟩
    obtain ⟨hg1, hr, -⟩ := getPass_frame a t r hg
    rcases hr with hr | hr
    · rw [← hr]; exact hg
    · subst hr
      simp only [show ¬ FALSE = TRUE by decide, if_false, Option.some.injEq] at h
      subst h
      exfalso
      have htst : t.state = OPEN_DOOR := by rw [hg1, hast, hst]
      by_cases h3 : (t.wrongPassCounter + 1) % 256 = 3
      · rw [(wrongPass_third t h3).1] at hd; cases hd
      · rw [(wrongPass_other t h3).1, htst] at hd; cases hd
  | CHANGE_PASS =>
    simp only [dispatch, hast, hst, Option.bind_eq_bind, bind] at h
    rw [Option.bind_eq_some] at h
    obtain ⟨⟨r, t⟩, hg, h⟩ := h
    exfalso
    obtain ⟨hg1, -, -⟩ := getPass_frame a t r hg
    have htst : t.state = CHANGE_PASS := by rw [hg1, hast, hst]
    by_cases hr : r = TRUE
    · simp only [hr, if_true, Option.some.injEq] at h
      subst h
      cases hd
    · simp only [hr, if_false, Option.some.injEq] at h
      subst h
      by_cases h3 : (t.wrongPassCounter + 1) % 256 = 3
      · rw [(wrongPass_third t h3).1] at hd; cases hd
      · rw [(wrongPass_other t h3).1, htst] at hd; cases hd
  | DOOR_UNLOCKING =>
    simp only [dispatch, hast, hst, Option.bind_eq_bind, bind] at h
    rw [Option.bind_eq_some] at h
    obtain ⟨b, -, h⟩ := h
    simp only [Option.some.injEq] at h
    subst h
    cases hd
  | ALARM =>
    simp only [dispatch, hast, hst, Option.bind_eq_bind, bind] at h
    rw [Option.bind_eq_some] at h
    obtain ⟨b, -, h⟩ := h
    simp only [Option.some.injEq] at h
    subst h
    cases hd

/-- An iteration of the main loop that does not begin in `DOOR_UNLOCKING`
issues no motor command. -/
theorem mainIteration_motor (ticks : Nat) (s s' : ECU2)
    (h : mainIteration ticks s = some s') (hnd : s.state ≠ DOOR_UNLOCKING) :
    motorCommands s'.trace = motorCommands s.trace := by
  unfold mainIteration at h
  simp only [Option.bind_eq_bind, bind] at h
  rw [Option.bind_eq_some] at h
  obtain ⟨a, ha, h⟩ := h
  obtain ⟨ha1, -⟩ := announce_frame s a ha
  have hast : a.state = s.state := by rw [ha1]
  have ham : motorCommands a.trace = motorCommands s.trace := by
    rw [ha1]
    simp [motorCommands_append, motorCommands]
  rw [← ham]
  have verify : ∀ (good : APPLICATION_STATE),
      ((getPass a).bind fun p =>
        if p.1 = TRUE then some { p.2 with state := good, wrongPassCounter := 0 }
        else some (wrongPass p.2)) = some s' →
      motorCommands s'.trace = motorCommands a.trace := by
    intro good hv
    rw [Option.bind_eq_some] at hv
    obtain ⟨⟨r, t⟩, hg, hv⟩ := hv
    obtain ⟨hg1, -, -⟩ := getPass_frame a t r hg
    have htm : motorCommands t.trace = motorCommands a.trace := by
      rw [hg1]
      show motorCommands (a.trace ++ getPassTrace 5 0) = _
      rw [motorCommands_append, motorCommands_getPassTrace, List.append_nil]
    simp only at hv
    by_cases hr : r = TRUE
    · simp only [hr, if_true, Option.some.injEq] at hv
      subst hv
      exact htm
    · simp only [hr, if_false, Option.some.injEq] at hv
      subst hv
      rw [← htm]
      simp only [wrongPass]
      split_ifs <;> rfl
  cases hst : s.state with
  | CREATE_PASS =>
    simp only [dispatch, hast, hst] at h
    exact createPass_motor a s' h
  | MAIN_SCREEN =>
    simp only [dispatch, hast, hst, Option.bind_eq_bind, bind] at h
    rw [Option.bind_eq_some] at h
    obtain ⟨a1, hw, h⟩ := h
    rw [Option.bind_eq_some] at h
    obtain ⟨⟨k, a2⟩, hk, h⟩ := h
    obtain ⟨hw1, -⟩ := waitFor_frame _ _ _ hw
    have h2 : motorCommands a2.trace = motorCommands a.trace := by
      rw [(UART_recieveByte_state _ _ _ hk).2]
      show motorCommands (a1.trace ++ [Event.UART_sendByte MC2_READY]) = _
      rw [hw1]
      simp [motorCommands_append, motorCommands]
    simp only at h
    split_ifs at h <;> simp only [Option.some.injEq] at h <;> subst h <;> exact h2
  | OPEN_DOOR =>
    simp only [dispatch, hast, hst, Option.bind_eq_bind, bind] at h
    exact verify DOOR_UNLOCKING h
  | CHANGE_PASS =>
    simp only [dispatch, hast, hst, Option.bind_eq_bind, bind] at h
    exact verify CREATE_PASS h
  | DOOR_UNLOCKING => exact absurd hst hnd
  | ALARM =>
    simp only [dispatch, hast, hst, Option.bind_eq_bind, bind] at h
    rw [Option.bind_eq_some] at h
    obtain ⟨b, hb, h⟩ := h
    simp only [Option.some.injEq] at h
    subst h
    have := busyWait_alarm_motor ticks _ b rfl hb
    show motorCommands b.trace = _
    rw [this]
    simp [TIMER1_init, TIMER1_setCallBack, emit, motorCommands_append, motorCommands]

/-- C21: the door is never unlocked without a successful verification.  The
initial state is not `DOOR_UNLOCKING`.  Every iteration of the main loop that
ends in `DOOR_UNLOCKING`, from any state, on any incoming bytes and any timer
interrupts, began in `OPEN_DOOR` and its `getPass` returned `TRUE`: the bytes
it consumed were five data-exchange rounds whose payloads `Q[0..4]` equal
`store[MEMORY_ADDRESS + i]`.  So no iteration from `CREATE_PASS`,
`MAIN_SCREEN`, `CHANGE_PASS`, `DOOR_UNLOCKING` or `ALARM`, and no `OPEN_DOOR`
iteration whose `getPass` returned `FALSE`, ends in `DOOR_UNLOCKING`; every
reachable `DOOR_UNLOCKING` state is the result of such an iteration from a
reachable state; and an iteration that does not begin in `DOOR_UNLOCKING`
issues no motor command. -/
theorem C21_door_unlocked_only_after_verification :
    (∀ (eeprom : Nat → Nat) (rx : List Nat), (boot eeprom rx).state ≠ DOOR_UNLOCKING) ∧
    (∀ (ticks : Nat) (s s' : ECU2), mainIteration ticks s = some s' →
      s'.state = DOOR_UNLOCKING →
      s.state = OPEN_DOOR ∧
      ∃ a t noise Q, announce s = some a ∧ getPass a = some (TRUE, t) ∧
        (∀ k, MC1_ASK ∉ noise k) ∧ Q.length = 5 ∧
        a.rx = passStream 5 0 noise Q ++ t.rx ∧
        (∀ i, i < 5 → Q.getD i 0 = s.eeprom (MEMORY_ADDRESS + i))) ∧
    (∀ (ticks : Nat) (s s' : ECU2), mainIteration ticks s = some s' →
      s.state ≠ OPEN_DOOR → s'.state ≠ DOOR_UNLOCKING) ∧
    (∀ (ticks : Nat) (s s' a t : ECU2), mainIteration ticks s = some s' →
      announce s = some a → getPass a = some (FALSE, t) → s'.state ≠ DOOR_UNLOCKING) ∧
    (∀ (s : ECU2), Reachable s → s.state = DOOR_UNLOCKING →
      ∃ ticks p a t, Reachable p ∧ mainIteration ticks p = some s ∧ p.state = OPEN_DOOR ∧
        announce p = some a ∧ getPass a = some (TRUE, t)) ∧
    (∀ (ticks : Nat) (s s' : ECU2), mainIteration ticks s = some s' →
      s.state ≠ DOOR_UNLOCKING → motorCommands s'.trace = motorCommands s.trace) := by
  refine ⟨fun _ _ => by simp [boot], ?_, ?_, ?_, ?_, ?_⟩
  · intro ticks s s' h hd
    obtain ⟨hst, a, t, ha, hg⟩ := mainIteration_to_door ticks s s' h hd
    obtain ⟨noise, Q, hn, hlen, hrx⟩ := getPassLoop_decompose 5 0 TRUE a t TRUE hg
    obtain ⟨ha1, -⟩ := announce_frame s a ha
    have hae : a.eeprom = s.eeprom := by rw [ha1]
    refine ⟨hst, a, t, noise, Q, ha, hg, hn, by simpa using hlen, hrx, ?_⟩
    have hres := getPass_passStream noise Q t.rx hn a hrx
    rw [hg] at hres
    have hsec : secretIs a.eeprom Q := by
      by_contra hns
      rw [if_neg hns] at hres
      simp only [Option.some.injEq, Prod.mk.injEq] at hres
      exact absurd hres.1 (by decide)
    intro i hi
    rw [← hae]
    exact (hsec i hi).symm
  · intro ticks s s' h hne hd
    exact hne (mainIteration_to_door ticks s s' h hd).1
  · intro ticks s s' a t h ha hg hd
    obtain ⟨-, a', t', ha', hg'⟩ := mainIteration_to_door ticks s s' h hd
    rw [ha] at ha'
    simp only [Option.some.injEq] at ha'
    subst ha'
    rw [hg] at hg'
    simp only [Option.some.injEq, Prod.mk.injEq] at hg'
    exact absurd hg'.1 (by decide)
  · intro s hr hd
    cases hr with
    | init eeprom rx rereads => simp [boot] at hd
    | step ticks p _ hp hstep =>
      obtain ⟨hst, a, t, ha, hg⟩ := mainIteration_to_door ticks p s hstep hd
      exact ⟨ticks, p, a, t, hp, hstep, hst, ha, hg⟩
  · intro ticks s s' h hnd
    exact mainIteration_motor ticks s s' h hnd

/-- The claim of C21 on a concrete iteration: with the store holding
1, 2, 3, 4, 5, the `OPEN_DOOR` iteration that receives 1, 2, 3, 4, 5 ends in
`DOOR_UNLOCKING`, and the theorem recovers that it began in `OPEN_DOOR` with
five received bytes equal to the store; the `CHANGE_PASS` iteration on the
same bytes does not end in `DOOR_UNLOCKING`. -/
theorem C21_witness :
    (∃ s', mainIteration 0
        { boot (fun a => a) (verifyStream [] (fun _ => []) [1, 2, 3, 4, 5]) with
          state := OPEN_DOOR } = some s' ∧
      s'.state = DOOR_UNLOCKING ∧
      ∃ Q : List Nat, Q.length = 5 ∧ ∀ i, i < 5 → Q.getD i 0 = MEMORY_ADDRESS + i) ∧
    (∃ s', mainIteration 0
        { boot (fun a => a) (verifyStream [] (fun _ => []) [1, 2, 3, 4, 5]) with
          state := CHANGE_PASS } = some s' ∧
      s'.state ≠ DOOR_UNLOCKING) := by
  obtain ⟨-, h2, h3, -⟩ := C21_door_unlocked_only_after_verification
  obtain ⟨s1, e1, d1⟩ : ∃ s', mainIteration 0
      { boot (fun a => a) (verifyStream [] (fun _ => []) [1, 2, 3, 4, 5]) with
        state := OPEN_DOOR } = some s' ∧ s'.state = DOOR_UNLOCKING := ⟨_, rfl, rfl⟩
  obtain ⟨s2, e2⟩ : ∃ s', mainIteration 0
      { boot (fun a => a) (verifyStream [] (fun _ => []) [1, 2, 3, 4, 5]) with
        state := CHANGE_PASS } = some s' := ⟨_, rfl⟩
  obtain ⟨-, a, t, noise, Q, -, -, -, hlen, -, hq⟩ := h2 0 _ s1 e1 d1
  exact ⟨⟨s1, e1, d1, Q, hlen, hq⟩, s2, e2, h3 0 _ s2 e2 (by decide)⟩

end Control

/-! ## The two ECUs together -/

namespace Human_Interface

open APPLICATION_STATE
open Control (Timer1_ConfigType CallBack awaitToken TimerAction)
open Control.Timer1_Mode Control.Timer1_Prescaler

/-! ### State codes -/

theorem uartSent_append (xs ys : List Event) :
    uartSent (xs ++ ys) = uartSent xs ++ uartSent ys := by
  induction xs with
  | nil => simp [uartSent]
  | cons x xs ih => cases x <;> simp [uartSent, ih]

theorem control_uartSent_append (xs ys : List Control.Event) :
    Control.uartSent (xs ++ ys) = Control.uartSent xs ++ Control.uartSent ys := by
  induction xs with
  | nil => simp [Control.uartSent]
  | cons x xs ih => cases x <;> simp [Control.uartSent, ih]

/-- C15, as stated, fails: in the state `ALARM` the Control side announces the
byte 5, not 4. -/
theorem C15_counterexample :
    (Control.announce
        { Control.boot (fun _ => 0) [Control.MC1_READY] with
          state := Control.APPLICATION_STATE.ALARM }).map
      (fun t => Control.uartSent t.trace) = some [Control.MC2_ASK, 5] ∧
    ¬ (Control.announce
        { Control.boot (fun _ => 0) [Control.MC1_READY] with
          state := Control.APPLICATION_STATE.ALARM }).map
      (fun t => Control.uartSent t.trace) = some [Control.MC2_ASK, 4] := by
  constructor
  · rfl
  · decide

/-- C15, amended: the byte the Control side transmits in the announce round is
the enumeration value of its state, 0 for `CREATE_PASS`, 1 for `MAIN_SCREEN`,
2 for `OPEN_DOOR`, 3 for `CHANGE_PASS`, 4 for `DOOR_UNLOCKING` and 5 for
`ALARM`; the Interface side reads each of these bytes as the state of the same
name; the Interface-local `WAITING` is the 7th enumerator, with the value 6,
which the Control side never transmits. -/
theorem C15_state_codes_on_the_wire (s : Control.ECU2) (j rest : List Nat)
    (hj : Control.MC1_READY ∉ j) (hrx : s.rx = j ++ Control.MC1_READY :: rest) :
    (∃ t, Control.announce s = some t ∧
      Control.uartSent t.trace =
        Control.uartSent s.trace ++ [Control.MC2_ASK, s.state.code]) ∧
    [Control.APPLICATION_STATE.CREATE_PASS, Control.APPLICATION_STATE.MAIN_SCREEN,
      Control.APPLICATION_STATE.OPEN_DOOR, Control.APPLICATION_STATE.CHANGE_PASS,
      Control.APPLICATION_STATE.DOOR_UNLOCKING, Control.APPLICATION_STATE.ALARM].map
        Control.APPLICATION_STATE.code = [0, 1, 2, 3, 4, 5] ∧
    [APPLICATION_STATE.ofCode 0, APPLICATION_STATE.ofCode 1, APPLICATION_STATE.ofCode 2,
      APPLICATION_STATE.ofCode 3, APPLICATION_STATE.ofCode 4, APPLICATION_STATE.ofCode 5,
      APPLICATION_STATE.ofCode 6] =
      [some CREATE_PASS, some MAIN_SCREEN, some OPEN_DOOR, some CHANGE_PASS,
        some DOOR_UNLOCKING, some ALARM, some WAITING] ∧
    WAITING.code = 6 ∧
    s.state.code < WAITING.code ∧
    APPLICATION_STATE.ofCode s.state.code ≠ some WAITING := by
  refine ⟨⟨_, Control.announce_stream s j rest hj hrx, ?_⟩, rfl, rfl, rfl, ?_, ?_⟩
  · simp [control_uartSent_append, Control.uartSent]
  · cases s.state <;> decide
  · cases s.state <;> decide

/-- The announce round of C15 in the states `CREATE_PASS` and `ALARM`: the
bytes sent are `MC2_ASK` and then 0, respectively 5. -/
theorem C15_witness :
    (∃ t, Control.announce (Control.boot (fun _ => 0) [Control.MC1_READY]) = some t ∧
      Control.uartSent t.trace = [Control.MC2_ASK, 0]) ∧
    (∃ t, Control.announce
        { Control.boot (fun _ => 0) [Control.MC1_READY] with
          state := Control.APPLICATION_STATE.ALARM } = some t ∧
      Control.uartSent t.trace = [Control.MC2_ASK, 5]) := by
  obtain ⟨h1, -⟩ := C15_state_codes_on_the_wire
    (Control.boot (fun _ => 0) [Control.MC1_READY]) [] [] (by simp) rfl
  obtain ⟨h2, -⟩ := C15_state_codes_on_the_wire
    { Control.boot (fun _ => 0) [Control.MC1_READY] with
      state := Control.APPLICATION_STATE.ALARM } [] [] (by simp) rfl
  exact ⟨h1, h2⟩

/-! ### Creation exchange -/

theorem waitFor_noise (tok : Nat) (s : ECU1) (j rest : List Nat) (hj : tok ∉ j)
    (hs : s.rx = j ++ tok :: rest) :
    waitFor tok s = some { s with rx := rest } := by
  simp [waitFor, hs, Control.awaitToken_noise _ _ _ hj]

theorem waitForKey_noise (tok : Nat) (s : ECU1) (j rest : List Nat) (hj : tok ∉ j)
    (hs : s.keys = j ++ tok :: rest) :
    waitForKey tok s = some { s with keys := rest } := by
  simp [waitForKey, hs, Control.awaitToken_noise _ _ _ hj]

theorem keyLoop_five (P rest : List Nat) (hP : P.length = 5) (s : ECU1)
    (hs : s.keys = P ++ rest) :
    keyLoop 5 0 (List.replicate 5 0) s =
      some (P, { s with
                 keys := rest
                 trace := s.trace ++
                   [Event.LCD_displayCharacter 42, Event.delay_ms 500,
                    Event.LCD_displayCharacter 42, Event.delay_ms 500,
                    Event.LCD_displayCharacter 42, Event.delay_ms 500,
                    Event.LCD_displayCharacter 42, Event.delay_ms 500,
                    Event.LCD_displayCharacter 42, Event.delay_ms 500] }) := by
  match P, hP with
  | [a, b, c, d, e], _ =>
    simp only [List.cons_append, List.nil_append] at hs
    simp [keyLoop, KEYPAD_getPressedKey, hs, LCD_displayCharacter, delay_ms, emit]

theorem createPassSendLoop_ready (noise : Nat → List Nat) (P R rest : List Nat)
    (hn : ∀ k, MC2_READY ∉ noise k) :
    ∀ (n i : Nat) (s : ECU1), s.rx = readyStream (2 * n) (2 * i) noise ++ rest →
      createPassSendLoop n i P R s =
        some { s with rx := rest, trace := s.trace ++ sendPairTrace n i P R } := by
  intro n
  induction n with
  | zero =>
    intro i s hs
    simp [readyStream] at hs
    simp [createPassSendLoop, sendPairTrace, ← hs]
  | succ n ih =>
    intro i s hs
    rw [Nat.mul_succ] at hs
    simp only [readyStream, List.append_assoc, List.cons_append] at hs
    rw [createPassSendLoop]
    rw [waitFor_noise MC2_READY (UART_sendByte MC1_ASK s) (noise (2 * i)) _ (hn _) hs]
    simp only [Option.bind_eq_bind, Option.some_bind, bind]
    rw [waitFor_noise MC2_READY _ (noise (2 * i + 1)) _ (hn _) rfl]
    simp only [Option.some_bind]
    rw [ih (i + 1) _ rfl]
    simp [sendPairTrace, UART_sendByte, emit]

theorem uartSent_sendPairTrace (P R : List Nat) :
    ∀ (n i : Nat),
      uartSent (sendPairTrace n i P R) = Control.pairStream n i (fun _ => []) P R := by
  intro n
  induction n with
  | zero => intro i; rfl
  | succ n ih =>
    intro i
    simp [sendPairTrace, uartSent, Control.pairStream, ih, MC1_ASK, Control.MC1_ASK]

/-- `createPass` of ECU1.c on the keys of an entry, the enter key, a re-entry
and the enter key, with ten acknowledgements on the link. -/
theorem createPass_keys (P R : List Nat) (hP : P.length = 5) (hR : R.length = 5)
    (ja jb restKeys : List Nat) (hja : 61 ∉ ja) (hjb : 61 ∉ jb)
    (noise : Nat → List Nat) (hn : ∀ k, MC2_READY ∉ noise k) (restRx : List Nat)
    (h : ECU1) (hkeys : h.keys = P ++ (ja ++ 61 :: (R ++ (jb ++ 61 :: restKeys))))
    (hrx : h.rx = readyStream 10 0 noise ++ restRx) :
    ∃ h', createPass h = some h' ∧ h'.keys = restKeys ∧ h'.rx = restRx ∧
      uartSent h'.trace =
        uartSent h.trace ++ Control.pairStream 5 0 (fun _ => []) P R := by
  have hsend := createPassSendLoop_ready noise P R restRx hn 5 0
  simp only [Nat.mul_zero, Nat.reduceMul] at hsend
  unfold createPass
  simp only [Option.bind_eq_bind, bind]
  rw [keyLoop_five P (ja ++ 61 :: (R ++ (jb ++ 61 :: restKeys))) hP _ _]
  · simp only [Option.some_bind]
    rw [waitForKey_noise 61 _ ja (R ++ (jb ++ 61 :: restKeys)) hja _]
    · simp only [Option.some_bind]
      rw [keyLoop_five R (jb ++ 61 :: restKeys) hR _ _]
      · simp only [Option.some_bind]
        rw [waitForKey_noise 61 _ jb restKeys hjb _]
        · simp only [Option.some_bind]
          rw [hsend _ _]
          · refine ⟨_, rfl, rfl, rfl, ?_⟩
            simp only [uartSent_append, uartSent_sendPairTrace, uartSent, LCD_clearScreen,
              LCD_displayString, LCD_moveCursor, delay_ms, emit, List.append_nil,
              List.append_assoc]
            rfl
          · simp only [LCD_clearScreen, LCD_displayString, LCD_moveCursor, delay_ms, emit]
            exact hrx
        · rfl
      · rfl
    · rfl
  · simp only [LCD_clearScreen, LCD_displayString, LCD_moveCursor, delay_ms, emit]
    exact hkeys

theorem control_uartSent_replicate (n : Nat) (b : Nat) :
    Control.uartSent (List.replicate n (Control.Event.UART_sendByte b)) = List.replicate n b := by
  induction n with
  | zero => rfl
  | succ n ih => simp [List.replicate_succ, Control.uartSent, ih]

/-- C17: the creation exchange order agrees across the two sides.  For every
keypad entry `password` and re-entry `repass` of 5 bytes each (each followed
by the enter key `=`), with its ten requests acknowledged by `MC2_READY`, the
Interface-side `createPass` returns and the bytes it has sent are `MC1_ASK`,
`password[0]`, `MC1_ASK`, `repass[0]`, ..., `MC1_ASK`, `password[4]`,
`MC1_ASK`, `repass[4]`.  On these bytes the receiving loop of the Control-side
`createPass` returns with `pass = password` and `repass = repass`, having
answered ten times `MC2_READY`, and its flag is clear iff the two agree; so
the Control-side `createPass` ends in `MAIN_SCREEN` iff `password = repass`
and in `CREATE_PASS` otherwise. -/
theorem C17_creation_exchange_order (password repass : List Nat)
    (hp : password.length = 5) (hr : repass.length = 5)
    (ja jb restKeys : List Nat) (hja : 61 ∉ ja) (hjb : 61 ∉ jb)
    (noise : Nat → List Nat) (hn : ∀ k, MC2_READY ∉ noise k) (restRx : List Nat)
    (h : ECU1)
    (hkeys : h.keys = password ++ (ja ++ 61 :: (repass ++ (jb ++ 61 :: restKeys))))
    (hrx : h.rx = readyStream 10 0 noise ++ restRx)
    (c : Control.ECU2) (crest : List Nat)
    (hc : c.rx =
      [MC1_ASK, password.getD 0 0, MC1_ASK, repass.getD 0 0,
       MC1_ASK, password.getD 1 0, MC1_ASK, repass.getD 1 0,
       MC1_ASK, password.getD 2 0, MC1_ASK, repass.getD 2 0,
       MC1_ASK, password.getD 3 0, MC1_ASK, repass.getD 3 0,
       MC1_ASK, password.getD 4 0, MC1_ASK, repass.getD 4 0] ++ crest) :
    (∃ h', createPass h = some h' ∧ h'.keys = restKeys ∧ h'.rx = restRx ∧
      uartSent h'.trace = uartSent h.trace ++
        [MC1_ASK, password.getD 0 0, MC1_ASK, repass.getD 0 0,
         MC1_ASK, password.getD 1 0, MC1_ASK, repass.getD 1 0,
         MC1_ASK, password.getD 2 0, MC1_ASK, repass.getD 2 0,
         MC1_ASK, password.getD 3 0, MC1_ASK, repass.getD 3 0,
         MC1_ASK, password.getD 4 0, MC1_ASK, repass.getD 4 0]) ∧
    (∃ u c1,
      Control.createPassRecvLoop 5 0 (List.replicate 5 0) (List.replicate 5 0)
        Control.FALSE c = some (password, repass, u, c1) ∧
      (u = Control.FALSE ↔ password = repass) ∧
      c1.rx = crest ∧
      Control.uartSent c1.trace =
        Control.uartSent c.trace ++ List.replicate 10 Control.MC2_READY) ∧
    (∃ c', Control.createPass c = some c' ∧
      (c'.state = Control.APPLICATION_STATE.MAIN_SCREEN ↔ password = repass) ∧
      (c'.state = Control.APPLICATION_STATE.CREATE_PASS ↔ password ≠ repass)) := by
  have hstream :
      [MC1_ASK, password.getD 0 0, MC1_ASK, repass.getD 0 0,
       MC1_ASK, password.getD 1 0, MC1_ASK, repass.getD 1 0,
       MC1_ASK, password.getD 2 0, MC1_ASK, repass.getD 2 0,
       MC1_ASK, password.getD 3 0, MC1_ASK, repass.getD 3 0,
       MC1_ASK, password.getD 4 0, MC1_ASK, repass.getD 4 0] =
      Control.pairStream 5 0 (fun _ => []) password repass := rfl
  have hq : ∀ k, Control.MC1_ASK ∉ (fun _ : Nat => ([] : List Nat)) k := by
    intro k; simp
  rw [hstream] at hc ⊢
  refine ⟨createPass_keys password repass hp hr ja jb restKeys hja hjb noise hn restRx h
    hkeys hrx, ?_, ?_⟩
  · have hrecv := Control.createPassRecvLoop_pairStream (fun _ => []) password repass crest
      hq 5 0 (List.replicate 5 0) (List.replicate 5 0) Control.FALSE c (by simp) (by simp) hc
    rw [Control.overwrite_all password hp, Control.overwrite_all repass hr] at hrecv
    refine ⟨_, _, hrecv, ?_, rfl, ?_⟩
    · have hiff := Control.pairs_agree_iff password repass hp hr
      by_cases hpr : password = repass
      · rw [if_pos (hiff.2 hpr)]
        exact ⟨fun _ => hpr, fun _ => rfl⟩
      · rw [if_neg (fun hh => hpr (hiff.1 hh))]
        exact ⟨fun hh => absurd hh (by decide), fun hh => absurd hh hpr⟩
    · show Control.uartSent (c.trace ++ _) = _
      rw [control_uartSent_append, control_uartSent_replicate]
  · refine ⟨_, Control.createPass_pairStream (fun _ => []) password repass crest hq hp hr c
      hc, ?_, ?_⟩
    · by_cases hpr : password = repass
      · rw [if_pos hpr]
        exact ⟨fun _ => hpr, fun _ => rfl⟩
      · rw [if_neg hpr]
        exact ⟨fun hh => (by cases hh), fun hh => absurd hh hpr⟩
    · by_cases hpr : password = repass
      · rw [if_pos hpr]
        exact ⟨fun hh => (by cases hh), fun hh => absurd hpr hh⟩
      · rw [if_neg hpr]
        exact ⟨fun _ => hpr, fun _ => rfl⟩

/-- The exchange of C17 for the entry 1, 2, 3, 4, 5 and the re-entry
1, 2, 3, 4, 6: the Interface side sends the ten payload bytes interleaved and
the Control side stays in `CREATE_PASS`. -/
theorem C17_witness :
    (∃ h', createPass (boot [1, 2, 3, 4, 5, 61, 1, 2, 3, 4, 6, 61]
        (readyStream 10 0 (fun _ => []) ++ [])) = some h' ∧
      uartSent h'.trace =
        [3, 1, 3, 1, 3, 2, 3, 2, 3, 3, 3, 3, 3, 4, 3, 4, 3, 5, 3, 6]) ∧
    (∃ c', Control.createPass (Control.boot (fun _ => 0)
        ([3, 1, 3, 1, 3, 2, 3, 2, 3, 3, 3, 3, 3, 4, 3, 4, 3, 5, 3, 6] ++ [])) = some c' ∧
      c'.state = Control.APPLICATION_STATE.CREATE_PASS) := by
  obtain ⟨⟨h', h1, -, -, h2⟩, -, c', h3, -, h4⟩ := C17_creation_exchange_order
    [1, 2, 3, 4, 5] [1, 2, 3, 4, 6] rfl rfl [] [] [] (by simp) (by simp)
    (fun _ => []) (by intro _; simp) []
    (boot [1, 2, 3, 4, 5, 61, 1, 2, 3, 4, 6, 61] (readyStream 10 0 (fun _ => []) ++ []))
    rfl rfl
    (Control.boot (fun _ => 0)
      ([3, 1, 3, 1, 3, 2, 3, 2, 3, 3, 3, 3, 3, 4, 3, 4, 3, 5, 3, 6] ++ [])) [] rfl
  exact ⟨⟨h', h1, h2⟩, c', h3, h4.2 (by decide)⟩

/-! ### Tick schedule on both sides -/

theorem timerActions_append (xs ys : List Event) :
    timerActions (xs ++ ys) = timerActions xs ++ timerActions ys := by
  induction xs with
  | nil => simp [timerActions]
  | cons x xs ih => cases x <;> simp [timerActions, ih]

theorem control_timerActions_append (xs ys : List Control.Event) :
    Control.timerActions (xs ++ ys) = Control.timerActions xs ++ Control.timerActions ys := by
  induction xs with
  | nil => simp [Control.timerActions]
  | cons x xs ih => cases x <;> simp [Control.timerActions, ih]

/-- What the two sides have in common while a sequence runs. -/
theorem openDoor_step_agrees (c : Control.ECU2) (h : ECU1)
    (ht : c.openDoorTick = h.openDoorTick) (hf : c.freezeFlag = h.freezeFlag) :
    (Control.openDoorCallBackFunction c).openDoorTick = (openDoorCallBackFunction h).openDoorTick ∧
    (Control.openDoorCallBackFunction c).freezeFlag = (openDoorCallBackFunction h).freezeFlag ∧
    (c.timer1 = h.timer1 →
      (Control.openDoorCallBackFunction c).timer1 = (openDoorCallBackFunction h).timer1) ∧
    ∃ acts,
      Control.timerActions (Control.openDoorCallBackFunction c).trace =
        Control.timerActions c.trace ++ acts ∧
      timerActions (openDoorCallBackFunction h).trace = timerActions h.trace ++ acts := by
  simp only [Control.openDoorCallBackFunction, openDoorCallBackFunction, ← ht,
    Control.DcMotor_Rotate, Control.TIMER1_init, Control.TIMER1_deInit, Control.emit,
    LCD_displayString, LCD_clearScreen, TIMER1_init, TIMER1_deInit, emit]
  split_ifs
  · exact ⟨rfl, hf, fun _ => rfl, [TimerAction.init ⟨0, 23438, F_CPU_1024, TIMER1_COMPARE⟩],
      by simp [control_timerActions_append, Control.timerActions],
      by simp [timerActions_append, timerActions]⟩
  · exact ⟨rfl, hf, fun e => e, [],
      by simp [control_timerActions_append, Control.timerActions],
      by simp [timerActions_append, timerActions]⟩
  · exact ⟨rfl, hf, fun e => e, [],
      by simp [control_timerActions_append, Control.timerActions],
      by simp [timerActions_append, timerActions]⟩
  · exact ⟨rfl, rfl, fun _ => rfl, [TimerAction.deInit],
      by simp [control_timerActions_append, Control.timerActions],
      by simp [timerActions_append, timerActions]⟩
  · exact ⟨rfl, hf, fun e => e, [], by simp, by simp⟩

theorem alarm_step_agrees (c : Control.ECU2) (h : ECU1)
    (ht : c.alarmTick = h.alarmTick) (hf : c.freezeFlag = h.freezeFlag) :
    (Control.alarmCallBackFunction c).alarmTick = (alarmCallBackFunction h).alarmTick ∧
    (Control.alarmCallBackFunction c).freezeFlag = (alarmCallBackFunction h).freezeFlag ∧
    (c.timer1 = h.timer1 →
      (Control.alarmCallBackFunction c).timer1 = (alarmCallBackFunction h).timer1) ∧
    ∃ acts,
      Control.timerActions (Control.alarmCallBackFunction c).trace =
        Control.timerActions c.trace ++ acts ∧
      timerActions (alarmCallBackFunction h).trace = timerActions h.trace ++ acts := by
  simp only [Control.alarmCallBackFunction, alarmCallBackFunction, ← ht,
    Control.BUZZER_on, Control.BUZZER_off, Control.TIMER1_init, Control.TIMER1_deInit,
    Control.emit, LCD_displayString, LCD_clearScreen, TIMER1_init, TIMER1_deInit, emit]
  by_cases h1 : (c.alarmTick + 1) % 256 = 1
  · have h7 : ¬ (c.alarmTick + 1) % 256 = 7 := by omega
    simp only [h1, h7, if_true, if_false]
    exact ⟨rfl, hf, fun _ => rfl, [TimerAction.init ⟨0, 0, F_CPU_1024, TIMER1_OVERFLOW⟩],
      by simp [control_timerActions_append, Control.timerActions],
      by simp [timerActions_append, timerActions]⟩
  · by_cases h7 : (c.alarmTick + 1) % 256 = 7
    · simp only [h1, h7, if_true, if_false]
      exact ⟨by trivial, by trivial, fun _ => by trivial, [TimerAction.deInit],
        by simp [control_timerActions_append, Control.timerActions],
        by simp [timerActions_append, timerActions]⟩
    · simp only [h1, h7, if_false]
      exact ⟨by trivial, hf, fun e => e, [], by simp, by simp⟩

/-- After any number of calls the two door-unlock call-backs agree on the
tick counter, the freeze flag, the timer programming and the timer actions. -/
theorem openDoor_iterate_agrees (n : Nat) :
    ∀ (c : Control.ECU2) (h : ECU1),
      c.openDoorTick = h.openDoorTick → c.freezeFlag = h.freezeFlag →
      (Control.openDoorCallBackFunction^[n] c).openDoorTick =
        (openDoorCallBackFunction^[n] h).openDoorTick ∧
      (Control.openDoorCallBackFunction^[n] c).freezeFlag =
        (openDoorCallBackFunction^[n] h).freezeFlag ∧
      (c.timer1 = h.timer1 →
        (Control.openDoorCallBackFunction^[n] c).timer1 =
          (openDoorCallBackFunction^[n] h).timer1) ∧
      ∃ acts,
        Control.timerActions (Control.openDoorCallBackFunction^[n] c).trace =
          Control.timerActions c.trace ++ acts ∧
        timerActions (openDoorCallBackFunction^[n] h).trace = timerActions h.trace ++ acts := by
  induction n with
  | zero =>
    intro c h ht hf
    exact ⟨ht, hf, fun e => e, [], by simp, by simp⟩
  | succ n ih =>
    intro c h ht hf
    obtain ⟨s1, s2, s3, a1, s4, s5⟩ := openDoor_step_agrees c h ht hf
    obtain ⟨i1, i2, i3, a2, i4, i5⟩ := ih _ _ s1 s2
    rw [Function.iterate_succ_apply, Function.iterate_succ_apply]
    refine ⟨i1, i2, fun e => i3 (s3 e), a1 ++ a2, ?_, ?_⟩
    · rw [i4, s4, List.append_assoc]
    · rw [i5, s5, List.append_assoc]

theorem alarm_iterate_agrees (n : Nat) :
    ∀ (c : Control.ECU2) (h : ECU1),
      c.alarmTick = h.alarmTick → c.freezeFlag = h.freezeFlag →
      (Control.alarmCallBackFunction^[n] c).alarmTick =
        (alarmCallBackFunction^[n] h).alarmTick ∧
      (Control.alarmCallBackFunction^[n] c).freezeFlag =
        (alarmCallBackFunction^[n] h).freezeFlag ∧
      (c.timer1 = h.timer1 →
        (Control.alarmCallBackFunction^[n] c).timer1 =
          (alarmCallBackFunction^[n] h).timer1) ∧
      ∃ acts,
        Control.timerActions (Control.alarmCallBackFunction^[n] c).trace =
          Control.timerActions c.trace ++ acts ∧
        timerActions (alarmCallBackFunction^[n] h).trace = timerActions h.trace ++ acts := by
  induction n with
  | zero =>
    intro c h ht hf
    exact ⟨ht, hf, fun e => e, [], by simp, by simp⟩
  | succ n ih =>
    intro c h ht hf
    obtain ⟨s1, s2, s3, a1, s4, s5⟩ := alarm_step_agrees c h ht hf
    obtain ⟨i1, i2, i3, a2, i4, i5⟩ := ih _ _ s1 s2
    rw [Function.iterate_succ_apply, Function.iterate_succ_apply]
    refine ⟨i1, i2, fun e => i3 (s3 e), a1 ++ a2, ?_, ?_⟩
    · rw [i4, s4, List.append_assoc]
    · rw [i5, s5, List.append_assoc]

/-- C18: both sides run the same tick schedule.  From a fresh activation on
both sides (tick 0, `freezeFlag` 1), after any number `n` of timer ticks the
Interface-side and the Control-side `openDoorCallBackFunction` have the same
tick counter and the same `freezeFlag`, have issued the same timer
re-programming and de-initialisation actions, and leave the timer programmed
alike if it was; likewise the two `alarmCallBackFunction`.  Both sides keep
the flag at 1 for the first 11 (door) or 6 (alarm) ticks and clear it on tick
12 (door) or 7 (alarm). -/
theorem C18_same_tick_schedule (c : Control.ECU2) (h : ECU1) (n : Nat)
    (hcd : c.openDoorTick = 0) (hhd : h.openDoorTick = 0)
    (hca : c.alarmTick = 0) (hha : h.alarmTick = 0)
    (hcf : c.freezeFlag = 1) (hhf : h.freezeFlag = 1) :
    ((Control.openDoorCallBackFunction^[n] c).openDoorTick =
        (openDoorCallBackFunction^[n] h).openDoorTick ∧
      (Control.openDoorCallBackFunction^[n] c).freezeFlag =
        (openDoorCallBackFunction^[n] h).freezeFlag ∧
      (c.timer1 = h.timer1 →
        (Control.openDoorCallBackFunction^[n] c).timer1 =
          (openDoorCallBackFunction^[n] h).timer1) ∧
      ∃ acts,
        Control.timerActions (Control.openDoorCallBackFunction^[n] c).trace =
          Control.timerActions c.trace ++ acts ∧
        timerActions (openDoorCallBackFunction^[n] h).trace = timerActions h.trace ++ acts) ∧
    ((Control.alarmCallBackFunction^[n] c).alarmTick =
        (alarmCallBackFunction^[n] h).alarmTick ∧
      (Control.alarmCallBackFunction^[n] c).freezeFlag =
        (alarmCallBackFunction^[n] h).freezeFlag ∧
      (c.timer1 = h.timer1 →
        (Control.alarmCallBackFunction^[n] c).timer1 =
          (alarmCallBackFunction^[n] h).timer1) ∧
      ∃ acts,
        Control.timerActions (Control.alarmCallBackFunction^[n] c).trace =
          Control.timerActions c.trace ++ acts ∧
        timerActions (alarmCallBackFunction^[n] h).trace = timerActions h.trace ++ acts) ∧
    (∀ k, k < 12 → (Control.openDoorCallBackFunction^[k] c).freezeFlag = 1 ∧
      (openDoorCallBackFunction^[k] h).freezeFlag = 1) ∧
    ((Control.openDoorCallBackFunction^[12] c).freezeFlag = 0 ∧
      (openDoorCallBackFunction^[12] h).freezeFlag = 0) ∧
    (∀ k, k < 7 → (Control.alarmCallBackFunction^[k] c).freezeFlag = 1 ∧
      (alarmCallBackFunction^[k] h).freezeFlag = 1) ∧
    ((Control.alarmCallBackFunction^[7] c).freezeFlag = 0 ∧
      (alarmCallBackFunction^[7] h).freezeFlag = 0) := by
  have htd : c.openDoorTick = h.openDoorTick := by rw [hcd, hhd]
  have hta : c.alarmTick = h.alarmTick := by rw [hca, hha]
  have hff : c.freezeFlag = h.freezeFlag := by rw [hcf, hhf]
  refine ⟨openDoor_iterate_agrees n c h htd hff, alarm_iterate_agrees n c h hta hff,
    ?_, ?_, ?_, ?_⟩
  · intro k hk
    have e := (openDoor_iterate_agrees k c h htd hff).2.1
    have e1 : (Control.openDoorCallBackFunction^[k] c).freezeFlag = 1 := by
      rw [Control.openDoor_iterate_lt c hcd k hk]; exact hcf
    exact ⟨e1, by rw [← e, e1]⟩
  · have e := (openDoor_iterate_agrees 12 c h htd hff).2.1
    have e1 : (Control.openDoorCallBackFunction^[12] c).freezeFlag = 0 := by
      rw [Control.openDoor_iterate_12 c hcd]
    exact ⟨e1, by rw [← e, e1]⟩
  · intro k hk
    have e := (alarm_iterate_agrees k c h hta hff).2.1
    have e1 : (Control.alarmCallBackFunction^[k] c).freezeFlag = 1 := by
      rw [Control.alarm_iterate_lt c hca k hk]; exact hcf
    exact ⟨e1, by rw [← e, e1]⟩
  · have e := (alarm_iterate_agrees 7 c h hta hff).2.1
    have e1 : (Control.alarmCallBackFunction^[7] c).freezeFlag = 0 := by
      rw [Control.alarm_iterate_7 c hca]
    exact ⟨e1, by rw [← e, e1]⟩

/-- The schedule of C18 from the initial globals of both sides with the flag
set: the Interface side clears its flag on tick 12 (door) and 7 (alarm), not
on the tick before. -/
theorem C18_witness :
    (openDoorCallBackFunction^[11] { boot [] [] with freezeFlag := 1 }).freezeFlag = 1 ∧
    (openDoorCallBackFunction^[12] { boot [] [] with freezeFlag := 1 }).freezeFlag = 0 ∧
    (alarmCallBackFunction^[6] { boot [] [] with freezeFlag := 1 }).freezeFlag = 1 ∧
    (alarmCallBackFunction^[7] { boot [] [] with freezeFlag := 1 }).freezeFlag = 0 := by
  obtain ⟨-, -, h1, h2, h3, h4⟩ := C18_same_tick_schedule
    { Control.boot (fun _ => 0) [] with freezeFlag := 1 }
    { boot [] [] with freezeFlag := 1 } 12 rfl rfl rfl rfl rfl rfl
  exact ⟨(h1 11 (by omega)).2, h2.2, (h3 6 (by omega)).2, h4.2⟩

/-! ### Menu key -/

theorem exists_first_menu_key :
    ∀ (keys : List Nat), (∃ x, x ∈ keys ∧ (x = 43 ∨ x = 45)) →
      ∃ pre key post, keys = pre ++ key :: post ∧
        (∀ x, x ∈ pre → x ≠ 43 ∧ x ≠ 45) ∧ (key = 43 ∨ key = 45) := by
  intro keys
  induction keys with
  | nil => rintro ⟨x, hx, -⟩; cases hx
  | cons k ks ih =>
    rintro ⟨x, hx, hp⟩
    by_cases hk : k = 43 ∨ k = 45
    · exact ⟨[], k, ks, rfl, fun _ h => absurd h (List.not_mem_nil _), hk⟩
    · have hx' : x ∈ ks := by
        rcases List.mem_cons.1 hx with h | h
        · rw [h] at hp; exact absurd hp hk
        · exact h
      obtain ⟨pre, key, post, e, h1, h2⟩ := ih ⟨x, hx', hp⟩
      refine ⟨k :: pre, key, post, by rw [e]; rfl, ?_, h2⟩
      intro y hy
      rcases List.mem_cons.1 hy with h | h
      · rw [h]; exact ⟨fun e1 => hk (Or.inl e1), fun e2 => hk (Or.inr e2)⟩
      · exact h1 y h

theorem menuKeyLoop_first (key : Nat) (post : List Nat) (hkey : key = 43 ∨ key = 45) :
    ∀ (pre : List Nat) (trace : List Event), (∀ x, x ∈ pre → x ≠ 43 ∧ x ≠ 45) →
      menuKeyLoop (pre ++ key :: post) trace =
        some (key, post, trace ++ List.replicate (pre.length + 1) (Event.delay_ms 500)) ∧
      (pre ++ key :: post).find? (fun k => decide (k = 43 ∨ k = 45)) = some key := by
  intro pre
  induction pre with
  | nil =>
    intro trace _
    simp [menuKeyLoop, hkey]
  | cons k ks ih =>
    intro trace hpre
    have hk : ¬ (k = 43 ∨ k = 45) := by
      have := hpre k (List.mem_cons_self _ _)
      intro h
      rcases h with h | h
      · exact this.1 h
      · exact this.2 h
    obtain ⟨i1, i2⟩ := ih (trace ++ [Event.delay_ms 500])
      (fun x hx => hpre x (List.mem_cons_of_mem _ hx))
    constructor
    · rw [List.cons_append, menuKeyLoop, if_neg hk, i1]
      simp [List.replicate_succ]
    · simp only [List.cons_append, List.find?_cons, hk, decide_False]
      exact i2

theorem uartSent_delays (n ms : Nat) :
    uartSent (List.replicate n (Event.delay_ms ms)) = [] := by
  induction n with
  | zero => rfl
  | succ n ih => simp [List.replicate_succ, uartSent, ih]

/-- One iteration of the main loop of ECU1.c when the Control side announces
`MAIN_SCREEN` (the byte 1). -/
theorem interface_mainIteration_menu (h : ECU1) (pre post : List Nat) (key : Nat)
    (hkeys : h.keys = pre ++ key :: post) (hpre : ∀ x, x ∈ pre → x ≠ 43 ∧ x ≠ 45)
    (hkey : key = 43 ∨ key = 45) (j j' rest : List Nat) (hj : MC2_ASK ∉ j)
    (hj' : MC2_READY ∉ j') (hrx : h.rx = j ++ MC2_ASK :: 1 :: (j' ++ MC2_READY :: rest))
    (ticks : Nat) :
    ∃ h', mainIteration ticks h = some h' ∧ h'.keys = post ∧ h'.rx = rest ∧
      h'.state = WAITING.code ∧
      uartSent h'.trace = uartSent h.trace ++ [MC1_READY, MC1_ASK, key] := by
  unfold mainIteration
  rw [waitFor_noise MC2_ASK h j _ hj hrx]
  simp only [Option.bind_eq_bind, Option.some_bind, bind, UART_recieveByte, UART_sendByte,
    emit, dispatch, APPLICATION_STATE.ofCode, LCD_clearScreen, LCD_displayString,
    LCD_displayStringRowColumn, hkeys]
  rw [(menuKeyLoop_first key post hkey pre _ hpre).1]
  simp only [Option.some_bind]
  rw [waitFor_noise MC2_READY _ j' rest hj' rfl]
  simp only [Option.some_bind]
  refine ⟨_, rfl, rfl, rfl, rfl, ?_⟩
  simp only [uartSent_append, uartSent_delays, List.append_nil, List.append_assoc,
    List.nil_append]
  rfl

/-- C19: the Interface side only ever transmits `+` (43) or `-` (45) as the
menu key.  For every keypad key stream that contains a `+` or a `-`, the
iteration of the Interface-side main loop that is told `MAIN_SCREEN` returns,
and the bytes it sends are `MC1_READY`, `MC1_ASK` and the first key of the
stream that is `+` or `-`; the keys before it are discarded and the keys after
it are left.  The Control side in `MAIN_SCREEN` that receives these bytes
leaves `MAIN_SCREEN`: for `OPEN_DOOR` on `+`, for `CHANGE_PASS` on `-`. -/
theorem C19_menu_key_is_plus_or_minus (h : ECU1)
    (hex : ∃ x, x ∈ h.keys ∧ (x = 43 ∨ x = 45))
    (j j' rest : List Nat) (hj : MC2_ASK ∉ j) (hj' : MC2_READY ∉ j')
    (hrx : h.rx = j ++ MC2_ASK :: 1 :: (j' ++ MC2_READY :: rest)) (ticks : Nat)
    (c : Control.ECU2) (hc : c.state = Control.APPLICATION_STATE.MAIN_SCREEN)
    (crest : List Nat) (cticks : Nat) :
    Char.toNat '+' = 43 ∧ Char.toNat '-' = 45 ∧
    ∃ key pre post, h.keys = pre ++ key :: post ∧
      (∀ x, x ∈ pre → x ≠ 43 ∧ x ≠ 45) ∧ (key = 43 ∨ key = 45) ∧
      h.keys.find? (fun k => decide (k = 43 ∨ k = 45)) = some key ∧
      (∃ h', mainIteration ticks h = some h' ∧
        uartSent h'.trace = uartSent h.trace ++ [MC1_READY, MC1_ASK, key] ∧
        h'.keys = post ∧ h'.rx = rest) ∧
      (c.rx = [MC1_READY, MC1_ASK, key] ++ crest →
        ∃ c', Control.mainIteration cticks c = some c' ∧
          c'.state ≠ Control.APPLICATION_STATE.MAIN_SCREEN ∧
          (key = 43 → c'.state = Control.APPLICATION_STATE.OPEN_DOOR) ∧
          (key = 45 → c'.state = Control.APPLICATION_STATE.CHANGE_PASS) ∧
          c'.rx = crest) := by
  obtain ⟨pre, key, post, hkeys, hpre, hkey⟩ := exists_first_menu_key h.keys hex
  refine ⟨by decide, by decide, key, pre, post, hkeys, hpre, hkey, ?_, ?_, ?_⟩
  · rw [hkeys]
    exact (menuKeyLoop_first key post hkey pre [] hpre).2
  · obtain ⟨h', e1, e2, e3, -, e5⟩ :=
      interface_mainIteration_menu h pre post key hkeys hpre hkey j j' rest hj hj' hrx ticks
    exact ⟨h', e1, e5, e2, e3⟩
  · intro hcrx
    have hm := Control.mainIteration_menu c hc [] [] key crest (by simp) (by simp) hcrx cticks
    refine ⟨_, hm, ?_, ?_, ?_, rfl⟩
    · rcases hkey with hk | hk <;> simp [hk]
    · intro hk; simp [hk]
    · intro hk; simp [hk]

/-- The menu round of C19 on the keys 1, `=`, `-`, `+`: the Interface side
sends `-` and the Control side goes to `CHANGE_PASS`. -/
theorem C19_witness :
    (∃ h', mainIteration 0 (boot [1, 61, 45, 43] [1, 1, 4]) = some h' ∧
      uartSent h'.trace = [2, 3, 45] ∧ h'.keys = [43]) ∧
    (∃ c', Control.mainIteration 0
        { Control.boot (fun _ => 0) [2, 3, 45] with
          state := Control.APPLICATION_STATE.MAIN_SCREEN } = some c' ∧
      c'.state = Control.APPLICATION_STATE.CHANGE_PASS) := by
  obtain ⟨-, -, key, pre, post, hkeys, hpre, hkey, hfind, ⟨h', e1, e2, e3, -⟩, hctl⟩ :=
    C19_menu_key_is_plus_or_minus (boot [1, 61, 45, 43] [1, 1, 4]) ⟨45, by decide, Or.inr rfl⟩
      [] [] [] (by simp) (by simp) rfl 0
      { Control.boot (fun _ => 0) [2, 3, 45] with
        state := Control.APPLICATION_STATE.MAIN_SCREEN } rfl [] 0
  have hk : key = 45 := by
    have : (boot [1, 61, 45, 43] [1, 1, 4]).keys.find? (fun k => decide (k = 43 ∨ k = 45))
        = some 45 := by decide
    rw [this] at hfind
    exact (Option.some.inj hfind).symm
  subst hk
  have hpost : post = [43] := by
    have hlen : (boot [1, 61, 45, 43] [1, 1, 4]).keys = [1, 61, 45, 43] := rfl
    rw [hlen] at hkeys
    match pre, hpre, hkeys with
    | [], _, hk => simp at hk
    | [a], _, hk => simp at hk
    | [a, b], _, hk =>
      simp at hk
      exact hk.2.2.symm
    | [a, b, c], _, hk => simp at hk
    | a :: b :: c :: d :: l, _, hk => simp at hk
  obtain ⟨c', f1, -, -, f2, -⟩ := hctl rfl
  refine ⟨⟨h', e1, ?_, ?_⟩, c', f1, f2 rfl⟩
  · rw [e2]; rfl
  · rw [e3, hpost]

end Human_Interface
